import Mathlib

/-!
# fish-eater: a shallow embedding of `src/game.js`

The simulation core of the game (chunk streaming, fish behaviour, eating,
growth) is embedded as pure functions on an explicit game state.

* Numbers.  JavaScript numbers are modelled exactly, as elements of a linearly
  ordered field `K` with a floor function.  All definitions are generic in `K`:
  at `K = ℚ` they evaluate, at `K = ℝ` they give the exact real semantics.
* Doubles.  Where the rounding of doubles decides the property (the speed limit
  of `updateFish`, the countdown of `updateBloodParticles`) the source is
  translated a second time with every operation rounded by a function `fl`
  (`updateFishRounded`, `updateBloodParticlesRounded`); `roundDouble` is the
  rounding to 53 bits, ties to even, and `fl = id` gives the exact definitions.
* `Math`.  The transcendental functions of the `Math` object are passed as a
  record `JSMath K`; `JSMath.IsReal` says that a record over `ℝ` is the real one.
* `Math.random()`.  The draws are a stream `rand : ℕ → K`; the state counts the
  calls made so far (`randomCalls`), so the `n`-th call returns `rand n`.
* Module-level mutable objects (`world`, `shark`, `fishPieces`, ...) become the
  fields of one record `Game K`, passed through every function.
* The two `Set`s of chunk keys are insertion-ordered lists without duplicates;
  a key, in the source the string `chunkX,chunkY` of two integers, is the pair.
-/

namespace FishEater

set_option linter.unusedSectionVars false
set_option linter.unusedVariables false

/-! ## Data model -/

/-- The functions and constants of the JavaScript `Math` object that the game
calls and that are not field operations. -/
structure JSMath (K : Type) where
  sqrt : K → K
  cos : K → K
  sin : K → K
  atan2 : K → K → K
  PI : K

/-- The record `M` over the reals is the real `Math` object. -/
def JSMath.IsReal (M : JSMath ℝ) : Prop :=
  M.sqrt = Real.sqrt ∧ M.cos = Real.cos ∧ M.sin = Real.sin ∧ M.PI = Real.pi ∧
    ∀ y x : ℝ, M.atan2 y x = Complex.arg ⟨x, y⟩

/-- A chunk key: the source builds the string of `chunkX` and `chunkY`. -/
abbrev ChunkKey := ℤ × ℤ

/-- A JavaScript `Set` of chunk keys, in insertion order. -/
abbrev Registry := List ChunkKey

/-- The method `Set.prototype.has`. -/
def Registry.has (s : Registry) (k : ChunkKey) : Bool := decide (k ∈ s)

/-- The method `Set.prototype.add`. -/
def Registry.add (s : Registry) (k : ChunkKey) : Registry :=
  if k ∈ s then s else s ++ [k]

/-- The method `Set.prototype.delete`. -/
def Registry.delete (s : Registry) (k : ChunkKey) : Registry :=
  s.filter (fun j => decide (j ≠ k))

/-- The object `world`. -/
structure World (K : Type) where
  surfaceY : K
  bottomY : K
  offsetX : K
  offsetY : K
  skyHeight : K
  oceanDepth : K
  sandHeight : K

/-- The object `shark`. -/
structure Shark (K : Type) where
  x : K
  y : K
  width : K
  height : K
  baseWidth : K
  baseHeight : K
  growthFactor : K
  speed : K
  direction : K
  targetX : K
  targetY : K

/-- The object `mouse`. -/
structure Mouse (K : Type) where
  x : K
  y : K
  isOnScreen : Bool

/-- The object `gameStats`. -/
structure GameStats where
  fishEaten : ℕ
  slowFishEaten : ℕ
  fastFishEaten : ℕ
deriving DecidableEq

/-- An element of `seaweedPieces`. -/
structure Seaweed (K : Type) where
  x : K
  y : K
  height : K
  sway : K
  speed : K
  chunkKey : ChunkKey

/-- The field `type` of a fish: the strings `normal` and `green`. -/
inductive FishType where
  | normal
  | green
deriving DecidableEq

/-- The field `state` of a green fish: the three strings the source assigns. -/
inductive FishState where
  | hiding
  | emerging
  | returning
deriving DecidableEq

/-- An element of `fishPieces`.  `homeX`, `homeY`, `state` and `stateTimer` exist
on green fish only; the source never reads them on a normal fish, and the
embedding stores `0` and `hiding` there.  `isFleeing` and the four wander fields
are created by `updateFish`; `none` is the source's `undefined`. -/
structure Fish (K : Type) where
  x : K
  y : K
  vx : K
  vy : K
  size : K
  speed : K
  fleeDistance : K
  color : String
  chunkKey : ChunkKey
  type : FishType
  homeX : K
  homeY : K
  state : FishState
  stateTimer : ℕ
  isFleeing : Option Bool
  baseSpeed : Option K
  swimDirection : Option K
  depthOscillation : Option K
  directionChangeTimer : Option K

/-- An element of `bloodParticles`. -/
structure Particle (K : Type) where
  x : K
  y : K
  vx : K
  vy : K
  size : K
  maxSize : K
  life : K
  maxLife : K
  gravity : K
  fade : K

/-- The whole mutable state of the module, with the canvas size that
`getGameDimensions` reads and the number of `Math.random()` calls made. -/
structure Game (K : Type) where
  canvasWidth : K
  canvasHeight : K
  world : World K
  shark : Shark K
  mouse : Mouse K
  seaweedPieces : List (Seaweed K)
  generatedChunks : Registry
  fishPieces : List (Fish K)
  fishGeneratedChunks : Registry
  gameStats : GameStats
  bloodParticles : List (Particle K)
  randomCalls : ℕ

variable {K : Type} [LinearOrderedField K] [FloorRing K]

/-- The constant `seaweedDensity`. -/
def seaweedDensity : K := 0.0025

/-- The constant `fishDensity`. -/
def fishDensity : K := 0.0005

/-- The body of a counting loop, run for `i = start, start + 1, ...` `n` times. -/
def forLoop {σ : Type} (body : ℕ → σ → σ) : ℕ → ℕ → σ → σ
  | 0, _, s => s
  | n + 1, start, s => forLoop body n (start + 1) (body start s)

/-- The integers `lo, lo + 1, ..., hi` of a loop `for (d = lo; d <= hi; d++)`. -/
def intRange (lo hi : ℤ) : List ℤ :=
  (List.range (hi + 1 - lo).toNat).map (fun i => lo + (i : ℤ))

/-! ## Chunk manager -/

/-- The constant `chunkSize` of `getChunkCoords`, the field `size` of its result. -/
def chunkSize : K := 800

/-- The function `getChunkCoords`, fields `x` and `y` of the result. -/
def getChunkCoords (worldX worldY : K) : ChunkKey :=
  (⌊worldX / chunkSize⌋, ⌊worldY / chunkSize⌋)

/-- The local `count` of `generateSeaweedChunk`: the number of attempts. -/
def seaweedCount (size : K) : ℤ :=
  let area := (size * size) / 10000
  ⌊area * seaweedDensity * 100⌋

/-- The local `count` of `generateFishChunk`: the number of attempts. -/
def fishCount (size : K) : ℤ :=
  let area := (size * size) / 10000
  ⌊area * fishDensity * 100⌋

/-- The seaweed object that an accepted attempt of `generateSeaweedChunk`
pushes; `n` is the number of `Math.random()` calls made before the attempt. -/
def spawnSeaweed (M : JSMath K) (rand : ℕ → K) (chunkX chunkY : ℤ) (size : K) (n : ℕ) :
    Seaweed K :=
  { x := (chunkX : K) * size + rand n * size,
    y := (chunkY : K) * size + rand (n + 1) * size,
    height := 30 + rand (n + 2) * 60,
    sway := rand (n + 3) * M.PI * 2,
    speed := 0.02 + rand (n + 4) * 0.03,
    chunkKey := (chunkX, chunkY) }

/-- The green fish that an attempt of `generateSeaweedChunk` pushes after its
seaweed; `n` is the number of `Math.random()` calls made before the attempt. -/
def spawnLurker (rand : ℕ → K) (chunkX chunkY : ℤ) (size : K) (n : ℕ) : Fish K :=
  let x := (chunkX : K) * size + rand n * size
  let y := (chunkY : K) * size + rand (n + 1) * size
  let homeX := x
  let homeY := y + 10
  { x := homeX, y := homeY, vx := 0, vy := 0,
    size := 11 + rand (n + 6) * 5,
    speed := 1.3 + rand (n + 7) * 0.4,
    fleeDistance := 120 + rand (n + 8) * 80,
    color := "#2ecc40", chunkKey := (chunkX, chunkY), type := FishType.green,
    homeX := homeX, homeY := homeY, state := FishState.hiding, stateTimer := 0,
    isFleeing := none, baseSpeed := none, swimDirection := none,
    depthOscillation := none, directionChangeTimer := none }

/-- One iteration of the loop of `generateSeaweedChunk`. -/
def seaweedAttempt (M : JSMath K) (rand : ℕ → K) (chunkX chunkY : ℤ) (size : K)
    (g : Game K) : Game K :=
  let n := g.randomCalls
  let y := (chunkY : K) * size + rand (n + 1) * size
  let minY := g.world.surfaceY + 100
  let maxY := g.world.bottomY - 50
  if y ≥ minY ∧ y ≤ maxY then
    let g1 := { g with
      seaweedPieces := g.seaweedPieces ++ [spawnSeaweed M rand chunkX chunkY size n],
      randomCalls := n + 6 }
    if rand (n + 5) < 0.12 then
      { g1 with fishPieces := g1.fishPieces ++ [spawnLurker rand chunkX chunkY size n],
                randomCalls := n + 9 }
    else g1
  else { g with randomCalls := n + 2 }

/-- The function `generateSeaweedChunk`. -/
def generateSeaweedChunk (M : JSMath K) (rand : ℕ → K) (chunkX chunkY : ℤ) (size : K)
    (g : Game K) : Game K :=
  let chunkKey : ChunkKey := (chunkX, chunkY)
  if g.generatedChunks.has chunkKey then g
  else
    let g1 := { g with generatedChunks := g.generatedChunks.add chunkKey }
    forLoop (fun _ s => seaweedAttempt M rand chunkX chunkY size s) (seaweedCount size).toNat 0 g1

/-- The fish object that an accepted attempt of `generateFishChunk` pushes; `n`
is the number of `Math.random()` calls made before the attempt. -/
def spawnFish (rand : ℕ → K) (chunkX chunkY : ℤ) (size : K) (n : ℕ) : Fish K :=
  let fishType := rand (n + 2)
  { x := (chunkX : K) * size + rand n * size,
    y := (chunkY : K) * size + rand (n + 1) * size,
    vx := (rand (n + 5) - 0.5) * 2,
    vy := (rand (n + 6) - 0.5) * 2,
    size := if fishType < 0.6 then 10 + rand (n + 4) * 8 else 6 + rand (n + 4) * 6,
    speed := if fishType < 0.6 then 1.2 + rand (n + 3) * 0.6 else 2.2 + rand (n + 3) * 0.8,
    fleeDistance := 120 + rand (n + 7) * 80,
    color := if fishType < 0.6 then "#FFD700" else "#FF6347",
    chunkKey := (chunkX, chunkY), type := FishType.normal,
    homeX := 0, homeY := 0, state := FishState.hiding, stateTimer := 0,
    isFleeing := none, baseSpeed := none, swimDirection := none,
    depthOscillation := none, directionChangeTimer := none }

/-- One iteration of the loop of `generateFishChunk`. -/
def fishAttempt (rand : ℕ → K) (chunkX chunkY : ℤ) (size : K) (g : Game K) : Game K :=
  let n := g.randomCalls
  let y := (chunkY : K) * size + rand (n + 1) * size
  let minY := g.world.surfaceY + 80
  let maxY := g.world.bottomY - 80
  if y ≥ minY ∧ y ≤ maxY then
    { g with fishPieces := g.fishPieces ++ [spawnFish rand chunkX chunkY size n],
             randomCalls := n + 8 }
  else { g with randomCalls := n + 2 }

/-- The function `generateFishChunk`. -/
def generateFishChunk (rand : ℕ → K) (chunkX chunkY : ℤ) (size : K) (g : Game K) : Game K :=
  let chunkKey : ChunkKey := (chunkX, chunkY)
  if g.fishGeneratedChunks.has chunkKey then g
  else
    let g1 := { g with fishGeneratedChunks := g.fishGeneratedChunks.add chunkKey }
    forLoop (fun _ s => fishAttempt rand chunkX chunkY size s) (fishCount size).toNat 0 g1

/-- The x coordinate `viewCenterX` that `manageSeaweedChunks` computes. -/
def viewCenterX (g : Game K) : K := -g.world.offsetX

/-- The y coordinate `viewCenterY` that `manageSeaweedChunks` computes. -/
def viewCenterY (g : Game K) : K := -g.world.offsetY + g.canvasHeight / 2

/-- The generation loops of `manageSeaweedChunks`: `dx` outer, `dy` inner. -/
def generateAround (M : JSMath K) (rand : ℕ → K) (cx cy : ℤ) (size : K) (g : Game K) :
    Game K :=
  let rangeX : ℤ := 2
  let rangeY : ℤ := 1
  (intRange (-rangeX) rangeX).foldl (fun s dx =>
    (intRange (-rangeY) rangeY).foldl (fun s dy =>
      let chunkX := cx + dx
      let chunkY := cy + dy
      generateFishChunk rand chunkX chunkY size
        (generateSeaweedChunk M rand chunkX chunkY size s)) s) g

/-- The first removal loop of `manageSeaweedChunks`, for the indices below `i`,
from `i - 1` down to `0`. -/
def evictSeaweed (cx cy maxDistance : K) : ℕ → Game K → Game K
  | 0, g => g
  | i + 1, g =>
    match g.seaweedPieces[i]? with
    | none => evictSeaweed cx cy maxDistance i g
    | some seaweed =>
      let distanceX := |seaweed.x - cx|
      let distanceY := |seaweed.y - cy|
      if distanceX > maxDistance ∨ distanceY > maxDistance then
        evictSeaweed cx cy maxDistance i
          { g with generatedChunks := g.generatedChunks.delete seaweed.chunkKey,
                   seaweedPieces := g.seaweedPieces.eraseIdx i }
      else evictSeaweed cx cy maxDistance i g

/-- The second removal loop of `manageSeaweedChunks`, for the indices below `i`,
from `i - 1` down to `0`. -/
def evictFish (cx cy maxDistance : K) : ℕ → Game K → Game K
  | 0, g => g
  | i + 1, g =>
    match g.fishPieces[i]? with
    | none => evictFish cx cy maxDistance i g
    | some fish =>
      let distanceX := |fish.x - cx|
      let distanceY := |fish.y - cy|
      if distanceX > maxDistance ∨ distanceY > maxDistance then
        evictFish cx cy maxDistance i
          { g with fishGeneratedChunks := g.fishGeneratedChunks.delete fish.chunkKey,
                   fishPieces := g.fishPieces.eraseIdx i }
      else evictFish cx cy maxDistance i g

/-- The function `manageSeaweedChunks`. -/
def manageSeaweedChunks (M : JSMath K) (rand : ℕ → K) (g : Game K) : Game K :=
  let currentChunk := getChunkCoords (viewCenterX g) (viewCenterY g)
  let g1 := generateAround M rand currentChunk.1 currentChunk.2 chunkSize g
  let maxDistance : K := chunkSize * 3
  let g2 := evictSeaweed (viewCenterX g) (viewCenterY g) maxDistance g1.seaweedPieces.length g1
  evictFish (viewCenterX g) (viewCenterY g) maxDistance g2.fishPieces.length g2

/-- The function `initializeGame`. -/
def initializeGame (M : JSMath K) (rand : ℕ → K) (g : Game K) : Game K :=
  let surfaceY := g.world.skyHeight
  let world := { g.world with surfaceY := surfaceY, bottomY := surfaceY + g.world.oceanDepth }
  let x := g.canvasWidth / 2
  let y := g.canvasHeight / 2
  let shark := { g.shark with x := x, y := y, targetX := x, targetY := y, growthFactor := 1.0,
                              width := g.shark.baseWidth, height := g.shark.baseHeight }
  manageSeaweedChunks M rand
    { g with world := world, shark := shark,
             gameStats := { fishEaten := 0, slowFishEaten := 0, fastFishEaten := 0 },
             mouse := { x := g.canvasWidth / 2, y := g.canvasHeight / 2, isOnScreen := false },
             seaweedPieces := [], generatedChunks := [],
             fishPieces := [], fishGeneratedChunks := [] }

/-- The module-level initial values of `world`, `shark`, `mouse` and the empty
collections, before `initializeGame` runs, on a canvas of the given size. -/
def moduleState (canvasWidth canvasHeight : K) : Game K :=
  { canvasWidth := canvasWidth, canvasHeight := canvasHeight,
    world := { surfaceY := 0, bottomY := 0, offsetX := 0, offsetY := 0,
               skyHeight := 150, oceanDepth := 2000, sandHeight := 100 },
    shark := { x := 0, y := 0, width := 80, height := 40, baseWidth := 80, baseHeight := 40,
               growthFactor := 1.0, speed := 2, direction := 0, targetX := 0, targetY := 0 },
    mouse := { x := 0, y := 0, isOnScreen := false },
    seaweedPieces := [], generatedChunks := [],
    fishPieces := [], fishGeneratedChunks := [],
    gameStats := { fishEaten := 0, slowFishEaten := 0, fastFishEaten := 0 },
    bloodParticles := [], randomCalls := 0 }

/-- A call of `manageSeaweedChunks` after the world offset has been set to `o`. -/
def manageAt (M : JSMath K) (rand : ℕ → K) (g : Game K) (o : K × K) : Game K :=
  manageSeaweedChunks M rand { g with world := { g.world with offsetX := o.1, offsetY := o.2 } }

/-- The test of the two removal loops of `manageSeaweedChunks`, negated: an
entity at `(x, y)` stays. -/
def inView (cx cy maxDistance x y : K) : Bool :=
  decide (¬ (|x - cx| > maxDistance ∨ |y - cy| > maxDistance))

/-! ## Particles and eating -/

/-- One iteration of the loop of `createBloodEffect`. -/
def bloodParticle (M : JSMath K) (rand : ℕ → K) (fishX fishY fishSize : K) (particleCount : ℤ)
    (i : ℕ) (g : Game K) : Game K :=
  let n := g.randomCalls
  let angle := (M.PI * 2 * (i : K)) / (particleCount : K) + (rand n - 0.5) * 1.0
  let speed := 0.3 + rand (n + 1) * 0.4
  let size := 1.5 + rand (n + 2) * 3
  let particle : Particle K :=
    { x := fishX + (rand (n + 3) - 0.5) * fishSize * 0.5,
      y := fishY + (rand (n + 4) - 0.5) * fishSize * 0.5,
      vx := M.cos angle * speed,
      vy := M.sin angle * speed,
      size := size, maxSize := size, life := 1.0,
      maxLife := 120 + rand (n + 5) * 60,
      gravity := 0.005 + rand (n + 6) * 0.005,
      fade := 0.99 - rand (n + 7) * 0.01 }
  { g with bloodParticles := g.bloodParticles ++ [particle], randomCalls := n + 8 }

/-- The function `createBloodEffect`. -/
def createBloodEffect (M : JSMath K) (rand : ℕ → K) (fishX fishY fishSize : K)
    (g : Game K) : Game K :=
  let particleCount : ℤ := min (12 + ⌊fishSize / 2⌋) 20
  forLoop (bloodParticle M rand fishX fishY fishSize particleCount) particleCount.toNat 0 g

/-- The function `handleFishEaten`. -/
def handleFishEaten (M : JSMath K) (rand : ℕ → K) (fish : Fish K) (fishIndex : ℕ)
    (g : Game K) : Game K :=
  let g1 := createBloodEffect M rand fish.x fish.y fish.size g
  let stats1 := { g1.gameStats with fishEaten := g1.gameStats.fishEaten + 1 }
  let stats2 :=
    if fish.color = "#FFD700" then { stats1 with slowFishEaten := stats1.slowFishEaten + 1 }
    else { stats1 with fastFishEaten := stats1.fastFishEaten + 1 }
  let growthAmount : K :=
    if fish.color = "#FFD700" then 0.02 + fish.size / 500 else 0.015 + fish.size / 600
  let growthFactor := g1.shark.growthFactor + growthAmount
  let shark := { g1.shark with growthFactor := growthFactor,
                               width := g1.shark.baseWidth * growthFactor,
                               height := g1.shark.baseHeight * growthFactor }
  let g2 := { g1 with gameStats := stats2, shark := shark }
  let g3 := createBloodEffect M rand fish.x fish.y fish.size g2
  { g3 with fishPieces := g3.fishPieces.eraseIdx fishIndex }

/-- The mouth point `(mouthWorldX, mouthWorldY)` that `updateFishEating` computes. -/
def mouthPoint (M : JSMath K) (g : Game K) : K × K :=
  let sharkCenterWorldX := (g.shark.x + g.shark.width / 2) - g.world.offsetX
  let sharkCenterWorldY := (g.shark.y + g.shark.height / 2) - g.world.offsetY
  let angle := g.shark.direction * (M.PI / 180)
  let mouthDistance := g.shark.width * 0.4
  if |angle| > M.PI / 2 then
    let flippedAngle := M.PI - angle
    (sharkCenterWorldX - M.cos flippedAngle * mouthDistance,
     sharkCenterWorldY + M.sin flippedAngle * mouthDistance)
  else
    (sharkCenterWorldX + M.cos angle * mouthDistance,
     sharkCenterWorldY + M.sin angle * mouthDistance)

/-- The scan of `updateFishEating`, for the indices below `i`, from `i - 1` down
to `0`. -/
def eatLoop (M : JSMath K) (rand : ℕ → K) (mouthWorldX mouthWorldY eatRadius : K) :
    ℕ → Game K → Game K
  | 0, g => g
  | i + 1, g =>
    match g.fishPieces[i]? with
    | none => eatLoop M rand mouthWorldX mouthWorldY eatRadius i g
    | some fish =>
      let deltaX := fish.x - mouthWorldX
      let deltaY := fish.y - mouthWorldY
      let distance := M.sqrt (deltaX * deltaX + deltaY * deltaY)
      if distance < eatRadius then
        eatLoop M rand mouthWorldX mouthWorldY eatRadius i (handleFishEaten M rand fish i g)
      else eatLoop M rand mouthWorldX mouthWorldY eatRadius i g

/-- The function `updateFishEating`. -/
def updateFishEating (M : JSMath K) (rand : ℕ → K) (g : Game K) : Game K :=
  let mouth := mouthPoint M g
  let baseEatRadius : K := 30
  let eatRadius := baseEatRadius * g.shark.growthFactor
  eatLoop M rand mouth.1 mouth.2 eatRadius g.fishPieces.length g

/-- A sequence of eating events: `handleFishEaten` called on each fish with its
index, in order. -/
def eatEvents (M : JSMath K) (rand : ℕ → K) (events : List (Fish K × ℕ)) (g : Game K) :
    Game K :=
  events.foldl (fun s e => handleFishEaten M rand e.1 e.2 s) g

/-! ## Fish behaviour -/

/-- The vertical bounds test that ends both branches of `updateFish`. -/
def clampY (w : World K) (fish : Fish K) : Fish K :=
  let minY := w.surfaceY + 80
  let maxY := w.bottomY - 80
  let f1 := if fish.y < minY then { fish with y := minY, vy := |fish.vy| } else fish
  if f1.y > maxY then { f1 with y := maxY, vy := -|f1.vy| } else f1

/-- The distance `sharkDist` that the green branch of `updateFish` computes. -/
def sharkDist (M : JSMath K) (sharkWorldX sharkWorldY : K) (fish : Fish K) : K :=
  M.sqrt ((fish.x - sharkWorldX) ^ 2 + (fish.y - sharkWorldY) ^ 2)

/-- The distance of a fish from its home, as the green branch computes it. -/
def homeDist (M : JSMath K) (fish : Fish K) : K :=
  M.sqrt ((fish.x - fish.homeX) ^ 2 + (fish.y - fish.homeY) ^ 2)

/-- The state switch of the green branch of `updateFish`, before the position
update. -/
def greenBehave (M : JSMath K) (sharkWorldX sharkWorldY : K) (fish : Fish K) : Fish K :=
  let sharkDist := sharkDist M sharkWorldX sharkWorldY fish
  match fish.state with
  | FishState.hiding =>
    let f1 := { fish with vx := 0, vy := 0 }
    let f2 := if sharkDist < 120 then { f1 with state := FishState.emerging, stateTimer := 0 }
              else f1
    { f2 with x := f2.homeX, y := f2.homeY }
  | FishState.emerging =>
    let dx := sharkWorldX - fish.x
    let dy := sharkWorldY - fish.y
    let dist := M.sqrt (dx * dx + dy * dy)
    let f1 := if dist > 2 then { fish with vx := (dx / dist) * fish.speed * 0.7,
                                           vy := (dy / dist) * fish.speed * 0.7 }
              else { fish with vx := 0, vy := 0 }
    let f2 := { f1 with stateTimer := f1.stateTimer + 1 }
    if homeDist M f2 > 800 then { f2 with state := FishState.returning } else f2
  | FishState.returning =>
    let dx := fish.homeX - fish.x
    let dy := fish.homeY - fish.y
    let dist := M.sqrt (dx * dx + dy * dy)
    let f1 := if dist > 2 then { fish with vx := (dx / dist) * fish.speed * 0.5,
                                           vy := (dy / dist) * fish.speed * 0.5 }
              else { fish with vx := 0, vy := 0, x := fish.homeX, y := fish.homeY,
                               state := FishState.hiding }
    if sharkDist < 120 then { f1 with state := FishState.emerging, stateTimer := 0 } else f1

/-- The green branch of the callback of `updateFish` up to the position update,
before the vertical bounds test. -/
def greenMoved (M : JSMath K) (sharkWorldX sharkWorldY : K) (fish : Fish K) : Fish K :=
  let f1 := greenBehave M sharkWorldX sharkWorldY fish
  { f1 with x := f1.x + f1.vx, y := f1.y + f1.vy }

/-- The green branch of the callback of `updateFish`. -/
def updateGreenFish (M : JSMath K) (w : World K) (sharkWorldX sharkWorldY : K)
    (fish : Fish K) : Fish K :=
  clampY w (greenMoved M sharkWorldX sharkWorldY fish)

/-- The remainder operator `%` of JavaScript on numbers: the result has the
sign of the dividend. -/
def jsRem (a b : K) : K :=
  let q := a / b
  a - b * (if 0 ≤ q then (⌊q⌋ : K) else (⌈q⌉ : K))

/-- The expression `(Math.random() > 0.5 ? 0 : Math.PI) + (Math.random() - 0.5) * 0.3`,
which draws twice, from call `n` on. -/
def headingDraw (M : JSMath K) (rand : ℕ → K) (n : ℕ) : K :=
  (if rand n > 0.5 then 0 else M.PI) + (rand (n + 1) - 0.5) * 0.3

/-- The fleeing branch of the callback of `updateFish`. -/
def fleeBehave (sharkWorldX sharkWorldY distanceToShark : K) (fish : Fish K) : Fish K :=
  let deltaX := fish.x - sharkWorldX
  let deltaY := fish.y - sharkWorldY
  let fleeX := deltaX / distanceToShark
  let fleeY := deltaY / distanceToShark
  let fleeStrength := max 0.5 ((fish.fleeDistance - distanceToShark) / fish.fleeDistance)
  { fish with isFleeing := some true,
              vx := fish.vx + fleeX * fish.speed * fleeStrength * 0.4,
              vy := fish.vy + fleeY * fish.speed * fleeStrength * 0.4 }

/-- The wandering branch of the callback of `updateFish`; `n` is the number of
`Math.random()` calls made before it, the result carries the number after it. -/
def wanderBehave (M : JSMath K) (rand : ℕ → K) (fish : Fish K) (n : ℕ) : Fish K × ℕ :=
  let baseSpeed0 := fish.baseSpeed.getD (0.3 + rand n * 0.2)
  let n1 := if fish.baseSpeed.isSome then n else n + 1
  let swimDirection0 := fish.swimDirection.getD (headingDraw M rand n1)
  let n2 := if fish.swimDirection.isSome then n1 else n1 + 2
  let depthOscillation0 := fish.depthOscillation.getD (rand n2 * M.PI * 2)
  let n3 := if fish.depthOscillation.isSome then n2 else n2 + 1
  let timer0 := fish.directionChangeTimer.getD (rand n3 * 60)
  let n4 := if fish.directionChangeTimer.isSome then n3 else n3 + 1
  let timer1 := timer0 + 1
  let horizontalBias : K := 0.8
  let verticalSubtlety : K := 0.3
  let vx := fish.vx + M.cos swimDirection0 * baseSpeed0 * horizontalBias * 0.04
  let vy1 := fish.vy + M.sin swimDirection0 * baseSpeed0 * verticalSubtlety * 0.04
  let depthOscillation := depthOscillation0 + 0.01
  let vy := vy1 + M.sin depthOscillation * 0.02
  let turn : Bool := decide (timer1 > 60 + rand n4 * 180)
  let n5 := n4 + 1
  let directionChange := (rand n5 - 0.5) * 0.2
  let turned := swimDirection0 + directionChange
  let normalizedDir := jsRem turned (M.PI * 2)
  let upward : Bool := decide (normalizedDir > M.PI * 0.17 ∧ normalizedDir < M.PI * 0.83)
  let downward : Bool := decide (normalizedDir > M.PI * 1.17 ∧ normalizedDir < M.PI * 1.83)
  let swimDirection1 :=
    if turn then (if upward || downward then headingDraw M rand (n5 + 1) else turned)
    else swimDirection0
  let timer2 := if turn then 0 else timer1
  let n6 := if turn then (if upward || downward then n5 + 3 else n5 + 1) else n5
  let reverse : Bool := decide (rand n6 < 0.0005)
  let swimDirection := if reverse then swimDirection1 + M.PI else swimDirection1
  let baseSpeed := if reverse then 0.3 + rand (n6 + 1) * 0.2 else baseSpeed0
  let n7 := if reverse then n6 + 2 else n6 + 1
  ({ fish with isFleeing := some false, vx := vx, vy := vy,
               baseSpeed := some baseSpeed, swimDirection := some swimDirection,
               depthOscillation := some depthOscillation,
               directionChangeTimer := some timer2 }, n7)

/-- The end of the normal branch of the callback of `updateFish` before the
vertical bounds test: drag, the minimum-speed push or the jitter stop, the speed
limit and the position update. -/
def swimMoved (M : JSMath K) (fish : Fish K) : Fish K :=
  let fleeing : Bool := fish.isFleeing.getD false
  let dragFactor : K := if fleeing then 0.92 else 0.96
  let vx1 := fish.vx * dragFactor
  let vy1 := fish.vy * dragFactor
  let minSpeed : K := 0.1
  let slowSpeed := M.sqrt (vx1 * vx1 + vy1 * vy1)
  let pushDirection := fish.swimDirection.getD 0
  let vx2 :=
    if fleeing then (if |vx1| < 0.05 then 0 else vx1)
    else (if slowSpeed < minSpeed then vx1 + M.cos pushDirection * minSpeed * 0.3 else vx1)
  let vy2 :=
    if fleeing then (if |vy1| < 0.05 then 0 else vy1)
    else (if slowSpeed < minSpeed then vy1 + M.sin pushDirection * minSpeed * 0.1 else vy1)
  let currentSpeed := M.sqrt (vx2 * vx2 + vy2 * vy2)
  let maxSpeed := if fleeing then fish.speed * 0.8 else fish.speed * 0.3
  let vx3 := if currentSpeed > maxSpeed then (vx2 / currentSpeed) * maxSpeed else vx2
  let vy3 := if currentSpeed > maxSpeed then (vy2 / currentSpeed) * maxSpeed else vy2
  { fish with vx := vx3, vy := vy3, x := fish.x + vx3, y := fish.y + vy3 }

/-- The end of the normal branch of the callback of `updateFish`: `swimMoved`,
then the vertical bounds test. -/
def swimStep (M : JSMath K) (w : World K) (fish : Fish K) : Fish K :=
  clampY w (swimMoved M fish)

/-- The callback of `updateFish` for one fish; `n` counts the `Math.random()`
calls before it, the result carries the count after it. -/
def updateOneFish (M : JSMath K) (rand : ℕ → K) (w : World K) (sharkWorldX sharkWorldY : K)
    (fish : Fish K) (n : ℕ) : Fish K × ℕ :=
  if fish.type = FishType.green then
    (updateGreenFish M w sharkWorldX sharkWorldY fish, n)
  else
    let deltaX := fish.x - sharkWorldX
    let deltaY := fish.y - sharkWorldY
    let distanceToShark := M.sqrt (deltaX * deltaX + deltaY * deltaY)
    if distanceToShark < fish.fleeDistance ∧ distanceToShark > 0 then
      (swimStep M w (fleeBehave sharkWorldX sharkWorldY distanceToShark fish), n)
    else
      let r := wanderBehave M rand fish n
      (swimStep M w r.1, r.2)

/-- The function `updateFish`: the callback runs on every fish, in order. -/
def updateFish (M : JSMath K) (rand : ℕ → K) (g : Game K) : Game K :=
  let sharkWorldX := g.shark.x - g.world.offsetX
  let sharkWorldY := g.shark.y - g.world.offsetY
  let r := g.fishPieces.foldl
    (fun (acc : List (Fish K) × ℕ) fish =>
      let u := updateOneFish M rand g.world sharkWorldX sharkWorldY fish acc.2
      (acc.1 ++ [u.1], u.2))
    ([], g.randomCalls)
  { g with fishPieces := r.1, randomCalls := r.2 }

/-- The fish of the callback of `updateFish` just before the vertical bounds
test, which both branches end with. -/
def beforeClamp (M : JSMath K) (rand : ℕ → K) (sharkWorldX sharkWorldY : K)
    (fish : Fish K) (n : ℕ) : Fish K :=
  if fish.type = FishType.green then greenMoved M sharkWorldX sharkWorldY fish
  else
    let deltaX := fish.x - sharkWorldX
    let deltaY := fish.y - sharkWorldY
    let distanceToShark := M.sqrt (deltaX * deltaX + deltaY * deltaY)
    if distanceToShark < fish.fleeDistance ∧ distanceToShark > 0 then
      swimMoved M (fleeBehave sharkWorldX sharkWorldY distanceToShark fish)
    else swimMoved M (wanderBehave M rand fish n).1

/-! ## World and shark -/

/-- The local `distance` of `updateWorld`. -/
def targetDistance (M : JSMath K) (g : Game K) : K :=
  let deltaX := g.shark.targetX - g.shark.x
  let deltaY := g.shark.targetY - g.shark.y
  M.sqrt (deltaX * deltaX + deltaY * deltaY)

/-- The local `moveX` of `updateWorld`. -/
def moveX (M : JSMath K) (g : Game K) : K :=
  ((g.shark.targetX - g.shark.x) / targetDistance M g) * g.shark.speed

/-- The local `moveY` of `updateWorld`. -/
def moveY (M : JSMath K) (g : Game K) : K :=
  ((g.shark.targetY - g.shark.y) / targetDistance M g) * g.shark.speed

/-- The function `updateWorld`. -/
def updateWorld (M : JSMath K) (rand : ℕ → K) (g : Game K) : Game K :=
  if !g.mouse.isOnScreen then g
  else
    let deltaX := g.shark.targetX - g.shark.x
    let deltaY := g.shark.targetY - g.shark.y
    let deadZoneRadius : K := 50
    if targetDistance M g > deadZoneRadius then
      let offsetX := g.world.offsetX - moveX M g
      let offsetY := g.world.offsetY - moveY M g
      let direction := M.atan2 deltaY deltaX * (180 / M.PI)
      let currentWorldY := g.shark.y - offsetY
      let offsetY1 :=
        if currentWorldY < g.world.surfaceY + 20 then -(g.world.surfaceY + 20 - g.shark.y)
        else offsetY
      let offsetY2 :=
        if currentWorldY > g.world.bottomY - 20 then -(g.world.bottomY - 20 - g.shark.y)
        else offsetY1
      manageSeaweedChunks M rand
        { g with world := { g.world with offsetX := offsetX, offsetY := offsetY2 },
                 shark := { g.shark with direction := direction } }
    else g

/-- The canvas call `rotate(a)`, as a map of local points. -/
def canvasRotate (M : JSMath K) (a : K) (p : K × K) : K × K :=
  (M.cos a * p.1 - M.sin a * p.2, M.sin a * p.1 + M.cos a * p.2)

/-- The canvas call `scale(sx, sy)`, as a map of local points. -/
def canvasScale (sx sy : K) (p : K × K) : K × K := (sx * p.1, sy * p.2)

/-- The canvas call `translate(tx, ty)`, as a map of local points. -/
def canvasTranslate (tx ty : K) (p : K × K) : K × K := (p.1 + tx, p.2 + ty)

/-- The transform that `drawShark` sets up before it draws the body: the screen
point of a local point of the sprite.  The canvas composes `translate`, then
`scale`, then `rotate`, so the last call acts first on the local point. -/
def drawSharkTransform (M : JSMath K) (g : Game K) (p : K × K) : K × K :=
  let angle := g.shark.direction * (M.PI / 180)
  if |angle| > M.PI / 2 then
    canvasTranslate (g.shark.x + g.shark.width / 2) (g.shark.y + g.shark.height / 2)
      (canvasScale (-1) 1 (canvasRotate M (M.PI - angle) p))
  else
    canvasTranslate (g.shark.x + g.shark.width / 2) (g.shark.y + g.shark.height / 2)
      (canvasRotate M angle p)

/-! ## Particle update -/

/-- The body of the loop of `updateBloodParticles` for one particle, up to the
removal test; the two draws are the calls `n` and `n + 1`. -/
def particleTick (rand : ℕ → K) (n : ℕ) (particle : Particle K) : Particle K :=
  let x := particle.x + particle.vx
  let y := particle.y + particle.vy
  let vy1 := particle.vy + particle.gravity
  let vx2 := particle.vx * 0.995
  let vy2 := vy1 * 0.995
  let vx3 := vx2 + (rand n - 0.5) * 0.02
  let vy3 := vy2 + (rand (n + 1) - 0.5) * 0.02
  let life := particle.life - 1.0 / particle.maxLife
  let lifeProgress := 1 - life
  let size :=
    if lifeProgress < 0.3 then particle.maxSize * (1 + lifeProgress * 0.5)
    else particle.maxSize * 1.15 * (1 - (lifeProgress - 0.3) / 0.7)
  { particle with x := x, y := y, vx := vx3, vy := vy3, life := life, size := size }

/-- The loop of `updateBloodParticles`, for the indices below `i`, from `i - 1`
down to `0`. -/
def updateBloodLoop (rand : ℕ → K) : ℕ → Game K → Game K
  | 0, g => g
  | i + 1, g =>
    match g.bloodParticles[i]? with
    | none => updateBloodLoop rand i g
    | some particle =>
      let p := particleTick rand g.randomCalls particle
      let g1 := { g with bloodParticles := g.bloodParticles.set i p,
                         randomCalls := g.randomCalls + 2 }
      if p.life ≤ 0 then
        updateBloodLoop rand i { g1 with bloodParticles := g1.bloodParticles.eraseIdx i }
      else updateBloodLoop rand i g1

/-- The function `updateBloodParticles`. -/
def updateBloodParticles (rand : ℕ → K) (g : Game K) : Game K :=
  updateBloodLoop rand g.bloodParticles.length g

/-- What one tick does to the pair `(maxLife, life)` of every particle of a
list: the life drops by `1 / maxLife`, and the particle goes when that is not
positive. -/
def agedLives (l : List (K × K)) : List (K × K) :=
  (l.filter (fun p => decide (¬ p.2 - 1 / p.1 ≤ 0))).map (fun p => (p.1, p.2 - 1 / p.1))

/-! ## Sample inputs -/

/-- A normal fish at rest at `(x, y)` with the given colour and size. -/
def fishAt (x y size : K) (color : String) : Fish K :=
  { x := x, y := y, vx := 0, vy := 0, size := size, speed := 1.5, fleeDistance := 150,
    color := color, chunkKey := getChunkCoords x y, type := FishType.normal,
    homeX := 0, homeY := 0, state := FishState.hiding, stateTimer := 0,
    isFleeing := none, baseSpeed := none, swimDirection := none,
    depthOscillation := none, directionChangeTimer := none }

/-- A green fish at `(x, y)` with home `(homeX, homeY)` in the given state. -/
def lurkerAt (x y homeX homeY : K) (state : FishState) (stateTimer : ℕ) : Fish K :=
  { x := x, y := y, vx := 0, vy := 0, size := 12, speed := 1.5, fleeDistance := 150,
    color := "#2ecc40", chunkKey := getChunkCoords homeX (homeY - 10), type := FishType.green,
    homeX := homeX, homeY := homeY, state := state, stateTimer := stateTimer,
    isFleeing := none, baseSpeed := none, swimDirection := none,
    depthOscillation := none, directionChangeTimer := none }

/-- Draws in `[0, 1)`: all `0`, but call 77 returns `799/800`.  From the module
state, call 77 is the `y` draw of the first seaweed attempt of chunk `(-2, 1)`. -/
def boundaryDraws : ℕ → ℚ := fun n => if n = 77 then 799 / 800 else 0

/-- Draws in `[0, 1)`: all `1/4`, but calls 76 and 81 return `0`.  From the module
state, call 76 is the `x` draw of the first seaweed attempt of chunk `(-2, 1)` and
call 81 decides that this stalk gets a green fish. -/
def lurkerDraws : ℕ → ℚ := fun n => if n = 76 ∨ n = 81 then 0 else 1 / 4

/-- Draws in `[0, 1)`: all `1/4`, but calls 76 and 172 return `0`.  From the module
state, these are the `x` draws of the first seaweed attempt and of the first fish
attempt of chunk `(-2, 1)`. -/
def edgeDraws : ℕ → ℚ := fun n => if n = 76 ∨ n = 172 then 0 else 1 / 4

/-- The number of normal fish in the list that carry the key `k`. -/
def normalFishOf (k : ChunkKey) (l : List (Fish K)) : ℕ :=
  l.countP (fun f => decide (f.type = FishType.normal ∧ f.chunkKey = k))

/-- The number of seaweed stalks in the list that carry the key `k`. -/
def seaweedOf (k : ChunkKey) (l : List (Seaweed K)) : ℕ :=
  l.countP (fun a => decide (a.chunkKey = k))

/-- Draws in `[0, 1)`: all `1/4`, but call 981 returns `5/8` and call 985 returns
`0`.  After `initializeGame` from the module state has made its 980 calls, these
are the `y` draw of the first seaweed attempt of chunk `(-2, 2)` and the draw
that gives this stalk a green fish. -/
def deepDraws : ℕ → ℚ := fun n => if n = 981 then 5 / 8 else if n = 985 then 0 else 1 / 4

/-- A rational stand-in for `Math`, to evaluate the embedding on rational
inputs.  Chunk generation and removal use `Math` only for `Math.PI` in the
cosmetic field `sway` of a stalk, which no test reads, so the runs evaluated
with it branch and count exactly as the runs with the real `Math`. -/
def ratMath : JSMath ℚ :=
  { sqrt := fun x => x, cos := fun _ => 1, sin := fun _ => 0, atan2 := fun _ _ => 0, PI := 22 / 7 }

/-- The state `s` comes from `g` by generation steps: entities are only
appended, keys are only marked, and nothing else but the draw count moves. -/
structure Grown (g s : Game K) : Prop where
  canvasWidth : s.canvasWidth = g.canvasWidth
  canvasHeight : s.canvasHeight = g.canvasHeight
  world : s.world = g.world
  shark : s.shark = g.shark
  mouse : s.mouse = g.mouse
  gameStats : s.gameStats = g.gameStats
  bloodParticles : s.bloodParticles = g.bloodParticles
  seaweed : ∃ e, s.seaweedPieces = g.seaweedPieces ++ e
  fish : ∃ e, s.fishPieces = g.fishPieces ++ e
  marked : ∀ k, k ∈ g.generatedChunks → k ∈ s.generatedChunks
  fishMarked : ∀ k, k ∈ g.fishGeneratedChunks → k ∈ s.fishGeneratedChunks

/-- The state `s` comes from `g` by generation steps that added, for every key,
at most `cS` stalks and `cF` normal fish, and none for a key that was marked in
`g` or is unmarked in `s`. -/
def Fresh (g : Game K) (cS cF : ℕ) (s : Game K) : Prop :=
  (∃ e ef, s.seaweedPieces = g.seaweedPieces ++ e ∧ s.fishPieces = g.fishPieces ++ ef ∧
    ∀ k, seaweedOf k e ≤ cS ∧ normalFishOf k ef ≤ cF ∧
      (k ∉ s.generatedChunks → seaweedOf k e = 0) ∧
      (k ∉ s.fishGeneratedChunks → normalFishOf k ef = 0) ∧
      (k ∈ g.generatedChunks → seaweedOf k e = 0) ∧
      (k ∈ g.fishGeneratedChunks → normalFishOf k ef = 0)) ∧
  (∀ k ∈ g.generatedChunks, k ∈ s.generatedChunks) ∧
  (∀ k ∈ g.fishGeneratedChunks, k ∈ s.fishGeneratedChunks)

/-- The state of an 800 by 600 canvas after the assignments of `initializeGame`,
with the world offset `(0, offsetY)`, the pointer active at the target given and
the fish given. -/
def steeringState (offsetY targetX targetY : K) (fishPieces : List (Fish K)) : Game K :=
  { moduleState 800 600 with
    world := { surfaceY := 150, bottomY := 2150, offsetX := 0, offsetY := offsetY,
               skyHeight := 150, oceanDepth := 2000, sandHeight := 100 },
    shark := { x := 400, y := 300, width := 80, height := 40, baseWidth := 80,
               baseHeight := 40, growthFactor := 1.0, speed := 2, direction := 0,
               targetX := targetX, targetY := targetY },
    mouse := { x := targetX, y := targetY, isOnScreen := true },
    fishPieces := fishPieces }

/-- A particle at rest at `(x, y)` with `life = 1`, as `createBloodEffect` spawns
it, and the given `maxLife`. -/
def particleAt (x y maxLife : K) : Particle K :=
  { x := x, y := y, vx := 0, vy := 0, size := 2, maxSize := 2, life := 1.0,
    maxLife := maxLife, gravity := 0.005, fade := 0.99 }

/-! ## The game loop -/

/-- The update calls of `gameLoop`, in the order of the source. -/
def gameTick (M : JSMath K) (rand : ℕ → K) (g : Game K) : Game K :=
  updateBloodParticles rand (updateFishEating M rand (updateWorld M rand (updateFish M rand g)))

/-- The shark's screen position `(x, y)` is the centre `(cw / 2, ch / 2)` of the
canvas, of size `cw` by `ch`, and its width and height are the base values `bw`
and `bh` times the growth factor. -/
def Anchored (cw ch bw bh : K) (s : Game K) : Prop :=
  s.canvasWidth = cw ∧ s.canvasHeight = ch ∧ s.shark.x = cw / 2 ∧ s.shark.y = ch / 2 ∧
  s.shark.baseWidth = bw ∧ s.shark.baseHeight = bh ∧
  s.shark.width = bw * s.shark.growthFactor ∧ s.shark.height = bh * s.shark.growthFactor

/-! ## The update functions with checked divisions -/

/-- The quotient `a / b` with the divisor checked: `none` for a zero divisor. -/
def checkedDiv (a b : K) : Option K := if b = 0 then none else some (a / b)

/-- The remainder `a % b` with the divisor checked: `none` for a zero divisor. -/
def checkedRem (a b : K) : Option K := if b = 0 then none else some (jsRem a b)

/-- The function `updateWorld` with every division by a value that is not a
literal checked.  The call of `manageSeaweedChunks` at its end divides by the
literals `chunkSize = 800`, `10000` and `2` only. -/
def updateWorldChecked (M : JSMath K) (rand : ℕ → K) (g : Game K) : Option (Game K) :=
  if !g.mouse.isOnScreen then some g
  else
    let deltaX := g.shark.targetX - g.shark.x
    let deltaY := g.shark.targetY - g.shark.y
    let distance := M.sqrt (deltaX * deltaX + deltaY * deltaY)
    let deadZoneRadius : K := 50
    if distance > deadZoneRadius then do
      let unitX ← checkedDiv deltaX distance
      let unitY ← checkedDiv deltaY distance
      let moveX := unitX * g.shark.speed
      let moveY := unitY * g.shark.speed
      let offsetX := g.world.offsetX - moveX
      let offsetY := g.world.offsetY - moveY
      let degrees ← checkedDiv 180 M.PI
      let direction := M.atan2 deltaY deltaX * degrees
      let currentWorldY := g.shark.y - offsetY
      let offsetY1 :=
        if currentWorldY < g.world.surfaceY + 20 then -(g.world.surfaceY + 20 - g.shark.y)
        else offsetY
      let offsetY2 :=
        if currentWorldY > g.world.bottomY - 20 then -(g.world.bottomY - 20 - g.shark.y)
        else offsetY1
      pure (manageSeaweedChunks M rand
        { g with world := { g.world with offsetX := offsetX, offsetY := offsetY2 },
                 shark := { g.shark with direction := direction } })
    else some g

/-- The state switch of the green branch of `updateFish`, with checked
divisions. -/
def greenBehaveChecked (M : JSMath K) (sharkWorldX sharkWorldY : K) (fish : Fish K) :
    Option (Fish K) :=
  let sharkDist := sharkDist M sharkWorldX sharkWorldY fish
  match fish.state with
  | FishState.hiding =>
    let f1 := { fish with vx := 0, vy := 0 }
    let f2 := if sharkDist < 120 then { f1 with state := FishState.emerging, stateTimer := 0 }
              else f1
    some { f2 with x := f2.homeX, y := f2.homeY }
  | FishState.emerging => do
    let dx := sharkWorldX - fish.x
    let dy := sharkWorldY - fish.y
    let dist := M.sqrt (dx * dx + dy * dy)
    let f1 ←
      if dist > 2 then do
        let unitX ← checkedDiv dx dist
        let unitY ← checkedDiv dy dist
        pure { fish with vx := unitX * fish.speed * 0.7, vy := unitY * fish.speed * 0.7 }
      else pure { fish with vx := 0, vy := 0 }
    let f2 := { f1 with stateTimer := f1.stateTimer + 1 }
    pure (if homeDist M f2 > 800 then { f2 with state := FishState.returning } else f2)
  | FishState.returning => do
    let dx := fish.homeX - fish.x
    let dy := fish.homeY - fish.y
    let dist := M.sqrt (dx * dx + dy * dy)
    let f1 ←
      if dist > 2 then do
        let unitX ← checkedDiv dx dist
        let unitY ← checkedDiv dy dist
        pure { fish with vx := unitX * fish.speed * 0.5, vy := unitY * fish.speed * 0.5 }
      else pure { fish with vx := 0, vy := 0, x := fish.homeX, y := fish.homeY,
                            state := FishState.hiding }
    pure (if sharkDist < 120 then { f1 with state := FishState.emerging, stateTimer := 0 }
          else f1)

/-- The fleeing branch of the callback of `updateFish`, with checked divisions. -/
def fleeBehaveChecked (sharkWorldX sharkWorldY distanceToShark : K) (fish : Fish K) :
    Option (Fish K) := do
  let deltaX := fish.x - sharkWorldX
  let deltaY := fish.y - sharkWorldY
  let fleeX ← checkedDiv deltaX distanceToShark
  let fleeY ← checkedDiv deltaY distanceToShark
  let closeness ← checkedDiv (fish.fleeDistance - distanceToShark) fish.fleeDistance
  let fleeStrength := max 0.5 closeness
  pure { fish with isFleeing := some true,
                   vx := fish.vx + fleeX * fish.speed * fleeStrength * 0.4,
                   vy := fish.vy + fleeY * fish.speed * fleeStrength * 0.4 }

/-- The wandering branch of the callback of `updateFish`, with the remainder by
`Math.PI * 2` checked; it is taken only when the direction timer has run out. -/
def wanderBehaveChecked (M : JSMath K) (rand : ℕ → K) (fish : Fish K) (n : ℕ) :
    Option (Fish K × ℕ) := do
  let baseSpeed0 := fish.baseSpeed.getD (0.3 + rand n * 0.2)
  let n1 := if fish.baseSpeed.isSome then n else n + 1
  let swimDirection0 := fish.swimDirection.getD (headingDraw M rand n1)
  let n2 := if fish.swimDirection.isSome then n1 else n1 + 2
  let depthOscillation0 := fish.depthOscillation.getD (rand n2 * M.PI * 2)
  let n3 := if fish.depthOscillation.isSome then n2 else n2 + 1
  let timer0 := fish.directionChangeTimer.getD (rand n3 * 60)
  let n4 := if fish.directionChangeTimer.isSome then n3 else n3 + 1
  let timer1 := timer0 + 1
  let horizontalBias : K := 0.8
  let verticalSubtlety : K := 0.3
  let vx := fish.vx + M.cos swimDirection0 * baseSpeed0 * horizontalBias * 0.04
  let vy1 := fish.vy + M.sin swimDirection0 * baseSpeed0 * verticalSubtlety * 0.04
  let depthOscillation := depthOscillation0 + 0.01
  let vy := vy1 + M.sin depthOscillation * 0.02
  let turn : Bool := decide (timer1 > 60 + rand n4 * 180)
  let n5 := n4 + 1
  let directionChange := (rand n5 - 0.5) * 0.2
  let turned := swimDirection0 + directionChange
  let heading ←
    if turn then do
      let normalizedDir ← checkedRem turned (M.PI * 2)
      let upward : Bool := decide (normalizedDir > M.PI * 0.17 ∧ normalizedDir < M.PI * 0.83)
      let downward : Bool := decide (normalizedDir > M.PI * 1.17 ∧ normalizedDir < M.PI * 1.83)
      pure (if upward || downward then (headingDraw M rand (n5 + 1), n5 + 3)
            else (turned, n5 + 1))
    else pure (swimDirection0, n5)
  let swimDirection1 := heading.1
  let timer2 := if turn then 0 else timer1
  let n6 := heading.2
  let reverse : Bool := decide (rand n6 < 0.0005)
  let swimDirection := if reverse then swimDirection1 + M.PI else swimDirection1
  let baseSpeed := if reverse then 0.3 + rand (n6 + 1) * 0.2 else baseSpeed0
  let n7 := if reverse then n6 + 2 else n6 + 1
  pure ({ fish with isFleeing := some false, vx := vx, vy := vy,
                    baseSpeed := some baseSpeed, swimDirection := some swimDirection,
                    depthOscillation := some depthOscillation,
                    directionChangeTimer := some timer2 }, n7)

/-- The end of the normal branch of the callback of `updateFish` before the
vertical bounds test, with the divisions of the speed limit checked. -/
def swimMovedChecked (M : JSMath K) (fish : Fish K) : Option (Fish K) := do
  let fleeing : Bool := fish.isFleeing.getD false
  let dragFactor : K := if fleeing then 0.92 else 0.96
  let vx1 := fish.vx * dragFactor
  let vy1 := fish.vy * dragFactor
  let minSpeed : K := 0.1
  let slowSpeed := M.sqrt (vx1 * vx1 + vy1 * vy1)
  let pushDirection := fish.swimDirection.getD 0
  let vx2 :=
    if fleeing then (if |vx1| < 0.05 then 0 else vx1)
    else (if slowSpeed < minSpeed then vx1 + M.cos pushDirection * minSpeed * 0.3 else vx1)
  let vy2 :=
    if fleeing then (if |vy1| < 0.05 then 0 else vy1)
    else (if slowSpeed < minSpeed then vy1 + M.sin pushDirection * minSpeed * 0.1 else vy1)
  let currentSpeed := M.sqrt (vx2 * vx2 + vy2 * vy2)
  let maxSpeed := if fleeing then fish.speed * 0.8 else fish.speed * 0.3
  let limited ←
    if currentSpeed > maxSpeed then do
      let unitX ← checkedDiv vx2 currentSpeed
      let unitY ← checkedDiv vy2 currentSpeed
      pure (unitX * maxSpeed, unitY * maxSpeed)
    else pure (vx2, vy2)
  pure { fish with vx := limited.1, vy := limited.2,
                   x := fish.x + limited.1, y := fish.y + limited.2 }

/-- The callback of `updateFish` for one fish, with checked divisions. -/
def updateOneFishChecked (M : JSMath K) (rand : ℕ → K) (w : World K)
    (sharkWorldX sharkWorldY : K) (fish : Fish K) (n : ℕ) : Option (Fish K × ℕ) :=
  if fish.type = FishType.green then do
    let f1 ← greenBehaveChecked M sharkWorldX sharkWorldY fish
    pure (clampY w { f1 with x := f1.x + f1.vx, y := f1.y + f1.vy }, n)
  else
    let deltaX := fish.x - sharkWorldX
    let deltaY := fish.y - sharkWorldY
    let distanceToShark := M.sqrt (deltaX * deltaX + deltaY * deltaY)
    if distanceToShark < fish.fleeDistance ∧ distanceToShark > 0 then do
      let f1 ← fleeBehaveChecked sharkWorldX sharkWorldY distanceToShark fish
      let f2 ← swimMovedChecked M f1
      pure (clampY w f2, n)
    else do
      let r ← wanderBehaveChecked M rand fish n
      let f2 ← swimMovedChecked M r.1
      pure (clampY w f2, r.2)

/-- The function `updateFish` with checked divisions: `none` as soon as the
callback divides by zero on some fish. -/
def updateFishChecked (M : JSMath K) (rand : ℕ → K) (g : Game K) : Option (Game K) := do
  let sharkWorldX := g.shark.x - g.world.offsetX
  let sharkWorldY := g.shark.y - g.world.offsetY
  let r ← g.fishPieces.foldl
    (fun (acc : Option (List (Fish K) × ℕ)) fish => do
      let a ← acc
      let u ← updateOneFishChecked M rand g.world sharkWorldX sharkWorldY fish a.2
      pure (a.1 ++ [u.1], u.2))
    (some ([], g.randomCalls))
  pure { g with fishPieces := r.1, randomCalls := r.2 }

/-- The body of the loop of `updateBloodParticles` for one particle, with
checked divisions. -/
def particleTickChecked (rand : ℕ → K) (n : ℕ) (particle : Particle K) :
    Option (Particle K) := do
  let x := particle.x + particle.vx
  let y := particle.y + particle.vy
  let vy1 := particle.vy + particle.gravity
  let vx2 := particle.vx * 0.995
  let vy2 := vy1 * 0.995
  let vx3 := vx2 + (rand n - 0.5) * 0.02
  let vy3 := vy2 + (rand (n + 1) - 0.5) * 0.02
  let decay ← checkedDiv 1.0 particle.maxLife
  let life := particle.life - decay
  let lifeProgress := 1 - life
  let size ←
    if lifeProgress < 0.3 then pure (particle.maxSize * (1 + lifeProgress * 0.5))
    else do
      let shrinkProgress ← checkedDiv (lifeProgress - 0.3) 0.7
      pure (particle.maxSize * 1.15 * (1 - shrinkProgress))
  pure { particle with x := x, y := y, vx := vx3, vy := vy3, life := life, size := size }

/-- The loop of `updateBloodParticles` with checked divisions. -/
def updateBloodLoopChecked (rand : ℕ → K) : ℕ → Game K → Option (Game K)
  | 0, g => some g
  | i + 1, g =>
    match g.bloodParticles[i]? with
    | none => updateBloodLoopChecked rand i g
    | some particle => do
      let p ← particleTickChecked rand g.randomCalls particle
      let g1 := { g with bloodParticles := g.bloodParticles.set i p,
                         randomCalls := g.randomCalls + 2 }
      if p.life ≤ 0 then
        updateBloodLoopChecked rand i { g1 with bloodParticles := g1.bloodParticles.eraseIdx i }
      else updateBloodLoopChecked rand i g1

/-- The function `updateBloodParticles` with checked divisions. -/
def updateBloodParticlesChecked (rand : ℕ → K) (g : Game K) : Option (Game K) :=
  updateBloodLoopChecked rand g.bloodParticles.length g


/-! ## Double arithmetic -/

/-- The integer nearest to `t`, the even one of the two when `t` lies half way. -/
def roundHalfEven (t : K) : ℤ :=
  if t - (⌊t⌋ : K) < 1 / 2 then ⌊t⌋
  else if t - (⌊t⌋ : K) > 1 / 2 then ⌊t⌋ + 1
  else if ⌊t⌋ % 2 = 0 then ⌊t⌋ else ⌊t⌋ + 1

/-- The number of halvings that bring `n` below 2, at most `fuel` of them. -/
def halvings : ℕ → ℕ → ℕ
  | 0, _ => 0
  | fuel + 1, n => if n ≥ 2 then halvings fuel (n / 2) + 1 else 0

/-- The binary logarithm of a natural number, rounded down: `Nat.log2`, by
structural recursion. -/
def floorLog2 (n : ℕ) : ℕ := halvings n n

/-- The exponent `e` of a positive number `x`: `2 ^ e ≤ x < 2 ^ (e + 1)`. -/
def binaryExponent (x : K) : ℤ :=
  if 1 ≤ x then (floorLog2 ⌊x⌋₊ : ℤ) else -((floorLog2 (⌈x⁻¹⌉₊ - 1) + 1 : ℕ) : ℤ)

/-- The number with a 53 bit significand nearest to `x`, ties to the even
significand: the rounding of every operation on JavaScript numbers (IEEE 754
binary64), with the exponent range taken as unbounded, so that no result
underflows or overflows. -/
def roundDouble (x : K) : K :=
  if x = 0 then 0
  else (roundHalfEven (x / (2 : K) ^ (binaryExponent |x| - 52)) : K)
    * (2 : K) ^ (binaryExponent |x| - 52)


/-! ## The updates in rounded arithmetic

JavaScript numbers are doubles: every operation returns the double nearest to
the exact result.  The definitions of this section translate the source a second
time, with the result of every arithmetic operation, and every literal that is
not a binary fraction, passed through a rounding function `fl`.  For `fl = id`
they are the definitions in exact arithmetic above; for `fl = roundDouble`, and a
`Math` record whose functions return doubles, they are the arithmetic of the
program, as long as no result underflows or overflows. -/

/-- The body of the loop of `updateBloodParticles` for one particle, up to the
removal test, in rounded arithmetic. -/
def particleTickRounded (fl : K → K) (rand : ℕ → K) (n : ℕ) (particle : Particle K) :
    Particle K :=
  let x := fl (particle.x + particle.vx)
  let y := fl (particle.y + particle.vy)
  let vy1 := fl (particle.vy + particle.gravity)
  let vx2 := fl (particle.vx * fl 0.995)
  let vy2 := fl (vy1 * fl 0.995)
  let vx3 := fl (vx2 + fl (fl (rand n - 0.5) * fl 0.02))
  let vy3 := fl (vy2 + fl (fl (rand (n + 1) - 0.5) * fl 0.02))
  let life := fl (particle.life - fl (1.0 / particle.maxLife))
  let lifeProgress := fl (1 - life)
  let size :=
    if lifeProgress < fl 0.3 then fl (particle.maxSize * fl (1 + fl (lifeProgress * 0.5)))
    else fl (fl (particle.maxSize * fl 1.15) * fl (1 - fl (fl (lifeProgress - fl 0.3) / fl 0.7)))
  { particle with x := x, y := y, vx := vx3, vy := vy3, life := life, size := size }

/-- The loop of `updateBloodParticles` in rounded arithmetic, for the indices
below `i`, from `i - 1` down to `0`. -/
def updateBloodLoopRounded (fl : K → K) (rand : ℕ → K) : ℕ → Game K → Game K
  | 0, g => g
  | i + 1, g =>
    match g.bloodParticles[i]? with
    | none => updateBloodLoopRounded fl rand i g
    | some particle =>
      let p := particleTickRounded fl rand g.randomCalls particle
      let g1 := { g with bloodParticles := g.bloodParticles.set i p,
                         randomCalls := g.randomCalls + 2 }
      if p.life ≤ 0 then
        updateBloodLoopRounded fl rand i
          { g1 with bloodParticles := g1.bloodParticles.eraseIdx i }
      else updateBloodLoopRounded fl rand i g1

/-- The function `updateBloodParticles` in rounded arithmetic. -/
def updateBloodParticlesRounded (fl : K → K) (rand : ℕ → K) (g : Game K) : Game K :=
  updateBloodLoopRounded fl rand g.bloodParticles.length g

/-- The `life` of a particle spawned with `life = 1`, after `n` ticks of
`life -= 1.0 / maxLife` in rounded arithmetic. -/
def lifeAfter (fl : K → K) (maxLife : K) : ℕ → K
  | 0 => 1
  | n + 1 => fl (lifeAfter fl maxLife n - fl (1 / maxLife))

/-- The removal test `life <= 0` has failed at each of the ticks `1, ..., n`. -/
def survives (fl : K → K) (maxLife : K) (n : ℕ) : Bool :=
  (List.range n).all (fun k => decide (¬ lifeAfter fl maxLife (k + 1) ≤ 0))

/-- What one tick in rounded arithmetic does to the pair `(maxLife, life)` of
every particle of a list. -/
def agedLivesRounded (fl : K → K) (l : List (K × K)) : List (K × K) :=
  (l.filter (fun p => decide (¬ fl (p.2 - fl (1 / p.1)) ≤ 0))).map
    (fun p => (p.1, fl (p.2 - fl (1 / p.1))))


/-- The vertical bounds test that ends both branches of `updateFish`, in
rounded arithmetic. -/
def clampYRounded (fl : K → K) (w : World K) (fish : Fish K) : Fish K :=
  let minY := fl (w.surfaceY + 80)
  let maxY := fl (w.bottomY - 80)
  let f1 := if fish.y < minY then { fish with y := minY, vy := |fish.vy| } else fish
  if f1.y > maxY then { f1 with y := maxY, vy := -|f1.vy| } else f1

/-- The distance `sharkDist` of the green branch of `updateFish`, in rounded
arithmetic. -/
def sharkDistRounded (fl : K → K) (M : JSMath K) (sharkWorldX sharkWorldY : K)
    (fish : Fish K) : K :=
  M.sqrt (fl (fl (fl (fish.x - sharkWorldX) ^ 2) + fl (fl (fish.y - sharkWorldY) ^ 2)))

/-- The distance of a fish from its home as the green branch computes it, in
rounded arithmetic. -/
def homeDistRounded (fl : K → K) (M : JSMath K) (fish : Fish K) : K :=
  M.sqrt (fl (fl (fl (fish.x - fish.homeX) ^ 2) + fl (fl (fish.y - fish.homeY) ^ 2)))

/-- The state switch of the green branch of `updateFish`, in rounded
arithmetic. -/
def greenBehaveRounded (fl : K → K) (M : JSMath K) (sharkWorldX sharkWorldY : K)
    (fish : Fish K) : Fish K :=
  let sharkDist := sharkDistRounded fl M sharkWorldX sharkWorldY fish
  match fish.state with
  | FishState.hiding =>
    let f1 := { fish with vx := 0, vy := 0 }
    let f2 := if sharkDist < 120 then { f1 with state := FishState.emerging, stateTimer := 0 }
              else f1
    { f2 with x := f2.homeX, y := f2.homeY }
  | FishState.emerging =>
    let dx := fl (sharkWorldX - fish.x)
    let dy := fl (sharkWorldY - fish.y)
    let dist := M.sqrt (fl (fl (dx * dx) + fl (dy * dy)))
    let f1 := if dist > 2 then { fish with vx := fl (fl (fl (dx / dist) * fish.speed) * fl 0.7),
                                           vy := fl (fl (fl (dy / dist) * fish.speed) * fl 0.7) }
              else { fish with vx := 0, vy := 0 }
    let f2 := { f1 with stateTimer := f1.stateTimer + 1 }
    if homeDistRounded fl M f2 > 800 then { f2 with state := FishState.returning } else f2
  | FishState.returning =>
    let dx := fl (fish.homeX - fish.x)
    let dy := fl (fish.homeY - fish.y)
    let dist := M.sqrt (fl (fl (dx * dx) + fl (dy * dy)))
    let f1 := if dist > 2 then { fish with vx := fl (fl (fl (dx / dist) * fish.speed) * 0.5),
                                           vy := fl (fl (fl (dy / dist) * fish.speed) * 0.5) }
              else { fish with vx := 0, vy := 0, x := fish.homeX, y := fish.homeY,
                               state := FishState.hiding }
    if sharkDist < 120 then { f1 with state := FishState.emerging, stateTimer := 0 } else f1

/-- The green branch of the callback of `updateFish`, in rounded arithmetic. -/
def updateGreenFishRounded (fl : K → K) (M : JSMath K) (w : World K)
    (sharkWorldX sharkWorldY : K) (fish : Fish K) : Fish K :=
  let f1 := greenBehaveRounded fl M sharkWorldX sharkWorldY fish
  clampYRounded fl w { f1 with x := fl (f1.x + f1.vx), y := fl (f1.y + f1.vy) }

/-- The expression `(Math.random() > 0.5 ? 0 : Math.PI) + (Math.random() - 0.5) * 0.3`
in rounded arithmetic. -/
def headingDrawRounded (fl : K → K) (M : JSMath K) (rand : ℕ → K) (n : ℕ) : K :=
  fl ((if rand n > 0.5 then 0 else M.PI) + fl (fl (rand (n + 1) - 0.5) * fl 0.3))

/-- The fleeing branch of the callback of `updateFish`, in rounded arithmetic. -/
def fleeBehaveRounded (fl : K → K) (sharkWorldX sharkWorldY distanceToShark : K)
    (fish : Fish K) : Fish K :=
  let deltaX := fl (fish.x - sharkWorldX)
  let deltaY := fl (fish.y - sharkWorldY)
  let fleeX := fl (deltaX / distanceToShark)
  let fleeY := fl (deltaY / distanceToShark)
  let fleeStrength := max 0.5 (fl (fl (fish.fleeDistance - distanceToShark) / fish.fleeDistance))
  { fish with isFleeing := some true,
              vx := fl (fish.vx + fl (fl (fl (fleeX * fish.speed) * fleeStrength) * fl 0.4)),
              vy := fl (fish.vy + fl (fl (fl (fleeY * fish.speed) * fleeStrength) * fl 0.4)) }

/-- The wandering branch of the callback of `updateFish`, in rounded arithmetic.
The remainder `%` of two doubles is a double, so it is not rounded. -/
def wanderBehaveRounded (fl : K → K) (M : JSMath K) (rand : ℕ → K) (fish : Fish K) (n : ℕ) :
    Fish K × ℕ :=
  let baseSpeed0 := fish.baseSpeed.getD (fl (fl 0.3 + fl (rand n * fl 0.2)))
  let n1 := if fish.baseSpeed.isSome then n else n + 1
  let swimDirection0 := fish.swimDirection.getD (headingDrawRounded fl M rand n1)
  let n2 := if fish.swimDirection.isSome then n1 else n1 + 2
  let depthOscillation0 := fish.depthOscillation.getD (fl (fl (rand n2 * M.PI) * 2))
  let n3 := if fish.depthOscillation.isSome then n2 else n2 + 1
  let timer0 := fish.directionChangeTimer.getD (fl (rand n3 * 60))
  let n4 := if fish.directionChangeTimer.isSome then n3 else n3 + 1
  let timer1 := fl (timer0 + 1)
  let horizontalBias : K := fl 0.8
  let verticalSubtlety : K := fl 0.3
  let vx := fl (fish.vx
    + fl (fl (fl (M.cos swimDirection0 * baseSpeed0) * horizontalBias) * fl 0.04))
  let vy1 := fl (fish.vy
    + fl (fl (fl (M.sin swimDirection0 * baseSpeed0) * verticalSubtlety) * fl 0.04))
  let depthOscillation := fl (depthOscillation0 + fl 0.01)
  let vy := fl (vy1 + fl (M.sin depthOscillation * fl 0.02))
  let turn : Bool := decide (timer1 > fl (60 + fl (rand n4 * 180)))
  let n5 := n4 + 1
  let directionChange := fl (fl (rand n5 - 0.5) * fl 0.2)
  let turned := fl (swimDirection0 + directionChange)
  let normalizedDir := jsRem turned (fl (M.PI * 2))
  let upward : Bool :=
    decide (normalizedDir > fl (M.PI * fl 0.17) ∧ normalizedDir < fl (M.PI * fl 0.83))
  let downward : Bool :=
    decide (normalizedDir > fl (M.PI * fl 1.17) ∧ normalizedDir < fl (M.PI * fl 1.83))
  let swimDirection1 :=
    if turn then (if upward || downward then headingDrawRounded fl M rand (n5 + 1) else turned)
    else swimDirection0
  let timer2 := if turn then 0 else timer1
  let n6 := if turn then (if upward || downward then n5 + 3 else n5 + 1) else n5
  let reverse : Bool := decide (rand n6 < fl 0.0005)
  let swimDirection := if reverse then fl (swimDirection1 + M.PI) else swimDirection1
  let baseSpeed := if reverse then fl (fl 0.3 + fl (rand (n6 + 1) * fl 0.2)) else baseSpeed0
  let n7 := if reverse then n6 + 2 else n6 + 1
  ({ fish with isFleeing := some false, vx := vx, vy := vy,
               baseSpeed := some baseSpeed, swimDirection := some swimDirection,
               depthOscillation := some depthOscillation,
               directionChangeTimer := some timer2 }, n7)

/-- The end of the normal branch of the callback of `updateFish` before the
vertical bounds test, in rounded arithmetic: drag, the minimum-speed push or the
jitter stop, the speed limit and the position update. -/
def swimMovedRounded (fl : K → K) (M : JSMath K) (fish : Fish K) : Fish K :=
  let fleeing : Bool := fish.isFleeing.getD false
  let dragFactor : K := if fleeing then fl 0.92 else fl 0.96
  let vx1 := fl (fish.vx * dragFactor)
  let vy1 := fl (fish.vy * dragFactor)
  let minSpeed : K := fl 0.1
  let slowSpeed := M.sqrt (fl (fl (vx1 * vx1) + fl (vy1 * vy1)))
  let pushDirection := fish.swimDirection.getD 0
  let vx2 :=
    if fleeing then (if |vx1| < fl 0.05 then 0 else vx1)
    else (if slowSpeed < minSpeed
      then fl (vx1 + fl (fl (M.cos pushDirection * minSpeed) * fl 0.3)) else vx1)
  let vy2 :=
    if fleeing then (if |vy1| < fl 0.05 then 0 else vy1)
    else (if slowSpeed < minSpeed
      then fl (vy1 + fl (fl (M.sin pushDirection * minSpeed) * fl 0.1)) else vy1)
  let currentSpeed := M.sqrt (fl (fl (vx2 * vx2) + fl (vy2 * vy2)))
  let maxSpeed := if fleeing then fl (fish.speed * fl 0.8) else fl (fish.speed * fl 0.3)
  let vx3 := if currentSpeed > maxSpeed then fl (fl (vx2 / currentSpeed) * maxSpeed) else vx2
  let vy3 := if currentSpeed > maxSpeed then fl (fl (vy2 / currentSpeed) * maxSpeed) else vy2
  { fish with vx := vx3, vy := vy3, x := fl (fish.x + vx3), y := fl (fish.y + vy3) }

/-- The distance `distanceToShark` of the normal branch of `updateFish`, in
rounded arithmetic. -/
def distanceToSharkRounded (fl : K → K) (M : JSMath K) (sharkWorldX sharkWorldY : K)
    (fish : Fish K) : K :=
  let deltaX := fl (fish.x - sharkWorldX)
  let deltaY := fl (fish.y - sharkWorldY)
  M.sqrt (fl (fl (deltaX * deltaX) + fl (deltaY * deltaY)))

/-- The fish of the callback of `updateFish` just before the vertical bounds
test of the normal branch, in rounded arithmetic, with the count of
`Math.random()` calls after it. -/
def normalMovedRounded (fl : K → K) (M : JSMath K) (rand : ℕ → K)
    (sharkWorldX sharkWorldY : K) (fish : Fish K) (n : ℕ) : Fish K × ℕ :=
  let distanceToShark := distanceToSharkRounded fl M sharkWorldX sharkWorldY fish
  if distanceToShark < fish.fleeDistance ∧ distanceToShark > 0 then
    (swimMovedRounded fl M
      (fleeBehaveRounded fl sharkWorldX sharkWorldY distanceToShark fish), n)
  else
    let r := wanderBehaveRounded fl M rand fish n
    (swimMovedRounded fl M r.1, r.2)

/-- The callback of `updateFish` for one fish, in rounded arithmetic. -/
def updateOneFishRounded (fl : K → K) (M : JSMath K) (rand : ℕ → K) (w : World K)
    (sharkWorldX sharkWorldY : K) (fish : Fish K) (n : ℕ) : Fish K × ℕ :=
  if fish.type = FishType.green then
    (updateGreenFishRounded fl M w sharkWorldX sharkWorldY fish, n)
  else
    let r := normalMovedRounded fl M rand sharkWorldX sharkWorldY fish n
    (clampYRounded fl w r.1, r.2)

/-- The function `updateFish` in rounded arithmetic. -/
def updateFishRounded (fl : K → K) (M : JSMath K) (rand : ℕ → K) (g : Game K) : Game K :=
  let sharkWorldX := fl (g.shark.x - g.world.offsetX)
  let sharkWorldY := fl (g.shark.y - g.world.offsetY)
  let r := g.fishPieces.foldl
    (fun (acc : List (Fish K) × ℕ) fish =>
      let u := updateOneFishRounded fl M rand g.world sharkWorldX sharkWorldY fish acc.2
      (acc.1 ++ [u.1], u.2))
    ([], g.randomCalls)
  { g with fishPieces := r.1, randomCalls := r.2 }

/-- The bits of the square root of `n` below bit `bits`, added to `acc`: the
largest `r ≥ acc` of that form with `r * r ≤ n`. -/
def sqrtBits : ℕ → ℕ → ℕ → ℕ
  | 0, _, acc => acc
  | bits + 1, n, acc =>
    if (acc + 2 ^ bits) * (acc + 2 ^ bits) ≤ n then sqrtBits bits n (acc + 2 ^ bits)
    else sqrtBits bits n acc

/-- The square root of a natural number, rounded down. -/
def floorSqrt (n : ℕ) : ℕ := sqrtBits (floorLog2 n / 2 + 1) n 0

/-- The function `Math.sqrt` on doubles: the double nearest to the square root,
as IEEE 754 asks, with the exponent range taken as unbounded. -/
def doubleSqrt (x : K) : K :=
  if x ≤ 0 then 0
  else
    let ulp := (2 : K) ^ (Int.fdiv (binaryExponent x) 2 - 52)
    let q := x / (ulp * ulp)
    let f : ℕ := floorSqrt ⌊q⌋₊
    let half := ((f : K) + 1 / 2) * ((f : K) + 1 / 2)
    let m : ℕ := if q < half then f else if q > half then f + 1
                 else if f % 2 = 0 then f else f + 1
    (m : K) * ulp

/-- The `Math` object on doubles as far as the fleeing branch of `updateFish`
calls it: `Math.sqrt` is `doubleSqrt`.  The fields `cos`, `sin` and `atan2` are
stand-ins that the runs evaluated with this record do not call. -/
def doubleMath : JSMath ℚ :=
  { sqrt := doubleSqrt, cos := fun _ => 1, sin := fun _ => 0, atan2 := fun _ _ => 0,
    PI := roundDouble (3141592653589793 / 1000000000000000) }

/-- A normal fish of speed 1.25 at `(400, 350)` that swims with the velocity
`(0.5, 0.75)`. -/
def hastyFish : Fish K :=
  { fishAt 400 350 10 "#FFD700" with vx := 0.5, vy := 0.75, speed := 1.25 }

/-! ## Loops and lists -/

theorem forLoop_invariant {σ : Type} (P : σ → Prop) (body : ℕ → σ → σ)
    (h : ∀ i s, P s → P (body i s)) : ∀ (n start : ℕ) (s : σ), P s → P (forLoop body n start s)
  | 0, _, _, hs => hs
  | n + 1, start, s, hs => forLoop_invariant P body h n (start + 1) (body start s) (h start s hs)

theorem foldl_invariant {α σ : Type} (P : σ → Prop) (f : σ → α → σ) :
    ∀ (l : List α) (s : σ), (∀ s a, a ∈ l → P s → P (f s a)) → P s → P (l.foldl f s)
  | [], _, _, hs => hs
  | a :: l, s, h, hs =>
    foldl_invariant P f l (f s a) (fun s b hb => h s b (List.mem_cons_of_mem _ hb))
      (h s a (List.mem_cons_self _ _) hs)

theorem getElem?_some_lt {α : Type} {l : List α} {i : ℕ} {a : α} (h : l[i]? = some a) :
    i < l.length := by
  by_contra hc
  rw [List.getElem?_eq_none (by omega)] at h
  exact absurd h (by simp)

/-- Removing the element at index `i` when it fails `keep` turns the list
filtered below `i + 1` into the list filtered below `i`. -/
theorem splice_removed {α : Type} (keep : α → Bool) (l : List α) (i : ℕ) (a : α)
    (h : l[i]? = some a) (hk : keep a = false) :
    ((l.eraseIdx i).take i).filter keep ++ (l.eraseIdx i).drop i
      = (l.take (i + 1)).filter keep ++ l.drop (i + 1) := by
  have hi : i < l.length := getElem?_some_lt h
  rw [List.eraseIdx_eq_take_drop_succ, List.take_succ, h]
  have h1 : (l.take i).length = i := by simp; omega
  simp [List.take_append_eq_append_take, List.drop_append_eq_append_drop, h1, hk]

theorem splice_kept {α : Type} (keep : α → Bool) (l : List α) (i : ℕ) (a : α)
    (h : l[i]? = some a) (hk : keep a = true) :
    (l.take i).filter keep ++ l.drop i
      = (l.take (i + 1)).filter keep ++ l.drop (i + 1) := by
  have hi : i < l.length := getElem?_some_lt h
  have ha : l[i] = a := by
    rw [List.getElem?_eq_getElem hi] at h
    exact Option.some.inj h
  rw [List.take_succ, h, List.drop_eq_getElem_cons hi, ha]
  simp [hk]

/-! ## What chunk generation leaves alone -/

theorem Grown.refl (g : Game K) : Grown g g :=
  ⟨rfl, rfl, rfl, rfl, rfl, rfl, rfl, ⟨[], by simp⟩, ⟨[], by simp⟩, fun _ h => h, fun _ h => h⟩

theorem Grown.trans {g s t : Game K} (h1 : Grown g s) (h2 : Grown s t) : Grown g t := by
  obtain ⟨e1, he1⟩ := h1.seaweed
  obtain ⟨e2, he2⟩ := h2.seaweed
  obtain ⟨f1, hf1⟩ := h1.fish
  obtain ⟨f2, hf2⟩ := h2.fish
  exact ⟨h2.canvasWidth.trans h1.canvasWidth, h2.canvasHeight.trans h1.canvasHeight,
    h2.world.trans h1.world, h2.shark.trans h1.shark, h2.mouse.trans h1.mouse,
    h2.gameStats.trans h1.gameStats, h2.bloodParticles.trans h1.bloodParticles,
    ⟨e1 ++ e2, by rw [he2, he1, List.append_assoc]⟩,
    ⟨f1 ++ f2, by rw [hf2, hf1, List.append_assoc]⟩,
    fun k hk => h2.marked k (h1.marked k hk), fun k hk => h2.fishMarked k (h1.fishMarked k hk)⟩

theorem Registry.mem_add (s : Registry) (k j : ChunkKey) :
    j ∈ s.add k ↔ j ∈ s ∨ j = k := by
  unfold Registry.add
  split_ifs with h
  · constructor
    · exact fun hj => Or.inl hj
    · rintro (hj | rfl)
      · exact hj
      · exact h
  · simp

theorem Registry.has_iff (s : Registry) (k : ChunkKey) : s.has k = true ↔ k ∈ s := by
  simp [Registry.has]

theorem Registry.mem_delete (s : Registry) (k j : ChunkKey) :
    j ∈ s.delete k ↔ j ∈ s ∧ j ≠ k := by
  simp [Registry.delete]

theorem seaweedAttempt_grown (M : JSMath K) (rand : ℕ → K) (cx cy : ℤ) (size : K) (g : Game K) :
    Grown g (seaweedAttempt M rand cx cy size g) := by
  unfold seaweedAttempt
  simp only []
  split_ifs
  · exact ⟨rfl, rfl, rfl, rfl, rfl, rfl, rfl, ⟨_, rfl⟩, ⟨_, rfl⟩, fun _ h => h, fun _ h => h⟩
  · exact ⟨rfl, rfl, rfl, rfl, rfl, rfl, rfl, ⟨_, rfl⟩, ⟨[], by simp⟩, fun _ h => h, fun _ h => h⟩
  · exact ⟨rfl, rfl, rfl, rfl, rfl, rfl, rfl, ⟨[], by simp⟩, ⟨[], by simp⟩,
      fun _ h => h, fun _ h => h⟩

theorem fishAttempt_grown (rand : ℕ → K) (cx cy : ℤ) (size : K) (g : Game K) :
    Grown g (fishAttempt rand cx cy size g) := by
  unfold fishAttempt
  simp only []
  split_ifs <;>
  first
  | exact ⟨rfl, rfl, rfl, rfl, rfl, rfl, rfl, ⟨[], by simp⟩, ⟨_, rfl⟩, fun _ h => h, fun _ h => h⟩
  | exact ⟨rfl, rfl, rfl, rfl, rfl, rfl, rfl, ⟨[], by simp⟩, ⟨[], by simp⟩,
      fun _ h => h, fun _ h => h⟩

theorem generateSeaweedChunk_grown (M : JSMath K) (rand : ℕ → K) (cx cy : ℤ) (size : K)
    (g : Game K) : Grown g (generateSeaweedChunk M rand cx cy size g) := by
  unfold generateSeaweedChunk
  simp only []
  split_ifs
  · exact Grown.refl g
  · refine forLoop_invariant (Grown g) _ (fun _ s hs => hs.trans (seaweedAttempt_grown ..)) _ _ _ ?_
    exact ⟨rfl, rfl, rfl, rfl, rfl, rfl, rfl, ⟨[], by simp⟩, ⟨[], by simp⟩,
      fun k h => (Registry.mem_add _ _ _).2 (Or.inl h), fun _ h => h⟩

theorem generateFishChunk_grown (rand : ℕ → K) (cx cy : ℤ) (size : K)
    (g : Game K) : Grown g (generateFishChunk rand cx cy size g) := by
  unfold generateFishChunk
  simp only []
  split_ifs
  · exact Grown.refl g
  · refine forLoop_invariant (Grown g) _ (fun _ s hs => hs.trans (fishAttempt_grown ..)) _ _ _ ?_
    exact ⟨rfl, rfl, rfl, rfl, rfl, rfl, rfl, ⟨[], by simp⟩, ⟨[], by simp⟩,
      fun _ h => h, fun k h => (Registry.mem_add _ _ _).2 (Or.inl h)⟩

theorem generateAround_grown (M : JSMath K) (rand : ℕ → K) (cx cy : ℤ) (size : K)
    (g : Game K) : Grown g (generateAround M rand cx cy size g) := by
  unfold generateAround
  simp only []
  refine foldl_invariant (Grown g) _ _ _ (fun s dx _ hs => ?_) (Grown.refl g)
  refine foldl_invariant (Grown g) _ _ _ (fun s dy _ hs => ?_) hs
  exact (hs.trans (generateSeaweedChunk_grown ..)).trans (generateFishChunk_grown ..)

theorem take_eraseIdx_self {α : Type} (l : List α) (i : ℕ) : (l.eraseIdx i).take i = l.take i := by
  rw [List.eraseIdx_eq_take_drop_succ]
  by_cases h : i ≤ l.length
  · have h1 : (l.take i).length = i := by simp; omega
    simp [List.take_append_eq_append_take, h1]
  · have h2 : l.length ≤ i := by omega
    simp [List.take_of_length_le h2, List.drop_of_length_le (by omega : l.length ≤ i + 1)]

/-! ## The removal loops are filters -/

/-- The seaweed loop keeps exactly the stalks in view among the first `i`, and
deletes exactly the keys of the stalks it removes. -/
theorem evictSeaweed_spec (cx cy d : K) : ∀ (i : ℕ) (g : Game K), i ≤ g.seaweedPieces.length →
    (evictSeaweed cx cy d i g).seaweedPieces
        = (g.seaweedPieces.take i).filter (fun a => inView cx cy d a.x a.y)
          ++ g.seaweedPieces.drop i ∧
    (∀ k, k ∈ (evictSeaweed cx cy d i g).generatedChunks ↔
      k ∈ g.generatedChunks ∧
        ∀ a ∈ g.seaweedPieces.take i, inView cx cy d a.x a.y = false → a.chunkKey ≠ k) ∧
    (evictSeaweed cx cy d i g).fishPieces = g.fishPieces ∧
    (evictSeaweed cx cy d i g).fishGeneratedChunks = g.fishGeneratedChunks ∧
    (evictSeaweed cx cy d i g).shark = g.shark ∧
    (evictSeaweed cx cy d i g).world = g.world ∧
    (evictSeaweed cx cy d i g).gameStats = g.gameStats ∧
    (evictSeaweed cx cy d i g).bloodParticles = g.bloodParticles ∧
    (evictSeaweed cx cy d i g).mouse = g.mouse ∧
    (evictSeaweed cx cy d i g).canvasWidth = g.canvasWidth ∧
    (evictSeaweed cx cy d i g).canvasHeight = g.canvasHeight ∧
    (evictSeaweed cx cy d i g).randomCalls = g.randomCalls := by
  intro i
  induction i with
  | zero => intro g _; simp [evictSeaweed]
  | succ i ih =>
    intro g hi
    have hlt : i < g.seaweedPieces.length := by omega
    have hget : g.seaweedPieces[i]? = some g.seaweedPieces[i] := List.getElem?_eq_getElem hlt
    rw [evictSeaweed, hget]
    simp only []
    by_cases hout : |g.seaweedPieces[i].x - cx| > d ∨ |g.seaweedPieces[i].y - cy| > d
    · have hk : inView cx cy d g.seaweedPieces[i].x g.seaweedPieces[i].y = false := by
        simp only [inView, decide_eq_false_iff_not, not_not]; exact hout
      rw [if_pos hout]
      have hlen : i ≤ (g.seaweedPieces.eraseIdx i).length := by
        rw [List.length_eraseIdx]; simp [hlt]; omega
      obtain ⟨h1, h2, h3⟩ := ih { g with
        generatedChunks := g.generatedChunks.delete g.seaweedPieces[i].chunkKey,
        seaweedPieces := g.seaweedPieces.eraseIdx i } hlen
      refine ⟨?_, ?_, h3⟩
      · rw [h1]
        exact splice_removed _ _ _ _ hget hk
      · intro k
        rw [h2 k]
        simp only [take_eraseIdx_self, Registry.mem_delete, List.take_succ, hget,
          Option.toList_some, List.mem_append, List.mem_singleton]
        constructor
        · rintro ⟨⟨hk1, hk2⟩, hk3⟩
          refine ⟨hk1, ?_⟩
          rintro a (ha | rfl) hv
          · exact hk3 a ha hv
          · exact fun hc => hk2 hc.symm
        · rintro ⟨hk1, hk2⟩
          exact ⟨⟨hk1, fun hc => hk2 _ (Or.inr rfl) hk hc.symm⟩,
            fun a ha hv => hk2 a (Or.inl ha) hv⟩
    · have hk : inView cx cy d g.seaweedPieces[i].x g.seaweedPieces[i].y = true := by
        simp only [inView, decide_eq_true_eq]; exact hout
      rw [if_neg hout]
      obtain ⟨h1, h2, h3⟩ := ih g (by omega)
      refine ⟨?_, ?_, h3⟩
      · rw [h1]
        exact splice_kept _ _ _ _ hget hk
      · intro k
        rw [h2 k]
        simp only [List.take_succ, hget, Option.toList_some, List.mem_append,
          List.mem_singleton]
        constructor
        · rintro ⟨hk1, hk2⟩
          refine ⟨hk1, ?_⟩
          rintro a (ha | rfl) hv
          · exact hk2 a ha hv
          · rw [hk] at hv; exact absurd hv (by simp)
        · rintro ⟨hk1, hk2⟩
          exact ⟨hk1, fun a ha hv => hk2 a (Or.inl ha) hv⟩

/-- The fish loop keeps exactly the fish in view among the first `i`, and
deletes the keys of the fish it removes from `fishGeneratedChunks`. -/
theorem evictFish_spec (cx cy d : K) : ∀ (i : ℕ) (g : Game K), i ≤ g.fishPieces.length →
    (evictFish cx cy d i g).fishPieces
        = (g.fishPieces.take i).filter (fun a => inView cx cy d a.x a.y)
          ++ g.fishPieces.drop i ∧
    (∀ k, k ∈ (evictFish cx cy d i g).fishGeneratedChunks ↔
      k ∈ g.fishGeneratedChunks ∧
        ∀ a ∈ g.fishPieces.take i, inView cx cy d a.x a.y = false → a.chunkKey ≠ k) ∧
    (evictFish cx cy d i g).seaweedPieces = g.seaweedPieces ∧
    (evictFish cx cy d i g).generatedChunks = g.generatedChunks ∧
    (evictFish cx cy d i g).shark = g.shark ∧
    (evictFish cx cy d i g).world = g.world ∧
    (evictFish cx cy d i g).gameStats = g.gameStats ∧
    (evictFish cx cy d i g).bloodParticles = g.bloodParticles ∧
    (evictFish cx cy d i g).mouse = g.mouse ∧
    (evictFish cx cy d i g).canvasWidth = g.canvasWidth ∧
    (evictFish cx cy d i g).canvasHeight = g.canvasHeight ∧
    (evictFish cx cy d i g).randomCalls = g.randomCalls := by
  intro i
  induction i with
  | zero => intro g _; simp [evictFish]
  | succ i ih =>
    intro g hi
    have hlt : i < g.fishPieces.length := by omega
    have hget : g.fishPieces[i]? = some g.fishPieces[i] := List.getElem?_eq_getElem hlt
    rw [evictFish, hget]
    simp only []
    by_cases hout : |g.fishPieces[i].x - cx| > d ∨ |g.fishPieces[i].y - cy| > d
    · have hk : inView cx cy d g.fishPieces[i].x g.fishPieces[i].y = false := by
        simp only [inView, decide_eq_false_iff_not, not_not]; exact hout
      rw [if_pos hout]
      have hlen : i ≤ (g.fishPieces.eraseIdx i).length := by
        rw [List.length_eraseIdx]; simp [hlt]; omega
      obtain ⟨h1, h2, h3⟩ := ih { g with
        fishGeneratedChunks := g.fishGeneratedChunks.delete g.fishPieces[i].chunkKey,
        fishPieces := g.fishPieces.eraseIdx i } hlen
      refine ⟨?_, ?_, h3⟩
      · rw [h1]
        exact splice_removed _ _ _ _ hget hk
      · intro k
        rw [h2 k]
        simp only [take_eraseIdx_self, Registry.mem_delete, List.take_succ, hget,
          Option.toList_some, List.mem_append, List.mem_singleton]
        constructor
        · rintro ⟨⟨hk1, hk2⟩, hk3⟩
          refine ⟨hk1, ?_⟩
          rintro a (ha | rfl) hv
          · exact hk3 a ha hv
          · exact fun hc => hk2 hc.symm
        · rintro ⟨hk1, hk2⟩
          exact ⟨⟨hk1, fun hc => hk2 _ (Or.inr rfl) hk hc.symm⟩,
            fun a ha hv => hk2 a (Or.inl ha) hv⟩
    · have hk : inView cx cy d g.fishPieces[i].x g.fishPieces[i].y = true := by
        simp only [inView, decide_eq_true_eq]; exact hout
      rw [if_neg hout]
      obtain ⟨h1, h2, h3⟩ := ih g (by omega)
      refine ⟨?_, ?_, h3⟩
      · rw [h1]
        exact splice_kept _ _ _ _ hget hk
      · intro k
        rw [h2 k]
        simp only [List.take_succ, hget, Option.toList_some, List.mem_append,
          List.mem_singleton]
        constructor
        · rintro ⟨hk1, hk2⟩
          refine ⟨hk1, ?_⟩
          rintro a (ha | rfl) hv
          · exact hk2 a ha hv
          · rw [hk] at hv; exact absurd hv (by simp)
        · rintro ⟨hk1, hk2⟩
          exact ⟨hk1, fun a ha hv => hk2 a (Or.inl ha) hv⟩

/-- The two removal loops of `manageSeaweedChunks` filter what generation left. -/
theorem manageSeaweedChunks_spec (M : JSMath K) (rand : ℕ → K) (g : Game K) :
    (manageSeaweedChunks M rand g).seaweedPieces
      = (generateAround M rand (getChunkCoords (viewCenterX g) (viewCenterY g)).1
          (getChunkCoords (viewCenterX g) (viewCenterY g)).2 chunkSize g).seaweedPieces.filter
          (fun a => inView (viewCenterX g) (viewCenterY g) (chunkSize * 3) a.x a.y) ∧
    (manageSeaweedChunks M rand g).fishPieces
      = (generateAround M rand (getChunkCoords (viewCenterX g) (viewCenterY g)).1
          (getChunkCoords (viewCenterX g) (viewCenterY g)).2 chunkSize g).fishPieces.filter
          (fun a => inView (viewCenterX g) (viewCenterY g) (chunkSize * 3) a.x a.y) ∧
    (manageSeaweedChunks M rand g).shark = g.shark ∧
    (manageSeaweedChunks M rand g).world = g.world ∧
    (manageSeaweedChunks M rand g).gameStats = g.gameStats ∧
    (manageSeaweedChunks M rand g).bloodParticles = g.bloodParticles ∧
    (manageSeaweedChunks M rand g).mouse = g.mouse ∧
    (manageSeaweedChunks M rand g).canvasWidth = g.canvasWidth ∧
    (manageSeaweedChunks M rand g).canvasHeight = g.canvasHeight := by
  have hg := generateAround_grown M rand (getChunkCoords (viewCenterX g) (viewCenterY g)).1
    (getChunkCoords (viewCenterX g) (viewCenterY g)).2 chunkSize g
  unfold manageSeaweedChunks
  simp only []
  generalize generateAround M rand (getChunkCoords (viewCenterX g) (viewCenterY g)).1
    (getChunkCoords (viewCenterX g) (viewCenterY g)).2 chunkSize g = g1 at hg ⊢
  obtain ⟨a1, -, a3, -, a5, a6, a7, a8, a9, a10, a11, -⟩ :=
    evictSeaweed_spec (viewCenterX g) (viewCenterY g) (chunkSize * 3) g1.seaweedPieces.length g1
      le_rfl
  generalize evictSeaweed (viewCenterX g) (viewCenterY g) (chunkSize * 3)
    g1.seaweedPieces.length g1 = g2 at a1 a3 a5 a6 a7 a8 a9 a10 a11 ⊢
  obtain ⟨b1, -, b3, -, b5, b6, b7, b8, b9, b10, b11, -⟩ :=
    evictFish_spec (viewCenterX g) (viewCenterY g) (chunkSize * 3) g2.fishPieces.length g2 le_rfl
  refine ⟨?_, ?_, ?_, ?_, ?_, ?_, ?_, ?_, ?_⟩
  · rw [b3, a1]; simp
  · rw [b1, a3]; simp
  · rw [b5, a5, hg.shark]
  · rw [b6, a6, hg.world]
  · rw [b7, a7, hg.gameStats]
  · rw [b8, a8, hg.bloodParticles]
  · rw [b9, a9, hg.mouse]
  · rw [b10, a10, hg.canvasWidth]
  · rw [b11, a11, hg.canvasHeight]

/-! ## Eating -/

/-- The function `createBloodEffect` changes only the particles and the draw count. -/
theorem createBloodEffect_frame (M : JSMath K) (rand : ℕ → K) (x y size : K) (g : Game K) :
    (createBloodEffect M rand x y size g).canvasWidth = g.canvasWidth ∧
    (createBloodEffect M rand x y size g).canvasHeight = g.canvasHeight ∧
    (createBloodEffect M rand x y size g).world = g.world ∧
    (createBloodEffect M rand x y size g).shark = g.shark ∧
    (createBloodEffect M rand x y size g).mouse = g.mouse ∧
    (createBloodEffect M rand x y size g).seaweedPieces = g.seaweedPieces ∧
    (createBloodEffect M rand x y size g).generatedChunks = g.generatedChunks ∧
    (createBloodEffect M rand x y size g).fishPieces = g.fishPieces ∧
    (createBloodEffect M rand x y size g).fishGeneratedChunks = g.fishGeneratedChunks ∧
    (createBloodEffect M rand x y size g).gameStats = g.gameStats := by
  unfold createBloodEffect
  simp only []
  refine forLoop_invariant (fun s : Game K => s.canvasWidth = g.canvasWidth ∧
    s.canvasHeight = g.canvasHeight ∧ s.world = g.world ∧ s.shark = g.shark ∧
    s.mouse = g.mouse ∧ s.seaweedPieces = g.seaweedPieces ∧
    s.generatedChunks = g.generatedChunks ∧ s.fishPieces = g.fishPieces ∧
    s.fishGeneratedChunks = g.fishGeneratedChunks ∧ s.gameStats = g.gameStats) _ ?_ _ _ _
    ⟨rfl, rfl, rfl, rfl, rfl, rfl, rfl, rfl, rfl, rfl⟩
  intro i s hs
  exact hs

/-- What `handleFishEaten` does to the fish list, the counters and the shark. -/
theorem handleFishEaten_spec (M : JSMath K) (rand : ℕ → K) (fish : Fish K) (i : ℕ) (g : Game K) :
    (handleFishEaten M rand fish i g).fishPieces = g.fishPieces.eraseIdx i ∧
    (handleFishEaten M rand fish i g).gameStats.fishEaten = g.gameStats.fishEaten + 1 ∧
    (handleFishEaten M rand fish i g).gameStats.slowFishEaten
      = g.gameStats.slowFishEaten + (if fish.color = "#FFD700" then 1 else 0) ∧
    (handleFishEaten M rand fish i g).gameStats.fastFishEaten
      = g.gameStats.fastFishEaten + (if fish.color = "#FFD700" then 0 else 1) ∧
    (handleFishEaten M rand fish i g).shark.growthFactor
      = g.shark.growthFactor
        + (if fish.color = "#FFD700" then 0.02 + fish.size / 500 else 0.015 + fish.size / 600) ∧
    (handleFishEaten M rand fish i g).shark.width
      = g.shark.baseWidth * (handleFishEaten M rand fish i g).shark.growthFactor ∧
    (handleFishEaten M rand fish i g).shark.height
      = g.shark.baseHeight * (handleFishEaten M rand fish i g).shark.growthFactor ∧
    (handleFishEaten M rand fish i g).shark.baseWidth = g.shark.baseWidth ∧
    (handleFishEaten M rand fish i g).shark.baseHeight = g.shark.baseHeight := by
  obtain ⟨-, -, -, a4, -, -, -, a8, -, a10⟩ := createBloodEffect_frame M rand fish.x fish.y fish.size g
  unfold handleFishEaten
  simp only []
  generalize createBloodEffect M rand fish.x fish.y fish.size g = g1 at a4 a8 a10 ⊢
  refine ⟨?_, ?_, ?_, ?_, ?_, ?_, ?_, ?_, ?_⟩ <;>
    simp only [(createBloodEffect_frame M rand fish.x fish.y fish.size _).2.2.2.1,
      (createBloodEffect_frame M rand fish.x fish.y fish.size _).2.2.2.2.2.2.2.1,
      (createBloodEffect_frame M rand fish.x fish.y fish.size _).2.2.2.2.2.2.2.2.2, a4, a8, a10]
  · split_ifs <;> rfl
  · split_ifs <;> rfl
  · split_ifs <;> rfl

/-- The scan of `updateFishEating` keeps, among the first `i` fish, exactly those
not within the radius of the mouth point it was given. -/
theorem eatLoop_fishPieces (M : JSMath K) (rand : ℕ → K) (mx my r : K) :
    ∀ (i : ℕ) (g : Game K), i ≤ g.fishPieces.length →
    (eatLoop M rand mx my r i g).fishPieces
      = (g.fishPieces.take i).filter
          (fun f => decide (¬ M.sqrt ((f.x - mx) * (f.x - mx) + (f.y - my) * (f.y - my)) < r))
        ++ g.fishPieces.drop i := by
  intro i
  induction i with
  | zero => intro g _; simp [eatLoop]
  | succ i ih =>
    intro g hi
    have hlt : i < g.fishPieces.length := by omega
    have hget : g.fishPieces[i]? = some g.fishPieces[i] := List.getElem?_eq_getElem hlt
    rw [eatLoop, hget]
    simp only []
    by_cases hin : M.sqrt ((g.fishPieces[i].x - mx) * (g.fishPieces[i].x - mx)
        + (g.fishPieces[i].y - my) * (g.fishPieces[i].y - my)) < r
    · rw [if_pos hin]
      have hf := (handleFishEaten_spec M rand g.fishPieces[i] i g).1
      rw [ih _ (by rw [hf, List.length_eraseIdx]; simp [hlt]; omega), hf]
      exact splice_removed _ _ _ _ hget (by simpa using hin)
    · rw [if_neg hin, ih g (by omega)]
      exact splice_kept _ _ _ _ hget (by simpa using hin)

theorem initializeGame_shark (M : JSMath K) (rand : ℕ → K) (g : Game K) :
    (initializeGame M rand g).shark.growthFactor = 1 ∧
    (initializeGame M rand g).shark.width = (initializeGame M rand g).shark.baseWidth ∧
    (initializeGame M rand g).shark.height = (initializeGame M rand g).shark.baseHeight := by
  unfold initializeGame
  simp only []
  rw [(manageSeaweedChunks_spec M rand _).2.2.1]
  refine ⟨?_, rfl, rfl⟩
  norm_num

theorem handleFishEaten_growth (M : JSMath K) (rand : ℕ → K) (fish : Fish K) (i : ℕ) (g : Game K)
    (hsize : 0 ≤ fish.size) :
    g.shark.growthFactor ≤ (handleFishEaten M rand fish i g).shark.growthFactor := by
  rw [(handleFishEaten_spec M rand fish i g).2.2.2.2.1]
  split_ifs
  · have : (0 : K) ≤ fish.size / 500 := div_nonneg hsize (by norm_num)
    have h2 : (0 : K) ≤ 0.02 := by norm_num
    linarith
  · have : (0 : K) ≤ fish.size / 600 := div_nonneg hsize (by norm_num)
    have h2 : (0 : K) ≤ 0.015 := by norm_num
    linarith

theorem eatEvents_growth (M : JSMath K) (rand : ℕ → K) :
    ∀ (events : List (Fish K × ℕ)) (g : Game K), (∀ e ∈ events, 0 ≤ e.1.size) →
      g.shark.growthFactor ≤ (eatEvents M rand events g).shark.growthFactor
  | [], g, _ => le_rfl
  | e :: events, g, h =>
    le_trans (handleFishEaten_growth M rand e.1 e.2 g (h e (List.mem_cons_self _ _)))
      (eatEvents_growth M rand events (handleFishEaten M rand e.1 e.2 g)
        (fun x hx => h x (List.mem_cons_of_mem _ hx)))

/-! ## What chunk generation appends -/

theorem forLoop_measure {σ : Type} (m : σ → ℕ) (P : σ → Prop) (body : ℕ → σ → σ)
    (h : ∀ i s, P s → P (body i s) ∧ m (body i s) ≤ m s + 1) :
    ∀ (n start : ℕ) (s : σ), P s →
      P (forLoop body n start s) ∧ m (forLoop body n start s) ≤ m s + n
  | 0, _, _, hs => ⟨hs, le_rfl⟩
  | n + 1, start, s, hs => by
    obtain ⟨h1, h2⟩ := h start s hs
    obtain ⟨h3, h4⟩ := forLoop_measure m P body h n (start + 1) (body start s) h1
    exact ⟨h3, by rw [forLoop]; omega⟩

/-- One call of `generateSeaweedChunk` appends at most `seaweedCount` stalks,
each the object of an accepted attempt, and green fish of accepted attempts;
it appends nothing when the key is already marked, and marks the key. -/
theorem generateSeaweedChunk_new (M : JSMath K) (rand : ℕ → K) (cx cy : ℤ) (size : K)
    (g : Game K) :
    ∃ e ef, (generateSeaweedChunk M rand cx cy size g).seaweedPieces = g.seaweedPieces ++ e ∧
      (generateSeaweedChunk M rand cx cy size g).fishPieces = g.fishPieces ++ ef ∧
      e.length ≤ (seaweedCount size).toNat ∧
      (∀ a ∈ e, ∃ n, (g.world.surfaceY + 100 ≤ (cy : K) * size + rand (n + 1) * size ∧
        (cy : K) * size + rand (n + 1) * size ≤ g.world.bottomY - 50) ∧
        a = spawnSeaweed M rand cx cy size n) ∧
      (∀ f ∈ ef, ∃ n, (g.world.surfaceY + 100 ≤ (cy : K) * size + rand (n + 1) * size ∧
        (cy : K) * size + rand (n + 1) * size ≤ g.world.bottomY - 50) ∧
        f = spawnLurker rand cx cy size n) ∧
      ((cx, cy) ∈ g.generatedChunks → e = [] ∧ ef = []) ∧
      (∀ k, k ∈ (generateSeaweedChunk M rand cx cy size g).generatedChunks ↔
        k ∈ g.generatedChunks ∨ k = (cx, cy)) ∧
      (generateSeaweedChunk M rand cx cy size g).fishGeneratedChunks = g.fishGeneratedChunks := by
  unfold generateSeaweedChunk
  simp only []
  by_cases hhas : g.generatedChunks.has (cx, cy) = true
  · rw [if_pos hhas]
    have hmem := (Registry.has_iff _ _).1 hhas
    refine ⟨[], [], by simp, by simp, by simp, by simp, by simp, by simp, fun k => ?_, rfl⟩
    constructor
    · exact fun h => Or.inl h
    · rintro (h | rfl)
      · exact h
      · exact hmem
  · rw [if_neg hhas]
    have hnot : (cx, cy) ∉ g.generatedChunks := fun h => hhas ((Registry.has_iff _ _).2 h)
    have hstep : ∀ (i : ℕ) (s : Game K), (∃ e ef, s.seaweedPieces = g.seaweedPieces ++ e ∧
        s.fishPieces = g.fishPieces ++ ef ∧
        (∀ a ∈ e, ∃ n, (g.world.surfaceY + 100 ≤ (cy : K) * size + rand (n + 1) * size ∧
          (cy : K) * size + rand (n + 1) * size ≤ g.world.bottomY - 50) ∧
          a = spawnSeaweed M rand cx cy size n) ∧
        (∀ f ∈ ef, ∃ n, (g.world.surfaceY + 100 ≤ (cy : K) * size + rand (n + 1) * size ∧
          (cy : K) * size + rand (n + 1) * size ≤ g.world.bottomY - 50) ∧
          f = spawnLurker rand cx cy size n) ∧
        s.world = g.world ∧ s.generatedChunks = g.generatedChunks.add (cx, cy) ∧
        s.fishGeneratedChunks = g.fishGeneratedChunks) →
        (∃ e ef, (seaweedAttempt M rand cx cy size s).seaweedPieces = g.seaweedPieces ++ e ∧
        (seaweedAttempt M rand cx cy size s).fishPieces = g.fishPieces ++ ef ∧
        (∀ a ∈ e, ∃ n, (g.world.surfaceY + 100 ≤ (cy : K) * size + rand (n + 1) * size ∧
          (cy : K) * size + rand (n + 1) * size ≤ g.world.bottomY - 50) ∧
          a = spawnSeaweed M rand cx cy size n) ∧
        (∀ f ∈ ef, ∃ n, (g.world.surfaceY + 100 ≤ (cy : K) * size + rand (n + 1) * size ∧
          (cy : K) * size + rand (n + 1) * size ≤ g.world.bottomY - 50) ∧
          f = spawnLurker rand cx cy size n) ∧
        (seaweedAttempt M rand cx cy size s).world = g.world ∧
        (seaweedAttempt M rand cx cy size s).generatedChunks = g.generatedChunks.add (cx, cy) ∧
        (seaweedAttempt M rand cx cy size s).fishGeneratedChunks = g.fishGeneratedChunks) ∧
        (seaweedAttempt M rand cx cy size s).seaweedPieces.length
          ≤ s.seaweedPieces.length + 1 := by
      rintro i s ⟨e, ef, h1, h2, h3, h4, h5, h6, h7⟩
      unfold seaweedAttempt
      simp only []
      rw [h5]
      by_cases hacc : (cy : K) * size + rand (s.randomCalls + 1) * size ≥ g.world.surfaceY + 100 ∧
          (cy : K) * size + rand (s.randomCalls + 1) * size ≤ g.world.bottomY - 50
      · rw [if_pos hacc]
        by_cases hl : rand (s.randomCalls + 5) < 0.12
        · rw [if_pos hl]
          refine ⟨⟨e ++ [spawnSeaweed M rand cx cy size s.randomCalls],
            ef ++ [spawnLurker rand cx cy size s.randomCalls], ?_, ?_, ?_, ?_, rfl, h6, h7⟩, ?_⟩
          · simp [h1]
          · simp [h2]
          · intro a ha
            rcases List.mem_append.1 ha with ha | ha
            · exact h3 a ha
            · exact ⟨s.randomCalls, hacc, List.mem_singleton.1 ha⟩
          · intro f hf
            rcases List.mem_append.1 hf with hf | hf
            · exact h4 f hf
            · exact ⟨s.randomCalls, hacc, List.mem_singleton.1 hf⟩
          · simp
        · rw [if_neg hl]
          refine ⟨⟨e ++ [spawnSeaweed M rand cx cy size s.randomCalls], ef, ?_, h2, ?_, h4,
            rfl, h6, h7⟩, ?_⟩
          · simp [h1]
          · intro a ha
            rcases List.mem_append.1 ha with ha | ha
            · exact h3 a ha
            · exact ⟨s.randomCalls, hacc, List.mem_singleton.1 ha⟩
          · simp
      · rw [if_neg hacc]
        exact ⟨⟨e, ef, h1, h2, h3, h4, rfl, h6, h7⟩, by simp⟩
    obtain ⟨⟨e, ef, h1, h2, h3, h4, h5, h6, h7⟩, hm⟩ := forLoop_measure
      (fun s : Game K => s.seaweedPieces.length)
      (fun s : Game K => ∃ e ef, s.seaweedPieces = g.seaweedPieces ++ e ∧
        s.fishPieces = g.fishPieces ++ ef ∧
        (∀ a ∈ e, ∃ n, (g.world.surfaceY + 100 ≤ (cy : K) * size + rand (n + 1) * size ∧
          (cy : K) * size + rand (n + 1) * size ≤ g.world.bottomY - 50) ∧
          a = spawnSeaweed M rand cx cy size n) ∧
        (∀ f ∈ ef, ∃ n, (g.world.surfaceY + 100 ≤ (cy : K) * size + rand (n + 1) * size ∧
          (cy : K) * size + rand (n + 1) * size ≤ g.world.bottomY - 50) ∧
          f = spawnLurker rand cx cy size n) ∧
        s.world = g.world ∧ s.generatedChunks = g.generatedChunks.add (cx, cy) ∧
        s.fishGeneratedChunks = g.fishGeneratedChunks)
      (fun _ s => seaweedAttempt M rand cx cy size s) hstep (seaweedCount size).toNat 0
      { g with generatedChunks := g.generatedChunks.add (cx, cy) }
      ⟨[], [], by simp, by simp, by simp, by simp, rfl, rfl, rfl⟩
    refine ⟨e, ef, h1, h2, ?_, h3, h4, fun h => absurd h hnot, fun k => ?_, h7⟩
    · have := congrArg List.length h1
      simp only [List.length_append] at this hm
      omega
    · rw [h6, Registry.mem_add]

/-- One call of `generateFishChunk` appends at most `fishCount` fish, each the
object of an accepted attempt; it appends nothing when the key is already
marked, and marks the key. -/
theorem generateFishChunk_new (rand : ℕ → K) (cx cy : ℤ) (size : K) (g : Game K) :
    ∃ ef, (generateFishChunk rand cx cy size g).fishPieces = g.fishPieces ++ ef ∧
      (generateFishChunk rand cx cy size g).seaweedPieces = g.seaweedPieces ∧
      ef.length ≤ (fishCount size).toNat ∧
      (∀ f ∈ ef, ∃ n, (g.world.surfaceY + 80 ≤ (cy : K) * size + rand (n + 1) * size ∧
        (cy : K) * size + rand (n + 1) * size ≤ g.world.bottomY - 80) ∧
        f = spawnFish rand cx cy size n) ∧
      ((cx, cy) ∈ g.fishGeneratedChunks → ef = []) ∧
      (∀ k, k ∈ (generateFishChunk rand cx cy size g).fishGeneratedChunks ↔
        k ∈ g.fishGeneratedChunks ∨ k = (cx, cy)) ∧
      (generateFishChunk rand cx cy size g).generatedChunks = g.generatedChunks := by
  unfold generateFishChunk
  simp only []
  by_cases hhas : g.fishGeneratedChunks.has (cx, cy) = true
  · rw [if_pos hhas]
    have hmem := (Registry.has_iff _ _).1 hhas
    refine ⟨[], by simp, rfl, by simp, by simp, by simp, fun k => ?_, rfl⟩
    constructor
    · exact fun h => Or.inl h
    · rintro (h | rfl)
      · exact h
      · exact hmem
  · rw [if_neg hhas]
    have hnot : (cx, cy) ∉ g.fishGeneratedChunks := fun h => hhas ((Registry.has_iff _ _).2 h)
    have hstep : ∀ (i : ℕ) (s : Game K), (∃ ef, s.fishPieces = g.fishPieces ++ ef ∧
        s.seaweedPieces = g.seaweedPieces ∧
        (∀ f ∈ ef, ∃ n, (g.world.surfaceY + 80 ≤ (cy : K) * size + rand (n + 1) * size ∧
          (cy : K) * size + rand (n + 1) * size ≤ g.world.bottomY - 80) ∧
          f = spawnFish rand cx cy size n) ∧
        s.world = g.world ∧ s.fishGeneratedChunks = g.fishGeneratedChunks.add (cx, cy) ∧
        s.generatedChunks = g.generatedChunks) →
        (∃ ef, (fishAttempt rand cx cy size s).fishPieces = g.fishPieces ++ ef ∧
        (fishAttempt rand cx cy size s).seaweedPieces = g.seaweedPieces ∧
        (∀ f ∈ ef, ∃ n, (g.world.surfaceY + 80 ≤ (cy : K) * size + rand (n + 1) * size ∧
          (cy : K) * size + rand (n + 1) * size ≤ g.world.bottomY - 80) ∧
          f = spawnFish rand cx cy size n) ∧
        (fishAttempt rand cx cy size s).world = g.world ∧
        (fishAttempt rand cx cy size s).fishGeneratedChunks
          = g.fishGeneratedChunks.add (cx, cy) ∧
        (fishAttempt rand cx cy size s).generatedChunks = g.generatedChunks) ∧
        (fishAttempt rand cx cy size s).fishPieces.length ≤ s.fishPieces.length + 1 := by
      rintro i s ⟨ef, h1, h2, h3, h5, h6, h7⟩
      unfold fishAttempt
      simp only []
      rw [h5]
      by_cases hacc : (cy : K) * size + rand (s.randomCalls + 1) * size ≥ g.world.surfaceY + 80 ∧
          (cy : K) * size + rand (s.randomCalls + 1) * size ≤ g.world.bottomY - 80
      · rw [if_pos hacc]
        refine ⟨⟨ef ++ [spawnFish rand cx cy size s.randomCalls], ?_, h2, ?_, rfl, h6, h7⟩, ?_⟩
        · simp [h1]
        · intro f hf
          rcases List.mem_append.1 hf with hf | hf
          · exact h3 f hf
          · exact ⟨s.randomCalls, hacc, List.mem_singleton.1 hf⟩
        · simp
      · rw [if_neg hacc]
        exact ⟨⟨ef, h1, h2, h3, rfl, h6, h7⟩, by simp⟩
    obtain ⟨⟨ef, h1, h2, h3, h5, h6, h7⟩, hm⟩ := forLoop_measure
      (fun s : Game K => s.fishPieces.length)
      (fun s : Game K => ∃ ef, s.fishPieces = g.fishPieces ++ ef ∧
        s.seaweedPieces = g.seaweedPieces ∧
        (∀ f ∈ ef, ∃ n, (g.world.surfaceY + 80 ≤ (cy : K) * size + rand (n + 1) * size ∧
          (cy : K) * size + rand (n + 1) * size ≤ g.world.bottomY - 80) ∧
          f = spawnFish rand cx cy size n) ∧
        s.world = g.world ∧ s.fishGeneratedChunks = g.fishGeneratedChunks.add (cx, cy) ∧
        s.generatedChunks = g.generatedChunks)
      (fun _ s => fishAttempt rand cx cy size s) hstep (fishCount size).toNat 0
      { g with fishGeneratedChunks := g.fishGeneratedChunks.add (cx, cy) }
      ⟨[], by simp, rfl, by simp, rfl, rfl, rfl⟩
    refine ⟨ef, h1, h2, ?_, h3, fun h => absurd h hnot, fun k => ?_, h7⟩
    · have := congrArg List.length h1
      simp only [List.length_append] at this hm
      omega
    · rw [h6, Registry.mem_add]

/-- A point drawn inside a chunk lies in that chunk. -/
theorem floor_chunk (c : ℤ) (r : K) (h0 : 0 ≤ r) (h1 : r < 1) :
    ⌊((c : K) * chunkSize + r * chunkSize) / chunkSize⌋ = c := by
  have hs : (0 : K) < chunkSize := by unfold chunkSize; norm_num
  rw [Int.floor_eq_iff]
  constructor
  · rw [le_div_iff₀ hs]
    nlinarith
  · rw [div_lt_iff₀ hs]
    nlinarith

theorem seaweedOf_append (k : ChunkKey) (l1 l2 : List (Seaweed K)) :
    seaweedOf k (l1 ++ l2) = seaweedOf k l1 + seaweedOf k l2 := by
  simp [seaweedOf, List.countP_append]

theorem normalFishOf_append (k : ChunkKey) (l1 l2 : List (Fish K)) :
    normalFishOf k (l1 ++ l2) = normalFishOf k l1 + normalFishOf k l2 := by
  simp [normalFishOf, List.countP_append]

theorem seaweedOf_le_length (k : ChunkKey) (l : List (Seaweed K)) : seaweedOf k l ≤ l.length :=
  List.countP_le_length _

theorem normalFishOf_le_length (k : ChunkKey) (l : List (Fish K)) :
    normalFishOf k l ≤ l.length :=
  List.countP_le_length _

theorem seaweedOf_eq_zero (k c : ChunkKey) (l : List (Seaweed K))
    (h : ∀ a ∈ l, a.chunkKey = c) (hk : k ≠ c) : seaweedOf k l = 0 := by
  unfold seaweedOf
  rw [List.countP_eq_zero]
  intro a ha
  simp only [decide_eq_true_eq]
  rw [h a ha]
  exact fun hc => hk hc.symm

theorem normalFishOf_eq_zero (k c : ChunkKey) (l : List (Fish K))
    (h : ∀ f ∈ l, f.chunkKey = c) (hk : k ≠ c) : normalFishOf k l = 0 := by
  unfold normalFishOf
  rw [List.countP_eq_zero]
  intro a ha
  simp only [decide_eq_true_eq, not_and]
  intro _
  rw [h a ha]
  exact fun hc => hk hc.symm

theorem normalFishOf_green (k : ChunkKey) (l : List (Fish K))
    (h : ∀ f ∈ l, f.type = FishType.green) : normalFishOf k l = 0 := by
  unfold normalFishOf
  rw [List.countP_eq_zero]
  intro a ha
  simp only [decide_eq_true_eq, not_and]
  intro hn
  rw [h a ha] at hn
  exact absurd hn (by decide)

theorem Fresh.start (g : Game K) (cS cF : ℕ) : Fresh g cS cF g :=
  ⟨⟨[], [], by simp, by simp, fun k => by simp [seaweedOf, normalFishOf]⟩,
    fun _ h => h, fun _ h => h⟩

theorem Fresh.seaweed (M : JSMath K) (rand : ℕ → K) (cx cy : ℤ) (size : K) (cF : ℕ)
    (g s : Game K) (h : Fresh g (seaweedCount size).toNat cF s) :
    Fresh g (seaweedCount size).toNat cF (generateSeaweedChunk M rand cx cy size s) := by
  obtain ⟨⟨e, ef, he, hef, hk⟩, hm, hfm⟩ := h
  obtain ⟨e2, ef2, n1, n2, n3, n4, n5, n6, n7, n8⟩ := generateSeaweedChunk_new M rand cx cy size s
  have key2 : ∀ a ∈ e2, a.chunkKey = (cx, cy) := by
    intro a ha
    obtain ⟨n, -, rfl⟩ := n4 a ha
    rfl
  have green2 : ∀ f ∈ ef2, f.type = FishType.green := by
    intro f hf
    obtain ⟨n, -, rfl⟩ := n5 f hf
    rfl
  refine ⟨⟨e ++ e2, ef ++ ef2, by rw [n1, he, List.append_assoc],
    by rw [n2, hef, List.append_assoc], fun k => ?_⟩,
    fun k hk1 => (n7 k).2 (Or.inl (hm k hk1)), fun k hk1 => by rw [n8]; exact hfm k hk1⟩
  obtain ⟨k1, k2, k3, k4, k5, k6⟩ := hk k
  rw [seaweedOf_append, normalFishOf_append, normalFishOf_green k ef2 green2, n8]
  have hzero : k ≠ (cx, cy) → seaweedOf k e2 = 0 := seaweedOf_eq_zero k (cx, cy) e2 key2
  refine ⟨?_, k2, ?_, k4, ?_, k6⟩
  · by_cases hkc : k = (cx, cy)
    · by_cases hmark : (cx, cy) ∈ s.generatedChunks
      · rw [(n6 hmark).1]
        simpa [seaweedOf] using k1
      · rw [hkc, (hk (cx, cy)).2.2.1 hmark, zero_add]
        exact le_trans (seaweedOf_le_length _ _) n3
    · rw [hzero hkc]
      exact k1
  · intro hnot
    have h1 : k ∉ s.generatedChunks := fun hc => hnot ((n7 k).2 (Or.inl hc))
    have h2 : k ≠ (cx, cy) := fun hc => hnot ((n7 k).2 (Or.inr hc))
    rw [k3 h1, hzero h2]
  · intro hin
    by_cases hmark : (cx, cy) ∈ s.generatedChunks
    · rw [(n6 hmark).1, k5 hin]
      simp [seaweedOf]
    · have h2 : k ≠ (cx, cy) := fun hc => hmark (hc ▸ hm k hin)
      rw [k5 hin, hzero h2]

theorem Fresh.fish (rand : ℕ → K) (cx cy : ℤ) (size : K) (cS : ℕ)
    (g s : Game K) (h : Fresh g cS (fishCount size).toNat s) :
    Fresh g cS (fishCount size).toNat (generateFishChunk rand cx cy size s) := by
  obtain ⟨⟨e, ef, he, hef, hk⟩, hm, hfm⟩ := h
  obtain ⟨ef2, n1, n2, n3, n4, n6, n7, n8⟩ := generateFishChunk_new rand cx cy size s
  have key2 : ∀ f ∈ ef2, f.chunkKey = (cx, cy) := by
    intro f hf
    obtain ⟨n, -, rfl⟩ := n4 f hf
    rfl
  refine ⟨⟨e, ef ++ ef2, by rw [n2, he], by rw [n1, hef, List.append_assoc], fun k => ?_⟩,
    fun k hk1 => by rw [n8]; exact hm k hk1, fun k hk1 => (n7 k).2 (Or.inl (hfm k hk1))⟩
  obtain ⟨k1, k2, k3, k4, k5, k6⟩ := hk k
  rw [normalFishOf_append, n8]
  have hzero : k ≠ (cx, cy) → normalFishOf k ef2 = 0 := normalFishOf_eq_zero k (cx, cy) ef2 key2
  refine ⟨k1, ?_, k3, ?_, k5, ?_⟩
  · by_cases hkc : k = (cx, cy)
    · by_cases hmark : (cx, cy) ∈ s.fishGeneratedChunks
      · rw [n6 hmark]
        simpa [normalFishOf] using k2
      · rw [hkc, (hk (cx, cy)).2.2.2.1 hmark, zero_add]
        exact le_trans (normalFishOf_le_length _ _) n3
    · rw [hzero hkc]
      exact k2
  · intro hnot
    have h1 : k ∉ s.fishGeneratedChunks := fun hc => hnot ((n7 k).2 (Or.inl hc))
    have h2 : k ≠ (cx, cy) := fun hc => hnot ((n7 k).2 (Or.inr hc))
    rw [k4 h1, hzero h2]
  · intro hin
    by_cases hmark : (cx, cy) ∈ s.fishGeneratedChunks
    · rw [n6 hmark, k6 hin]
      simp [normalFishOf]
    · have h2 : k ≠ (cx, cy) := fun hc => hmark (hc ▸ hfm k hin)
      rw [k6 hin, hzero h2]

theorem generateAround_fresh (M : JSMath K) (rand : ℕ → K) (cx cy : ℤ) (size : K) (g : Game K) :
    Fresh g (seaweedCount size).toNat (fishCount size).toNat
      (generateAround M rand cx cy size g) := by
  unfold generateAround
  simp only []
  refine foldl_invariant (Fresh g _ _) _ _ _ (fun s dx _ hs => ?_) (Fresh.start g _ _)
  refine foldl_invariant (Fresh g _ _) _ _ _ (fun s dy _ hs => ?_) hs
  exact Fresh.fish rand _ _ size _ g _ (Fresh.seaweed M rand _ _ size _ g s hs)

theorem inView_iff (cx cy x y : K) :
    inView cx cy (chunkSize * 3) x y = decide (|x - cx| ≤ 2400 ∧ |y - cy| ≤ 2400) := by
  unfold inView chunkSize
  have h : (800 : K) * 3 = 2400 := by norm_num
  rw [h]
  simp only [not_or, not_lt, gt_iff_lt]

theorem seaweedCount_chunkSize : (seaweedCount (chunkSize : K)).toNat = 16 := by
  have h : seaweedCount (chunkSize : K) = 16 := by
    unfold seaweedCount chunkSize seaweedDensity
    simp only []
    rw [Int.floor_eq_iff]
    constructor <;> norm_num
  rw [h]
  rfl

theorem fishCount_chunkSize : (fishCount (chunkSize : K)).toNat = 3 := by
  have h : fishCount (chunkSize : K) = 3 := by
    unfold fishCount chunkSize fishDensity
    simp only []
    rw [Int.floor_eq_iff]
    constructor <;> norm_num
  rw [h]
  rfl

theorem generateSeaweedChunk_of_marked (M : JSMath K) (rand : ℕ → K) (cx cy : ℤ) (size : K)
    (g : Game K) (h : (cx, cy) ∈ g.generatedChunks) :
    generateSeaweedChunk M rand cx cy size g = g := by
  unfold generateSeaweedChunk
  simp only []
  rw [if_pos ((Registry.has_iff _ _).2 h)]

theorem generateFishChunk_of_marked (rand : ℕ → K) (cx cy : ℤ) (size : K)
    (g : Game K) (h : (cx, cy) ∈ g.fishGeneratedChunks) :
    generateFishChunk rand cx cy size g = g := by
  unfold generateFishChunk
  simp only []
  rw [if_pos ((Registry.has_iff _ _).2 h)]

/-! ## Fish behaviour -/

theorem clampY_state (w : World K) (f : Fish K) :
    (clampY w f).state = f.state ∧ (clampY w f).stateTimer = f.stateTimer ∧
      (clampY w f).type = f.type := by
  unfold clampY
  simp only []
  split_ifs <;> exact ⟨rfl, rfl, rfl⟩

/-- The state transitions of the green branch, in terms of the two distances at
the start of the tick. -/
theorem greenBehave_state (M : JSMath K) (sx sy : K) (f : Fish K) :
    (f.state = FishState.hiding →
      (sharkDist M sx sy f < 120 →
        (greenBehave M sx sy f).state = FishState.emerging ∧
          (greenBehave M sx sy f).stateTimer = 0) ∧
      (¬ sharkDist M sx sy f < 120 → (greenBehave M sx sy f).state = FishState.hiding)) ∧
    (f.state = FishState.emerging →
      (homeDist M f > 800 → (greenBehave M sx sy f).state = FishState.returning) ∧
      (¬ homeDist M f > 800 → (greenBehave M sx sy f).state = FishState.emerging)) ∧
    (f.state = FishState.returning →
      (sharkDist M sx sy f < 120 →
        (greenBehave M sx sy f).state = FishState.emerging ∧
          (greenBehave M sx sy f).stateTimer = 0) ∧
      (¬ sharkDist M sx sy f < 120 →
        (homeDist M f < 2 → (greenBehave M sx sy f).state = FishState.hiding) ∧
        (homeDist M f > 2 → (greenBehave M sx sy f).state = FishState.returning))) := by
  have hhome : M.sqrt ((f.homeX - f.x) * (f.homeX - f.x) + (f.homeY - f.y) * (f.homeY - f.y))
      = homeDist M f := by
    unfold homeDist
    congr 1
    ring
  refine ⟨fun hs => ?_, fun hs => ?_, fun hs => ?_⟩
  · unfold greenBehave
    rw [hs]
    simp only []
    constructor
    · intro h
      rw [if_pos h]
      exact ⟨rfl, rfl⟩
    · intro h
      rw [if_neg h]
  · unfold greenBehave
    rw [hs]
    simp only []
    constructor
    · intro h
      split_ifs at * <;> first | rfl | (exfalso; simp only [homeDist] at *; contradiction)
    · intro h
      split_ifs at * <;> first | rfl | (exfalso; simp only [homeDist] at *; contradiction)
  · unfold greenBehave
    rw [hs]
    simp only []
    rw [hhome]
    constructor
    · intro h
      rw [if_pos h]
      exact ⟨rfl, rfl⟩
    · intro h
      rw [if_neg h]
      constructor
      · intro h2
        rw [if_neg (not_lt.2 (le_of_lt h2))]
      · intro h2
        rw [if_pos h2]

theorem updateGreenFish_state (M : JSMath K) (w : World K) (sx sy : K) (f : Fish K) :
    (updateGreenFish M w sx sy f).state = (greenBehave M sx sy f).state ∧
    (updateGreenFish M w sx sy f).stateTimer = (greenBehave M sx sy f).stateTimer := by
  unfold updateGreenFish
  exact ⟨(clampY_state w _).1, (clampY_state w _).2.1⟩

/-- Every fish of the list after `updateFish` is the result of the callback on
the fish at the same index before. -/
theorem updateFish_pointwise (M : JSMath K) (rand : ℕ → K) (g : Game K) :
    List.Forall₂ (fun f f2 => ∃ n, f2 = (updateOneFish M rand g.world
      (g.shark.x - g.world.offsetX) (g.shark.y - g.world.offsetY) f n).1)
      g.fishPieces (updateFish M rand g).fishPieces := by
  unfold updateFish
  simp only []
  have key : ∀ (l done : List (Fish K)) (acc : List (Fish K) × ℕ),
      List.Forall₂ (fun f f2 => ∃ n, f2 = (updateOneFish M rand g.world
        (g.shark.x - g.world.offsetX) (g.shark.y - g.world.offsetY) f n).1) done acc.1 →
      List.Forall₂ (fun f f2 => ∃ n, f2 = (updateOneFish M rand g.world
        (g.shark.x - g.world.offsetX) (g.shark.y - g.world.offsetY) f n).1) (done ++ l)
        (l.foldl (fun (acc : List (Fish K) × ℕ) fish =>
          ((acc.1 ++ [(updateOneFish M rand g.world (g.shark.x - g.world.offsetX)
            (g.shark.y - g.world.offsetY) fish acc.2).1]),
            (updateOneFish M rand g.world (g.shark.x - g.world.offsetX)
              (g.shark.y - g.world.offsetY) fish acc.2).2)) acc).1 := by
    intro l
    induction l with
    | nil => intro done acc h; simpa using h
    | cons a l ih =>
      intro done acc h
      rw [List.foldl_cons]
      have h1 : List.Forall₂ (fun f f2 => ∃ n, f2 = (updateOneFish M rand g.world
          (g.shark.x - g.world.offsetX) (g.shark.y - g.world.offsetY) f n).1) (done ++ [a])
          (acc.1 ++ [(updateOneFish M rand g.world (g.shark.x - g.world.offsetX)
            (g.shark.y - g.world.offsetY) a acc.2).1]) :=
        List.rel_append h (List.Forall₂.cons ⟨acc.2, rfl⟩ List.Forall₂.nil)
      have h2 := ih (done ++ [a]) (acc.1 ++ [(updateOneFish M rand g.world
        (g.shark.x - g.world.offsetX) (g.shark.y - g.world.offsetY) a acc.2).1],
        (updateOneFish M rand g.world (g.shark.x - g.world.offsetX)
          (g.shark.y - g.world.offsetY) a acc.2).2) h1
      simpa using h2
  simpa using key g.fishPieces [] ([], g.randomCalls) List.Forall₂.nil

/-- The fish at index `i` after `updateFish` is the callback's result on the fish
at index `i` before. -/
theorem updateFish_getElem (M : JSMath K) (rand : ℕ → K) (g : Game K) (i : ℕ) (f : Fish K)
    (hf : g.fishPieces[i]? = some f) :
    ∃ n, (updateFish M rand g).fishPieces[i]? = some (updateOneFish M rand g.world
      (g.shark.x - g.world.offsetX) (g.shark.y - g.world.offsetY) f n).1 := by
  have h := updateFish_pointwise M rand g
  have hi : i < g.fishPieces.length := getElem?_some_lt hf
  have hi2 : i < (updateFish M rand g).fishPieces.length := by rw [← h.length_eq]; exact hi
  have ha : g.fishPieces[i] = f := by
    rw [List.getElem?_eq_getElem hi] at hf
    exact Option.some.inj hf
  obtain ⟨n, hn⟩ := h.get hi hi2
  refine ⟨n, ?_⟩
  rw [List.getElem?_eq_getElem hi2]
  simp only [List.get_eq_getElem] at hn
  rw [hn, ha]

/-! ## The vertical bounds test -/

theorem updateOneFish_eq_clampY (M : JSMath K) (rand : ℕ → K) (w : World K) (sx sy : K)
    (f : Fish K) (n : ℕ) :
    (updateOneFish M rand w sx sy f n).1 = clampY w (beforeClamp M rand sx sy f n) := by
  unfold updateOneFish beforeClamp
  simp only []
  split_ifs <;> rfl

/-- What the vertical bounds test does when the bounds are in order. -/
theorem clampY_spec (w : World K) (p : Fish K) (hw : w.surfaceY + 80 ≤ w.bottomY - 80) :
    w.surfaceY + 80 ≤ (clampY w p).y ∧ (clampY w p).y ≤ w.bottomY - 80 ∧
    (p.y < w.surfaceY + 80 → (clampY w p).y = w.surfaceY + 80 ∧ (clampY w p).vy = |p.vy|) ∧
    (p.y > w.bottomY - 80 → (clampY w p).y = w.bottomY - 80 ∧ (clampY w p).vy = -|p.vy|) ∧
    (w.surfaceY + 80 ≤ p.y → p.y ≤ w.bottomY - 80 → clampY w p = p) := by
  unfold clampY
  simp only []
  by_cases h1 : p.y < w.surfaceY + 80
  · rw [if_pos h1]
    simp only []
    have h2 : ¬ w.surfaceY + 80 > w.bottomY - 80 := not_lt.2 hw
    rw [if_neg h2]
    exact ⟨le_rfl, hw, fun _ => ⟨rfl, rfl⟩, fun h => absurd h (by linarith),
      fun h => absurd h1 (not_lt.2 h)⟩
  · rw [if_neg h1]
    by_cases h2 : p.y > w.bottomY - 80
    · rw [if_pos h2]
      exact ⟨hw, le_rfl, fun h => absurd h h1, fun _ => ⟨rfl, rfl⟩,
        fun _ h => absurd h2 (not_lt.2 h)⟩
    · rw [if_neg h2]
      exact ⟨not_lt.1 h1, not_lt.1 h2, fun h => absurd h h1, fun h => absurd h h2,
        fun _ _ => rfl⟩

/-- The bounds test changes neither `x`, `vx`, `speed` nor the square of `vy`. -/
theorem clampY_frame (w : World K) (p : Fish K) :
    (clampY w p).x = p.x ∧ (clampY w p).vx = p.vx ∧ (clampY w p).speed = p.speed ∧
    (clampY w p).vy ^ 2 = p.vy ^ 2 ∧ (clampY w p).homeX = p.homeX ∧
    (clampY w p).homeY = p.homeY ∧ (clampY w p).isFleeing = p.isFleeing := by
  unfold clampY
  simp only []
  split_ifs <;> simp [sq_abs]

/-- Every fish of the list after `updateFish` is the callback's result on some
fish of the list before. -/
theorem updateFish_mem (M : JSMath K) (rand : ℕ → K) (g : Game K) (f2 : Fish K)
    (h2 : f2 ∈ (updateFish M rand g).fishPieces) :
    ∃ f ∈ g.fishPieces, ∃ n, f2 = (updateOneFish M rand g.world
      (g.shark.x - g.world.offsetX) (g.shark.y - g.world.offsetY) f n).1 := by
  have h := updateFish_pointwise M rand g
  obtain ⟨i, hi2, rfl⟩ := List.mem_iff_getElem.1 h2
  have hi : i < g.fishPieces.length := by rw [h.length_eq]; exact hi2
  obtain ⟨n, hn⟩ := h.get hi hi2
  exact ⟨g.fishPieces[i], List.getElem_mem _, n, by simpa using hn⟩

/-! ## Particles of an eating event -/

theorem forLoop_exact {σ : Type} (m : σ → ℕ) (P : σ → Prop) (body : ℕ → σ → σ)
    (h : ∀ i s, P s → P (body i s) ∧ m (body i s) = m s + 1) :
    ∀ (n start : ℕ) (s : σ), P s →
      P (forLoop body n start s) ∧ m (forLoop body n start s) = m s + n
  | 0, _, _, hs => ⟨hs, rfl⟩
  | n + 1, start, s, hs => by
    obtain ⟨h1, h2⟩ := h start s hs
    obtain ⟨h3, h4⟩ := forLoop_exact m P body h n (start + 1) (body start s) h1
    exact ⟨h3, by rw [forLoop]; omega⟩

/-- One call of `createBloodEffect` appends exactly `particleCount` particles,
each with `life = 1` and `maxSize = size`. -/
theorem createBloodEffect_particles (M : JSMath K) (rand : ℕ → K) (x y size : K) (g : Game K) :
    ∃ fresh, (createBloodEffect M rand x y size g).bloodParticles = g.bloodParticles ++ fresh ∧
      fresh.length = (min (12 + ⌊size / 2⌋) 20).toNat ∧
      ∀ p ∈ fresh, p.life = 1 ∧ p.maxSize = p.size := by
  have hstep : ∀ (i : ℕ) (s : Game K),
      (∃ fresh, s.bloodParticles = g.bloodParticles ++ fresh ∧
        ∀ p ∈ fresh, p.life = 1 ∧ p.maxSize = p.size) →
      (∃ fresh, (bloodParticle M rand x y size (min (12 + ⌊size / 2⌋) 20) i s).bloodParticles
          = g.bloodParticles ++ fresh ∧ ∀ p ∈ fresh, p.life = 1 ∧ p.maxSize = p.size) ∧
      (bloodParticle M rand x y size (min (12 + ⌊size / 2⌋) 20) i s).bloodParticles.length
        = s.bloodParticles.length + 1 := by
    rintro i s ⟨fresh, h1, h2⟩
    unfold bloodParticle
    simp only []
    refine ⟨⟨fresh ++ [_], by rw [h1, List.append_assoc], ?_⟩, by simp⟩
    intro p hp
    rcases List.mem_append.1 hp with hp | hp
    · exact h2 p hp
    · rw [List.mem_singleton.1 hp]
      exact ⟨by norm_num, rfl⟩
  unfold createBloodEffect
  simp only []
  obtain ⟨⟨fresh, h1, h2⟩, hm⟩ := forLoop_exact (fun s : Game K => s.bloodParticles.length)
    (fun s : Game K => ∃ fresh, s.bloodParticles = g.bloodParticles ++ fresh ∧
      ∀ p ∈ fresh, p.life = 1 ∧ p.maxSize = p.size)
    (bloodParticle M rand x y size (min (12 + ⌊size / 2⌋) 20)) hstep
    (min (12 + ⌊size / 2⌋) 20).toNat 0 g ⟨[], by simp, by simp⟩
  refine ⟨fresh, h1, ?_, h2⟩
  have := congrArg List.length h1
  simp only [List.length_append] at this hm
  omega

/-- One call of `handleFishEaten` appends two bursts of `createBloodEffect`. -/
theorem handleFishEaten_particles (M : JSMath K) (rand : ℕ → K) (fish : Fish K) (i : ℕ)
    (g : Game K) :
    ∃ fresh, (handleFishEaten M rand fish i g).bloodParticles = g.bloodParticles ++ fresh ∧
      fresh.length = 2 * (min (12 + ⌊fish.size / 2⌋) 20).toNat ∧
      ∀ p ∈ fresh, p.life = 1 ∧ p.maxSize = p.size := by
  obtain ⟨f1, a1, a2, a3⟩ := createBloodEffect_particles M rand fish.x fish.y fish.size g
  unfold handleFishEaten
  simp only []
  generalize createBloodEffect M rand fish.x fish.y fish.size g = g1 at a1 ⊢
  obtain ⟨f2, b1, b2, b3⟩ := createBloodEffect_particles M rand fish.x fish.y fish.size
    { g1 with
      gameStats :=
        if fish.color = "#FFD700" then
          { fishEaten := g1.gameStats.fishEaten + 1,
            slowFishEaten := g1.gameStats.slowFishEaten + 1,
            fastFishEaten := g1.gameStats.fastFishEaten }
        else
          { fishEaten := g1.gameStats.fishEaten + 1,
            slowFishEaten := g1.gameStats.slowFishEaten,
            fastFishEaten := g1.gameStats.fastFishEaten + 1 },
      shark := { g1.shark with
        growthFactor := g1.shark.growthFactor
          + (if fish.color = "#FFD700" then 0.02 + fish.size / 500 else 0.015 + fish.size / 600),
        width := g1.shark.baseWidth * (g1.shark.growthFactor
          + (if fish.color = "#FFD700" then 0.02 + fish.size / 500 else 0.015 + fish.size / 600)),
        height := g1.shark.baseHeight * (g1.shark.growthFactor
          + (if fish.color = "#FFD700" then 0.02 + fish.size / 500
              else 0.015 + fish.size / 600)) } }
  refine ⟨f1 ++ f2, ?_, by rw [List.length_append, a2, b2]; omega, ?_⟩
  · simp only [] at b1
    rw [← List.append_assoc, ← a1]
    exact b1
  · intro p hp
    rcases List.mem_append.1 hp with hp | hp
    · exact a3 p hp
    · exact b3 p hp

/-! ## Green fish at rest and in motion -/

/-- A hiding green fish is moved to its home with zero velocity, before the
vertical bounds test. -/
theorem greenMoved_hiding (M : JSMath K) (sx sy : K) (f : Fish K)
    (hs : f.state = FishState.hiding) :
    (greenMoved M sx sy f).x = f.homeX ∧ (greenMoved M sx sy f).y = f.homeY ∧
    (greenMoved M sx sy f).vx = 0 ∧ (greenMoved M sx sy f).vy = 0 := by
  unfold greenMoved greenBehave
  rw [hs]
  simp only []
  split_ifs <;> simp

theorem updateOneFish_green (M : JSMath K) (rand : ℕ → K) (w : World K) (sx sy : K)
    (f : Fish K) (n : ℕ) (hgreen : f.type = FishType.green) :
    (updateOneFish M rand w sx sy f n).1 = clampY w (greenMoved M sx sy f) := by
  unfold updateOneFish
  rw [if_pos hgreen]
  rfl

/-! ## Lengths of scaled vectors, over the reals -/

/-- A vector divided by its length and multiplied by `m ≥ 0` has length `m`. -/
theorem sqrt_scaled (a b m : ℝ) (hm : 0 ≤ m) (hs : 0 < Real.sqrt (a * a + b * b)) :
    Real.sqrt ((a / Real.sqrt (a * a + b * b) * m) ^ 2
      + (b / Real.sqrt (a * a + b * b) * m) ^ 2) = m := by
  have hnn : 0 ≤ a * a + b * b := by nlinarith [mul_self_nonneg a, mul_self_nonneg b]
  have hsq : Real.sqrt (a * a + b * b) ^ 2 = a * a + b * b := Real.sq_sqrt hnn
  have hne : Real.sqrt (a * a + b * b) ≠ 0 := ne_of_gt hs
  have h : (a / Real.sqrt (a * a + b * b) * m) ^ 2
      + (b / Real.sqrt (a * a + b * b) * m) ^ 2 = m ^ 2 := by
    have hpos : 0 < a * a + b * b := Real.sqrt_pos.1 hs
    field_simp
    ring
  rw [h, Real.sqrt_sq hm]

/-- The speed limit of `updateFish`: a velocity scaled down to `m` when it is
longer than `m` has length at most `m`. -/
theorem sqrt_capped (a b m : ℝ) (hm : 0 ≤ m) :
    Real.sqrt ((if Real.sqrt (a * a + b * b) > m then a / Real.sqrt (a * a + b * b) * m
        else a) ^ 2
      + (if Real.sqrt (a * a + b * b) > m then b / Real.sqrt (a * a + b * b) * m
        else b) ^ 2) ≤ m := by
  by_cases h : Real.sqrt (a * a + b * b) > m
  · rw [if_pos h, if_pos h, sqrt_scaled a b m hm (lt_of_le_of_lt hm h)]
  · rw [if_neg h, if_neg h, sq, sq]
    exact not_lt.1 h

/-- The same for the steering of a green fish, `a / s * v * c` with `0 ≤ v * c`. -/
theorem sqrt_steered (a b v c : ℝ) (hm : 0 ≤ v * c) (hs : 0 < Real.sqrt (a * a + b * b)) :
    Real.sqrt ((a / Real.sqrt (a * a + b * b) * v * c) ^ 2
      + (b / Real.sqrt (a * a + b * b) * v * c) ^ 2) = c * v := by
  have h := sqrt_scaled a b (v * c) hm hs
  rw [mul_comm c v, ← h]
  congr 1
  ring

theorem sharkDist_eq (M : JSMath K) (sx sy : K) (f : Fish K) :
    M.sqrt ((sx - f.x) * (sx - f.x) + (sy - f.y) * (sy - f.y)) = sharkDist M sx sy f := by
  unfold sharkDist
  congr 1
  ring

theorem homeDist_eq (M : JSMath K) (f : Fish K) :
    M.sqrt ((f.homeX - f.x) * (f.homeX - f.x) + (f.homeY - f.y) * (f.homeY - f.y))
      = homeDist M f := by
  unfold homeDist
  congr 1
  ring

/-- An emerging green fish more than 2 units from the shark: the velocity and
the timer that the tick sets, and the position it moves to. -/
theorem greenMoved_emerging (M : JSMath K) (sx sy : K) (f : Fish K)
    (hs : f.state = FishState.emerging) (hd : sharkDist M sx sy f > 2) :
    (greenMoved M sx sy f).vx = (sx - f.x) / sharkDist M sx sy f * f.speed * 0.7 ∧
    (greenMoved M sx sy f).vy = (sy - f.y) / sharkDist M sx sy f * f.speed * 0.7 ∧
    (greenMoved M sx sy f).stateTimer = f.stateTimer + 1 := by
  unfold greenMoved greenBehave
  rw [hs]
  simp only [sharkDist_eq]
  rw [if_pos hd]
  split_ifs <;> exact ⟨rfl, rfl, rfl⟩

/-- A returning green fish more than 2 units from home: the velocity that the
tick sets. -/
theorem greenMoved_returning_far (M : JSMath K) (sx sy : K) (f : Fish K)
    (hs : f.state = FishState.returning) (hd : homeDist M f > 2) :
    (greenMoved M sx sy f).vx = (f.homeX - f.x) / homeDist M f * f.speed * 0.5 ∧
    (greenMoved M sx sy f).vy = (f.homeY - f.y) / homeDist M f * f.speed * 0.5 := by
  unfold greenMoved greenBehave
  rw [hs]
  simp only [homeDist_eq]
  rw [if_pos hd]
  split_ifs <;> exact ⟨rfl, rfl⟩

/-- A returning green fish within 2 units of home is put at home with zero
velocity, before the vertical bounds test. -/
theorem greenMoved_returning_near (M : JSMath K) (sx sy : K) (f : Fish K)
    (hs : f.state = FishState.returning) (hd : ¬ homeDist M f > 2) :
    (greenMoved M sx sy f).x = f.homeX ∧ (greenMoved M sx sy f).y = f.homeY ∧
    (greenMoved M sx sy f).vx = 0 ∧ (greenMoved M sx sy f).vy = 0 := by
  unfold greenMoved greenBehave
  rw [hs]
  simp only [homeDist_eq]
  rw [if_neg hd]
  split_ifs <;> simp

/-! ## Normal fish: the speed limit -/

theorem fleeBehave_frame (sx sy d : K) (f : Fish K) :
    (fleeBehave sx sy d f).isFleeing = some true ∧ (fleeBehave sx sy d f).speed = f.speed :=
  ⟨rfl, rfl⟩

theorem wanderBehave_frame (M : JSMath K) (rand : ℕ → K) (f : Fish K) (n : ℕ) :
    (wanderBehave M rand f n).1.isFleeing = some false ∧
    (wanderBehave M rand f n).1.speed = f.speed :=
  ⟨rfl, rfl⟩

theorem swimMoved_frame (M : JSMath K) (f : Fish K) :
    (swimMoved M f).isFleeing = f.isFleeing ∧ (swimMoved M f).speed = f.speed :=
  ⟨rfl, rfl⟩

/-- With the real square root, the velocity that `swimMoved` leaves is no longer
than the limit of the fish's mode. -/
theorem swimMoved_speed (M : JSMath ℝ) (hM : M.IsReal) (f : Fish ℝ) (b : Bool)
    (hb : f.isFleeing = some b) (hspeed : 0 ≤ f.speed) :
    Real.sqrt ((swimMoved M f).vx ^ 2 + (swimMoved M f).vy ^ 2)
      ≤ if b then 0.8 * f.speed else 0.3 * f.speed := by
  unfold swimMoved
  simp only [hb, Option.getD_some, hM.1]
  cases b
  · simp only [Bool.false_eq_true, if_false]
    rw [show (0.3 : ℝ) * f.speed = f.speed * 0.3 by ring]
    exact sqrt_capped _ _ _ (by positivity)
  · simp only [if_true]
    rw [show (0.8 : ℝ) * f.speed = f.speed * 0.8 by ring]
    exact sqrt_capped _ _ _ (by positivity)

/-! ## The world offset -/

/-- The offset `offsetY` that `updateWorld` stores after its two bounds tests,
from the offset `o` of the unclamped move. -/
theorem updateWorld_spec (M : JSMath K) (rand : ℕ → K) (g : Game K) :
    ((g.mouse.isOnScreen = false ∨ ¬ targetDistance M g > 50) → updateWorld M rand g = g) ∧
    (g.mouse.isOnScreen = true → targetDistance M g > 50 →
      (updateWorld M rand g).world.offsetX = g.world.offsetX - moveX M g ∧
      (updateWorld M rand g).world.offsetY
        = (if g.shark.y - (g.world.offsetY - moveY M g) > g.world.bottomY - 20 then
            -(g.world.bottomY - 20 - g.shark.y)
          else if g.shark.y - (g.world.offsetY - moveY M g) < g.world.surfaceY + 20 then
            -(g.world.surfaceY + 20 - g.shark.y)
          else g.world.offsetY - moveY M g) ∧
      (updateWorld M rand g).world.surfaceY = g.world.surfaceY ∧
      (updateWorld M rand g).world.bottomY = g.world.bottomY ∧
      (updateWorld M rand g).shark.y = g.shark.y ∧
      (updateWorld M rand g).shark.x = g.shark.x ∧
      (updateWorld M rand g).shark.direction
        = M.atan2 (g.shark.targetY - g.shark.y) (g.shark.targetX - g.shark.x)
          * (180 / M.PI)) := by
  constructor
  · intro h
    unfold updateWorld
    rcases h with h | h
    · simp [h]
    · by_cases hm : g.mouse.isOnScreen = true
      · simp only [hm, Bool.not_true, Bool.false_eq_true, if_false]
        rw [if_neg h]
      · simp [hm]
  · intro hm hd
    unfold updateWorld
    simp only [hm, Bool.not_true, Bool.false_eq_true, if_false]
    rw [if_pos hd]
    obtain ⟨-, -, hs, hw, -⟩ := manageSeaweedChunks_spec M rand
      { g with
        world := { g.world with
          offsetX := g.world.offsetX - moveX M g,
          offsetY :=
            if g.shark.y - (g.world.offsetY - moveY M g) > g.world.bottomY - 20 then
              -(g.world.bottomY - 20 - g.shark.y)
            else if g.shark.y - (g.world.offsetY - moveY M g) < g.world.surfaceY + 20 then
              -(g.world.surfaceY + 20 - g.shark.y)
            else g.world.offsetY - moveY M g },
        shark := { g.shark with
          direction := M.atan2 (g.shark.targetY - g.shark.y) (g.shark.targetX - g.shark.x)
            * (180 / M.PI) } }
    rw [hs, hw]
    exact ⟨rfl, rfl, rfl, rfl, rfl, rfl, rfl⟩

/-- The shark's world `y` after `updateWorld` has moved the world: the unclamped
value brought into `[surfaceY + 20, bottomY - 20]`. -/
theorem updateWorld_worldY (M : JSMath K) (rand : ℕ → K) (g : Game K)
    (hm : g.mouse.isOnScreen = true) (hd : targetDistance M g > 50)
    (hw : g.world.surfaceY + 20 ≤ g.world.bottomY - 20) :
    (g.shark.y - (g.world.offsetY - moveY M g) < g.world.surfaceY + 20 →
      (updateWorld M rand g).shark.y - (updateWorld M rand g).world.offsetY
        = g.world.surfaceY + 20) ∧
    (g.shark.y - (g.world.offsetY - moveY M g) > g.world.bottomY - 20 →
      (updateWorld M rand g).shark.y - (updateWorld M rand g).world.offsetY
        = g.world.bottomY - 20) ∧
    (g.world.surfaceY + 20 ≤ g.shark.y - (g.world.offsetY - moveY M g) →
      g.shark.y - (g.world.offsetY - moveY M g) ≤ g.world.bottomY - 20 →
      (updateWorld M rand g).shark.y - (updateWorld M rand g).world.offsetY
        = g.shark.y - (g.world.offsetY - moveY M g)) := by
  obtain ⟨-, h2, -, -, h5, -⟩ := (updateWorld_spec M rand g).2 hm hd
  rw [h2, h5]
  refine ⟨fun h => ?_, fun h => ?_, fun h1 h2 => ?_⟩
  · rw [if_neg (by linarith), if_pos h]
    ring
  · rw [if_pos h]
    ring
  · rw [if_neg (not_lt.2 h2), if_neg (not_lt.2 h1)]

/-! ## The sample state under the real `Math` -/

theorem steeringState_targetDistance (M : JSMath ℝ) (hM : M.IsReal) (o tx ty : ℝ)
    (l : List (Fish ℝ)) :
    targetDistance M (steeringState o tx ty l)
      = Real.sqrt ((tx - 400) * (tx - 400) + (ty - 300) * (ty - 300)) := by
  unfold targetDistance steeringState
  rw [hM.1]

theorem steeringState_vertical (M : JSMath ℝ) (hM : M.IsReal) (o ty : ℝ) (l : List (Fish ℝ)) :
    targetDistance M (steeringState o 400 ty l) = |ty - 300| := by
  rw [steeringState_targetDistance M hM]
  rw [sub_self, zero_mul, zero_add]
  exact Real.sqrt_mul_self_eq_abs _


theorem targetDistance_real (M : JSMath ℝ) (hM : M.IsReal) (g : Game ℝ) :
    targetDistance M g
      = Real.sqrt ((g.shark.targetX - g.shark.x) ^ 2 + (g.shark.targetY - g.shark.y) ^ 2) := by
  unfold targetDistance
  rw [hM.1, sq, sq]

/-- A vector divided by its length and multiplied by any `m` has length `|m|`. -/
theorem sqrt_scaled_abs (a b m : ℝ) (hs : 0 < Real.sqrt (a * a + b * b)) :
    Real.sqrt ((a / Real.sqrt (a * a + b * b) * m) ^ 2
      + (b / Real.sqrt (a * a + b * b) * m) ^ 2) = |m| := by
  have h := sqrt_scaled a b |m| (abs_nonneg m) hs
  rw [← h]
  congr 1
  rw [mul_pow, mul_pow, mul_pow, mul_pow, sq_abs]


/-! ## Particle ageing -/

theorem particleTick_life (rand : ℕ → K) (n : ℕ) (p : Particle K) :
    (particleTick rand n p).life = p.life - 1 / p.maxLife ∧
    (particleTick rand n p).maxLife = p.maxLife := by
  unfold particleTick
  refine ⟨?_, rfl⟩
  simp only []
  norm_num

theorem agedLives_append (l1 l2 : List (K × K)) :
    agedLives (l1 ++ l2) = agedLives l1 ++ agedLives l2 := by
  unfold agedLives
  rw [List.filter_append, List.map_append]

theorem agedLives_singleton (m life : K) :
    agedLives [(m, life)] = if life - 1 / m ≤ 0 then [] else [(m, life - 1 / m)] := by
  unfold agedLives
  by_cases h : life - 1 / m ≤ 0
  · rw [if_pos h, List.filter_cons_of_neg (by simpa using h)]
    rfl
  · rw [if_neg h, List.filter_cons_of_pos (by simpa using h)]
    rfl

theorem eraseIdx_set_self {α : Type} (l : List α) (i : ℕ) (a : α) :
    (l.set i a).eraseIdx i = l.eraseIdx i := by
  induction l generalizing i with
  | nil => rfl
  | cons b l ih =>
    cases i with
    | zero => rfl
    | succ i => simp [ih]

theorem take_set_self {α : Type} (l : List α) (i : ℕ) (a : α) :
    (l.set i a).take i = l.take i := by
  induction l generalizing i with
  | nil => rfl
  | cons b l ih =>
    cases i with
    | zero => rfl
    | succ i => simp [ih]

theorem drop_set_self {α : Type} (l : List α) (i : ℕ) (a : α) (h : i < l.length) :
    (l.set i a).drop i = a :: l.drop (i + 1) := by
  induction l generalizing i with
  | nil => simp at h
  | cons b l ih =>
    cases i with
    | zero => rfl
    | succ i =>
      simp only [List.set_cons_succ, List.drop_succ_cons]
      exact ih i (by simpa using h)

theorem drop_eraseIdx_self {α : Type} (l : List α) (i : ℕ) :
    (l.eraseIdx i).drop i = l.drop (i + 1) := by
  induction l generalizing i with
  | nil => simp
  | cons b l ih =>
    cases i with
    | zero => rfl
    | succ i =>
      simp only [List.eraseIdx_cons_succ, List.drop_succ_cons]
      exact ih i

/-- The backward loop of `updateBloodParticles` ages the particles below `i`
and drops those whose life is used up; the others are untouched. -/
theorem updateBloodLoop_lives (rand : ℕ → K) : ∀ (i : ℕ) (g : Game K),
    i ≤ g.bloodParticles.length →
    (updateBloodLoop rand i g).bloodParticles.map (fun q => (q.maxLife, q.life))
      = agedLives ((g.bloodParticles.take i).map (fun q => (q.maxLife, q.life)))
        ++ (g.bloodParticles.drop i).map (fun q => (q.maxLife, q.life))
  | 0, g, _ => by simp [updateBloodLoop, agedLives]
  | i + 1, g, hi => by
    have hlt : i < g.bloodParticles.length := hi
    have hget : g.bloodParticles[i]? = some g.bloodParticles[i] := List.getElem?_eq_getElem hlt
    have ⟨t1, t2⟩ := particleTick_life rand g.randomCalls g.bloodParticles[i]
    rw [updateBloodLoop, hget]
    simp only []
    rw [List.take_succ, hget, Option.toList_some, List.map_append, agedLives_append,
      List.map_singleton, agedLives_singleton]
    by_cases hdead : (particleTick rand g.randomCalls g.bloodParticles[i]).life ≤ 0
    · rw [if_pos hdead]
      have ih := updateBloodLoop_lives rand i
        { g with bloodParticles := (g.bloodParticles.set i
                    (particleTick rand g.randomCalls g.bloodParticles[i])).eraseIdx i,
                 randomCalls := g.randomCalls + 2 }
        (by
          show i ≤ ((g.bloodParticles.set i _).eraseIdx i).length
          rw [eraseIdx_set_self, List.length_eraseIdx]
          split_ifs
          omega)
      rw [ih]
      simp only [eraseIdx_set_self, take_eraseIdx_self, drop_eraseIdx_self]
      rw [t1] at hdead
      rw [if_pos hdead, List.append_nil]
    · rw [if_neg hdead]
      have ih := updateBloodLoop_lives rand i
        { g with bloodParticles := g.bloodParticles.set i
                    (particleTick rand g.randomCalls g.bloodParticles[i]),
                 randomCalls := g.randomCalls + 2 }
        (by
          show i ≤ (g.bloodParticles.set i _).length
          rw [List.length_set]
          omega)
      rw [ih]
      simp only [take_set_self, drop_set_self _ _ _ hlt, List.map_cons, t1, t2]
      rw [t1] at hdead
      rw [if_neg hdead, List.append_assoc, List.singleton_append]

theorem updateBloodParticles_lives (rand : ℕ → K) (g : Game K) :
    (updateBloodParticles rand g).bloodParticles.map (fun q => (q.maxLife, q.life))
      = agedLives (g.bloodParticles.map (fun q => (q.maxLife, q.life))) := by
  unfold updateBloodParticles
  rw [updateBloodLoop_lives rand _ g (le_refl _), List.take_length, List.drop_length,
    List.map_nil, List.append_nil]

theorem iterate_updateBloodParticles_lives (rand : ℕ → K) (g : Game K) (n : ℕ) :
    ((updateBloodParticles rand)^[n] g).bloodParticles.map (fun q => (q.maxLife, q.life))
      = agedLives^[n] (g.bloodParticles.map (fun q => (q.maxLife, q.life))) := by
  induction n with
  | zero => rfl
  | succ n ih =>
    rw [Function.iterate_succ_apply', Function.iterate_succ_apply', updateBloodParticles_lives, ih]

/-- Ageing `n` times a list of pairs `(maxLife, 1)` with `maxLife > 0` keeps the
pairs with `n < maxLife`, at life `1 - n / maxLife`. -/
theorem iterate_agedLives (l : List (K × K)) (h : ∀ p ∈ l, p.2 = 1 ∧ 0 < p.1) (n : ℕ) :
    agedLives^[n] l
      = (l.filter (fun p => decide ((n : K) < p.1))).map (fun p => (p.1, 1 - (n : K) / p.1)) := by
  induction n with
  | zero =>
    rw [Function.iterate_zero_apply]
    have hf : l.filter (fun p => decide (((0 : ℕ) : K) < p.1)) = l := by
      rw [List.filter_eq_self]
      intro p hp
      simpa using (h p hp).2
    rw [hf]
    conv_lhs => rw [← List.map_id l]
    refine List.map_congr_left (fun p hp => ?_)
    refine Prod.ext rfl ?_
    simp [(h p hp).1]
  | succ n ih =>
    rw [Function.iterate_succ_apply', ih]
    unfold agedLives
    rw [List.filter_map, List.map_map, List.filter_filter]
    have hfil : l.filter (fun p => (((fun p : K × K => decide (¬ p.2 - 1 / p.1 ≤ 0))
          ∘ fun p : K × K => (p.1, 1 - (n : K) / p.1)) p) && decide ((n : K) < p.1))
        = l.filter (fun p => decide (((n + 1 : ℕ) : K) < p.1)) := by
      refine List.filter_congr (fun p hp => ?_)
      have hpos := (h p hp).2
      have hiff : (¬ (1 - (n : K) / p.1) - 1 / p.1 ≤ 0) ↔ ((n : K) + 1 < p.1) := by
        rw [not_le, sub_sub, ← add_div, sub_pos, div_lt_one hpos]
      show (decide (¬ (1 - (n : K) / p.1) - 1 / p.1 ≤ 0) && decide ((n : K) < p.1))
        = decide (((n + 1 : ℕ) : K) < p.1)
      rw [← Bool.decide_and, decide_eq_decide, hiff]
      push_cast
      constructor
      · exact fun hx => hx.1
      · exact fun hx => ⟨hx, by linarith⟩
    rw [hfil]
    refine List.map_congr_left (fun p hp => ?_)
    refine Prod.ext rfl ?_
    simp only [Function.comp_apply]
    push_cast
    ring

/-- The distance between two points on a vertical line, under the real square
root. -/
theorem sqrt_vertical (a b c : ℝ) : Real.sqrt ((a - a) ^ 2 + (b - c) ^ 2) = |b - c| := by
  rw [sub_self, zero_pow two_ne_zero, zero_add, Real.sqrt_sq_eq_abs]


/-! ## Normal fish: fleeing and wandering -/

/-- Which of the two modes the callback of `updateFish` runs on a normal fish. -/
theorem beforeClamp_normal (M : JSMath K) (rand : ℕ → K) (sx sy : K) (f : Fish K) (n : ℕ)
    (hn : f.type = FishType.normal) :
    (M.sqrt ((f.x - sx) * (f.x - sx) + (f.y - sy) * (f.y - sy)) < f.fleeDistance ∧
        M.sqrt ((f.x - sx) * (f.x - sx) + (f.y - sy) * (f.y - sy)) > 0 →
      beforeClamp M rand sx sy f n
        = swimMoved M (fleeBehave sx sy
            (M.sqrt ((f.x - sx) * (f.x - sx) + (f.y - sy) * (f.y - sy))) f)) ∧
    (¬ (M.sqrt ((f.x - sx) * (f.x - sx) + (f.y - sy) * (f.y - sy)) < f.fleeDistance ∧
        M.sqrt ((f.x - sx) * (f.x - sx) + (f.y - sy) * (f.y - sy)) > 0) →
      beforeClamp M rand sx sy f n = swimMoved M (wanderBehave M rand f n).1) := by
  unfold beforeClamp
  rw [if_neg (by rw [hn]; decide)]
  simp only []
  exact ⟨fun h => by rw [if_pos h], fun h => by rw [if_neg h]⟩

/-- The end of the normal branch for a fleeing fish: drag 0.92, the jitter
stop, the limit `0.8 * speed`, then the move. -/
theorem swimMoved_fleeing (M : JSMath K) (a : Fish K) (h : a.isFleeing = some true) :
    ∃ ux uy c : K,
      ux = (if |a.vx * 0.92| < 0.05 then 0 else a.vx * 0.92) ∧
      uy = (if |a.vy * 0.92| < 0.05 then 0 else a.vy * 0.92) ∧
      c = M.sqrt (ux * ux + uy * uy) ∧
      (swimMoved M a).vx = (if c > a.speed * 0.8 then ux / c * (a.speed * 0.8) else ux) ∧
      (swimMoved M a).vy = (if c > a.speed * 0.8 then uy / c * (a.speed * 0.8) else uy) ∧
      (swimMoved M a).x = a.x + (swimMoved M a).vx ∧
      (swimMoved M a).y = a.y + (swimMoved M a).vy ∧
      (swimMoved M a).isFleeing = some true := by
  refine ⟨_, _, _, rfl, rfl, rfl, ?_, ?_, rfl, rfl, h⟩
  · unfold swimMoved
    simp only [h, Option.getD_some, if_true]
  · unfold swimMoved
    simp only [h, Option.getD_some, if_true]

/-- The end of the normal branch for a wandering fish: drag 0.96, the push
below the minimum speed, the limit `0.3 * speed`, then the move. -/
theorem swimMoved_wandering (M : JSMath K) (a : Fish K) (h : a.isFleeing = some false) :
    ∃ slow ux uy c : K,
      slow = M.sqrt (a.vx * 0.96 * (a.vx * 0.96) + a.vy * 0.96 * (a.vy * 0.96)) ∧
      ux = (if slow < 0.1 then a.vx * 0.96 + M.cos (a.swimDirection.getD 0) * 0.1 * 0.3
            else a.vx * 0.96) ∧
      uy = (if slow < 0.1 then a.vy * 0.96 + M.sin (a.swimDirection.getD 0) * 0.1 * 0.1
            else a.vy * 0.96) ∧
      c = M.sqrt (ux * ux + uy * uy) ∧
      (swimMoved M a).vx = (if c > a.speed * 0.3 then ux / c * (a.speed * 0.3) else ux) ∧
      (swimMoved M a).vy = (if c > a.speed * 0.3 then uy / c * (a.speed * 0.3) else uy) ∧
      (swimMoved M a).x = a.x + (swimMoved M a).vx ∧
      (swimMoved M a).y = a.y + (swimMoved M a).vy ∧
      (swimMoved M a).isFleeing = some false := by
  refine ⟨_, _, _, _, rfl, rfl, rfl, rfl, ?_, ?_, rfl, rfl, h⟩
  · unfold swimMoved
    simp only [h, Option.getD_some, Bool.false_eq_true, if_false]
  · unfold swimMoved
    simp only [h, Option.getD_some, Bool.false_eq_true, if_false]

/-- Over the reals, a vector divided by its positive length is a unit vector. -/
theorem unit_vector (a b : ℝ) (h : 0 < Real.sqrt (a ^ 2 + b ^ 2)) :
    (a / Real.sqrt (a ^ 2 + b ^ 2)) ^ 2 + (b / Real.sqrt (a ^ 2 + b ^ 2)) ^ 2 = 1 := by
  have hpos : 0 < a ^ 2 + b ^ 2 := Real.sqrt_pos.1 h
  rw [div_pow, div_pow, Real.sq_sqrt (le_of_lt hpos), ← add_div, div_self (ne_of_gt hpos)]


/-! ## Attempts of the chunk generators -/

theorem seaweedCount_eq : seaweedCount (chunkSize : K) = 16 := by
  unfold seaweedCount chunkSize seaweedDensity
  simp only []
  rw [Int.floor_eq_iff]
  constructor <;> norm_num

theorem fishCount_eq : fishCount (chunkSize : K) = 3 := by
  unfold fishCount chunkSize fishDensity
  simp only []
  rw [Int.floor_eq_iff]
  constructor <;> norm_num

/-- One attempt of `generateSeaweedChunk` pushes its stalk exactly when the
attempt's `y` passes the margin test, and nothing otherwise. -/
theorem seaweedAttempt_spec (M : JSMath K) (rand : ℕ → K) (cx cy : ℤ) (size : K) (s : Game K) :
    (s.world.surfaceY + 100 ≤ (cy : K) * size + rand (s.randomCalls + 1) * size ∧
        (cy : K) * size + rand (s.randomCalls + 1) * size ≤ s.world.bottomY - 50 →
      (seaweedAttempt M rand cx cy size s).seaweedPieces
        = s.seaweedPieces ++ [spawnSeaweed M rand cx cy size s.randomCalls]) ∧
    (¬ (s.world.surfaceY + 100 ≤ (cy : K) * size + rand (s.randomCalls + 1) * size ∧
        (cy : K) * size + rand (s.randomCalls + 1) * size ≤ s.world.bottomY - 50) →
      (seaweedAttempt M rand cx cy size s).seaweedPieces = s.seaweedPieces ∧
      (seaweedAttempt M rand cx cy size s).fishPieces = s.fishPieces) := by
  unfold seaweedAttempt
  simp only [ge_iff_le]
  constructor
  · intro h
    rw [if_pos h]
    split_ifs <;> rfl
  · intro h
    rw [if_neg h]
    exact ⟨rfl, rfl⟩

/-- One attempt of `generateFishChunk` pushes its fish exactly when the
attempt's `y` passes the margin test, and nothing otherwise. -/
theorem fishAttempt_spec (rand : ℕ → K) (cx cy : ℤ) (size : K) (s : Game K) :
    (s.world.surfaceY + 80 ≤ (cy : K) * size + rand (s.randomCalls + 1) * size ∧
        (cy : K) * size + rand (s.randomCalls + 1) * size ≤ s.world.bottomY - 80 →
      (fishAttempt rand cx cy size s).fishPieces
        = s.fishPieces ++ [spawnFish rand cx cy size s.randomCalls]) ∧
    (¬ (s.world.surfaceY + 80 ≤ (cy : K) * size + rand (s.randomCalls + 1) * size ∧
        (cy : K) * size + rand (s.randomCalls + 1) * size ≤ s.world.bottomY - 80) →
      (fishAttempt rand cx cy size s).fishPieces = s.fishPieces) := by
  unfold fishAttempt
  simp only [ge_iff_le]
  constructor
  · intro h
    rw [if_pos h]
  · intro h
    rw [if_neg h]


/-! ## Where the shark is drawn -/

theorem initializeGame_anchored (M : JSMath K) (rand : ℕ → K) (g : Game K) :
    Anchored g.canvasWidth g.canvasHeight g.shark.baseWidth g.shark.baseHeight
      (initializeGame M rand g) := by
  unfold Anchored initializeGame
  simp only []
  obtain ⟨-, -, hs, -, -, -, -, hw, hh⟩ := manageSeaweedChunks_spec M rand
    { g with
      world := { g.world with surfaceY := g.world.skyHeight,
                              bottomY := g.world.skyHeight + g.world.oceanDepth },
      shark := { g.shark with x := g.canvasWidth / 2, y := g.canvasHeight / 2,
                              targetX := g.canvasWidth / 2, targetY := g.canvasHeight / 2,
                              growthFactor := 1.0, width := g.shark.baseWidth,
                              height := g.shark.baseHeight },
      gameStats := { fishEaten := 0, slowFishEaten := 0, fastFishEaten := 0 },
      mouse := { x := g.canvasWidth / 2, y := g.canvasHeight / 2, isOnScreen := false },
      seaweedPieces := [], generatedChunks := [],
      fishPieces := [], fishGeneratedChunks := [] }
  rw [hs, hw, hh]
  refine ⟨rfl, rfl, rfl, rfl, rfl, rfl, ?_, ?_⟩ <;> norm_num

theorem updateWorld_anchored (M : JSMath K) (rand : ℕ → K) (cw ch bw bh : K) (g : Game K)
    (h : Anchored cw ch bw bh g) : Anchored cw ch bw bh (updateWorld M rand g) := by
  by_cases hc : g.mouse.isOnScreen = true ∧ targetDistance M g > 50
  · obtain ⟨hm, hd⟩ := hc
    unfold updateWorld
    simp only [hm, Bool.not_true, Bool.false_eq_true, if_false]
    rw [if_pos hd]
    obtain ⟨-, -, hs, -, -, -, -, hw, hh⟩ := manageSeaweedChunks_spec M rand
      { g with
        world := { g.world with
          offsetX := g.world.offsetX - moveX M g,
          offsetY :=
            if g.shark.y - (g.world.offsetY - moveY M g) > g.world.bottomY - 20 then
              -(g.world.bottomY - 20 - g.shark.y)
            else if g.shark.y - (g.world.offsetY - moveY M g) < g.world.surfaceY + 20 then
              -(g.world.surfaceY + 20 - g.shark.y)
            else g.world.offsetY - moveY M g },
        shark := { g.shark with
          direction := M.atan2 (g.shark.targetY - g.shark.y) (g.shark.targetX - g.shark.x)
            * (180 / M.PI) } }
    unfold Anchored
    rw [hs, hw, hh]
    exact h
  · rw [(updateWorld_spec M rand g).1 (by
      by_cases hm : g.mouse.isOnScreen = true
      · exact Or.inr (fun hd => hc ⟨hm, hd⟩)
      · exact Or.inl (by simpa using hm))]
    exact h

theorem handleFishEaten_anchored (M : JSMath K) (rand : ℕ → K) (fish : Fish K) (i : ℕ)
    (cw ch bw bh : K) (g : Game K) (h : Anchored cw ch bw bh g) :
    Anchored cw ch bw bh (handleFishEaten M rand fish i g) := by
  obtain ⟨h1, h2, h3, h4, h5, h6, -, -⟩ := h
  obtain ⟨a1, a2, -, a4, -⟩ := createBloodEffect_frame M rand fish.x fish.y fish.size g
  unfold Anchored handleFishEaten
  simp only []
  generalize createBloodEffect M rand fish.x fish.y fish.size g = g1 at a1 a2 a4 ⊢
  simp only [(createBloodEffect_frame M rand fish.x fish.y fish.size _).1,
    (createBloodEffect_frame M rand fish.x fish.y fish.size _).2.1,
    (createBloodEffect_frame M rand fish.x fish.y fish.size _).2.2.2.1, a1, a2, a4, h1, h2, h3,
    h4, h5, h6]
  exact ⟨trivial, trivial, trivial, trivial, trivial, trivial, trivial, trivial⟩

theorem eatLoop_anchored (M : JSMath K) (rand : ℕ → K) (mx my r : K) (cw ch bw bh : K) :
    ∀ (i : ℕ) (g : Game K), Anchored cw ch bw bh g →
      Anchored cw ch bw bh (eatLoop M rand mx my r i g)
  | 0, g, h => h
  | i + 1, g, h => by
    rw [eatLoop]
    split
    · exact eatLoop_anchored M rand mx my r cw ch bw bh i g h
    · simp only []
      split_ifs
      · exact eatLoop_anchored M rand mx my r cw ch bw bh i _
          (handleFishEaten_anchored M rand _ i cw ch bw bh g h)
      · exact eatLoop_anchored M rand mx my r cw ch bw bh i g h

theorem updateBloodLoop_frame (rand : ℕ → K) : ∀ (i : ℕ) (g : Game K),
    (updateBloodLoop rand i g).shark = g.shark ∧
    (updateBloodLoop rand i g).canvasWidth = g.canvasWidth ∧
    (updateBloodLoop rand i g).canvasHeight = g.canvasHeight
  | 0, g => ⟨rfl, rfl, rfl⟩
  | i + 1, g => by
    rw [updateBloodLoop]
    split
    · exact updateBloodLoop_frame rand i g
    · simp only []
      split_ifs
      · exact updateBloodLoop_frame rand i _
      · exact updateBloodLoop_frame rand i _

theorem gameTick_anchored (M : JSMath K) (rand : ℕ → K) (cw ch bw bh : K) (g : Game K)
    (h : Anchored cw ch bw bh g) : Anchored cw ch bw bh (gameTick M rand g) := by
  have h1 : Anchored cw ch bw bh (updateFish M rand g) := h
  have h2 := updateWorld_anchored M rand cw ch bw bh _ h1
  have h3 : Anchored cw ch bw bh (updateFishEating M rand (updateWorld M rand
      (updateFish M rand g))) := eatLoop_anchored M rand _ _ _ cw ch bw bh _ _ h2
  obtain ⟨b1, b2, b3⟩ := updateBloodLoop_frame rand
    (updateFishEating M rand (updateWorld M rand (updateFish M rand g))).bloodParticles.length
    (updateFishEating M rand (updateWorld M rand (updateFish M rand g)))
  unfold gameTick updateBloodParticles Anchored
  rw [b1, b2, b3]
  exact h3

theorem iterate_gameTick_anchored (M : JSMath K) (rand : ℕ → K) (cw ch bw bh : K) (g : Game K)
    (h : Anchored cw ch bw bh g) (n : ℕ) : Anchored cw ch bw bh ((gameTick M rand)^[n] g) := by
  induction n with
  | zero => exact h
  | succ n ih =>
    rw [Function.iterate_succ_apply']
    exact gameTick_anchored M rand cw ch bw bh _ ih


/-! ## Where chunk generation puts its entities -/

theorem mem_intRange (lo hi z : ℤ) (h : z ∈ intRange lo hi) : lo ≤ z ∧ z ≤ hi := by
  unfold intRange at h
  simp only [List.mem_map, List.bind_eq_flatMap, List.mem_flatMap, List.mem_range, List.pure_def,
    List.mem_singleton] at h
  obtain ⟨a, ⟨i, hi1, rfl⟩, rfl⟩ := h
  omega

/-- Every entity that the generation loops of `manageSeaweedChunks` append is a
stalk, a green fish or a fish of an attempt for a chunk of the neighbourhood;
`P` is any property of positions that all of these have. -/
theorem generateAround_positions (M : JSMath K) (rand : ℕ → K) (cx cy : ℤ) (size : K)
    (g : Game K) (P : K → K → Prop)
    (hP : ∀ dx dy : ℤ, -2 ≤ dx → dx ≤ 2 → -1 ≤ dy → dy ≤ 1 → ∀ n : ℕ,
      P (spawnSeaweed M rand (cx + dx) (cy + dy) size n).x
          (spawnSeaweed M rand (cx + dx) (cy + dy) size n).y ∧
      P (spawnLurker rand (cx + dx) (cy + dy) size n).x
          (spawnLurker rand (cx + dx) (cy + dy) size n).y ∧
      P (spawnFish rand (cx + dx) (cy + dy) size n).x
          (spawnFish rand (cx + dx) (cy + dy) size n).y) :
    ∃ e ef, (generateAround M rand cx cy size g).seaweedPieces = g.seaweedPieces ++ e ∧
      (generateAround M rand cx cy size g).fishPieces = g.fishPieces ++ ef ∧
      (∀ a ∈ e, P a.x a.y) ∧ (∀ f ∈ ef, P f.x f.y) := by
  unfold generateAround
  simp only []
  refine foldl_invariant (fun s : Game K => ∃ e ef, s.seaweedPieces = g.seaweedPieces ++ e ∧
      s.fishPieces = g.fishPieces ++ ef ∧ (∀ a ∈ e, P a.x a.y) ∧ (∀ f ∈ ef, P f.x f.y))
    _ _ _ (fun s dx hdx hs => ?_) ⟨[], [], by simp, by simp, by simp, by simp⟩
  refine foldl_invariant (fun s : Game K => ∃ e ef, s.seaweedPieces = g.seaweedPieces ++ e ∧
      s.fishPieces = g.fishPieces ++ ef ∧ (∀ a ∈ e, P a.x a.y) ∧ (∀ f ∈ ef, P f.x f.y))
    _ _ _ (fun s dy hdy hs => ?_) hs
  obtain ⟨e, ef, h1, h2, h3, h4⟩ := hs
  obtain ⟨dx1, dx2⟩ := mem_intRange _ _ _ hdx
  obtain ⟨dy1, dy2⟩ := mem_intRange _ _ _ hdy
  obtain ⟨e1, ef1, a1, a2, -, a4, a5, -⟩ :=
    generateSeaweedChunk_new M rand (cx + dx) (cy + dy) size s
  obtain ⟨ef2, b1, b2, -, b4, -⟩ :=
    generateFishChunk_new rand (cx + dx) (cy + dy) size
      (generateSeaweedChunk M rand (cx + dx) (cy + dy) size s)
  refine ⟨e ++ e1, ef ++ ef1 ++ ef2, ?_, ?_, ?_, ?_⟩
  · rw [b2, a1, h1, List.append_assoc]
  · rw [b1, a2, h2, List.append_assoc, List.append_assoc, List.append_assoc]
  · intro a ha
    rcases List.mem_append.1 ha with ha | ha
    · exact h3 a ha
    · obtain ⟨n, -, rfl⟩ := a4 a ha
      exact (hP dx dy dx1 dx2 dy1 dy2 n).1
  · intro f hf
    rcases List.mem_append.1 hf with hf | hf
    · rcases List.mem_append.1 hf with hf | hf
      · exact h4 f hf
      · obtain ⟨n, -, rfl⟩ := a5 f hf
        exact (hP dx dy dx1 dx2 dy1 dy2 n).2.1
    · obtain ⟨n, -, rfl⟩ := b4 f hf
      exact (hP dx dy dx1 dx2 dy1 dy2 n).2.2

/-- A point of a chunk at most two chunks from the chunk of `v`, moved by up to
10 units, is within 2400 of `v` when the move is 0, and within 2400 also with
the move when the chunk is at most one chunk away. -/
theorem near_chunk (v : K) (d : ℤ) (r t : K) (hd1 : -2 ≤ d) (hd2 : d ≤ 2) (h0 : 0 ≤ r)
    (h1 : r < 1) (ht0 : 0 ≤ t) (ht : t ≤ 10) (hfar : d = 2 → t = 0) :
    |((⌊v / chunkSize⌋ + d : ℤ) : K) * chunkSize + r * chunkSize + t - v| ≤ 2400 := by
  have hc1 : ((⌊v / chunkSize⌋ : ℤ) : K) ≤ v / chunkSize := Int.floor_le _
  have hc2 : v / chunkSize < ((⌊v / chunkSize⌋ : ℤ) : K) + 1 := Int.lt_floor_add_one _
  unfold chunkSize at *
  rw [le_div_iff₀ (by norm_num)] at hc1
  rw [div_lt_iff₀ (by norm_num)] at hc2
  have e1 : ((-2 : ℤ) : K) ≤ (d : K) := Int.cast_le.2 hd1
  have e2 : (d : K) ≤ ((2 : ℤ) : K) := Int.cast_le.2 hd2
  push_cast at e1 e2 ⊢
  rw [abs_le]
  constructor
  · nlinarith
  · rcases lt_or_eq_of_le hd2 with hlt | heq
    · have hd3 : d ≤ 1 := by omega
      have e3 : (d : K) ≤ ((1 : ℤ) : K) := Int.cast_le.2 hd3
      push_cast at e3
      nlinarith
    · rw [hfar heq]
      nlinarith


/-- The two registries after `manageSeaweedChunks`: a key stays marked exactly
when no entity carrying it is removed. -/
theorem manageSeaweedChunks_registries (M : JSMath K) (rand : ℕ → K) (g : Game K) :
    (∀ k, k ∈ (manageSeaweedChunks M rand g).generatedChunks ↔
      k ∈ (generateAround M rand (getChunkCoords (viewCenterX g) (viewCenterY g)).1
          (getChunkCoords (viewCenterX g) (viewCenterY g)).2 chunkSize g).generatedChunks ∧
      ∀ a ∈ (generateAround M rand (getChunkCoords (viewCenterX g) (viewCenterY g)).1
          (getChunkCoords (viewCenterX g) (viewCenterY g)).2 chunkSize g).seaweedPieces,
        inView (viewCenterX g) (viewCenterY g) (chunkSize * 3) a.x a.y = false →
          a.chunkKey ≠ k) ∧
    (∀ k, k ∈ (manageSeaweedChunks M rand g).fishGeneratedChunks ↔
      k ∈ (generateAround M rand (getChunkCoords (viewCenterX g) (viewCenterY g)).1
          (getChunkCoords (viewCenterX g) (viewCenterY g)).2 chunkSize g).fishGeneratedChunks ∧
      ∀ f ∈ (generateAround M rand (getChunkCoords (viewCenterX g) (viewCenterY g)).1
          (getChunkCoords (viewCenterX g) (viewCenterY g)).2 chunkSize g).fishPieces,
        inView (viewCenterX g) (viewCenterY g) (chunkSize * 3) f.x f.y = false →
          f.chunkKey ≠ k) := by
  unfold manageSeaweedChunks
  simp only []
  generalize generateAround M rand (getChunkCoords (viewCenterX g) (viewCenterY g)).1
    (getChunkCoords (viewCenterX g) (viewCenterY g)).2 chunkSize g = g1
  obtain ⟨-, a2, a3, a4, -⟩ :=
    evictSeaweed_spec (viewCenterX g) (viewCenterY g) (chunkSize * 3) g1.seaweedPieces.length g1
      le_rfl
  generalize evictSeaweed (viewCenterX g) (viewCenterY g) (chunkSize * 3)
    g1.seaweedPieces.length g1 = g2 at a2 a3 a4 ⊢
  obtain ⟨-, b2, -, b4, -⟩ :=
    evictFish_spec (viewCenterX g) (viewCenterY g) (chunkSize * 3) g2.fishPieces.length g2 le_rfl
  constructor
  · intro k
    rw [b4, a2 k, List.take_length]
  · intro k
    rw [b2 k, List.take_length, a3, a4]

/-! ## No division by zero -/

theorem checkedDiv_of_ne (a b : K) (h : b ≠ 0) : checkedDiv a b = some (a / b) := by
  unfold checkedDiv
  rw [if_neg h]

theorem checkedRem_of_ne (a b : K) (h : b ≠ 0) : checkedRem a b = some (jsRem a b) := by
  unfold checkedRem
  rw [if_neg h]

theorem updateWorldChecked_eq (M : JSMath K) (rand : ℕ → K) (g : Game K) (hPI : M.PI ≠ 0) :
    updateWorldChecked M rand g = some (updateWorld M rand g) := by
  unfold updateWorldChecked updateWorld moveX moveY targetDistance
  simp only []
  by_cases hm : (!g.mouse.isOnScreen) = true
  · rw [if_pos hm, if_pos hm]
  · rw [if_neg hm, if_neg hm]
    by_cases hd : M.sqrt ((g.shark.targetX - g.shark.x) * (g.shark.targetX - g.shark.x)
        + (g.shark.targetY - g.shark.y) * (g.shark.targetY - g.shark.y)) > 50
    · rw [if_pos hd, if_pos hd]
      have hne : M.sqrt ((g.shark.targetX - g.shark.x) * (g.shark.targetX - g.shark.x)
          + (g.shark.targetY - g.shark.y) * (g.shark.targetY - g.shark.y)) ≠ 0 :=
        ne_of_gt (lt_trans (by norm_num) hd)
      simp only [checkedDiv_of_ne _ _ hne, checkedDiv_of_ne _ _ hPI, Option.bind_eq_bind,
        Option.some_bind, Option.pure_def]
    · rw [if_neg hd, if_neg hd]

theorem greenBehaveChecked_eq (M : JSMath K) (sx sy : K) (f : Fish K) :
    greenBehaveChecked M sx sy f = some (greenBehave M sx sy f) := by
  unfold greenBehaveChecked greenBehave
  cases hs : f.state
  · rfl
  · simp only []
    by_cases hd : M.sqrt ((sx - f.x) * (sx - f.x) + (sy - f.y) * (sy - f.y)) > 2
    · have hne : M.sqrt ((sx - f.x) * (sx - f.x) + (sy - f.y) * (sy - f.y)) ≠ 0 :=
        ne_of_gt (lt_trans (by norm_num) hd)
      simp only [if_pos hd, checkedDiv_of_ne _ _ hne, Option.bind_eq_bind, Option.some_bind,
        Option.pure_def]
    · simp only [if_neg hd, Option.bind_eq_bind, Option.some_bind, Option.pure_def]
  · simp only []
    by_cases hd : M.sqrt ((f.homeX - f.x) * (f.homeX - f.x)
        + (f.homeY - f.y) * (f.homeY - f.y)) > 2
    · have hne : M.sqrt ((f.homeX - f.x) * (f.homeX - f.x)
          + (f.homeY - f.y) * (f.homeY - f.y)) ≠ 0 :=
        ne_of_gt (lt_trans (by norm_num) hd)
      simp only [if_pos hd, checkedDiv_of_ne _ _ hne, Option.bind_eq_bind, Option.some_bind,
        Option.pure_def]
    · simp only [if_neg hd, Option.bind_eq_bind, Option.some_bind, Option.pure_def]

theorem fleeBehaveChecked_eq (sx sy d : K) (f : Fish K) (h0 : 0 < d) (h1 : d < f.fleeDistance) :
    fleeBehaveChecked sx sy d f = some (fleeBehave sx sy d f) := by
  unfold fleeBehaveChecked fleeBehave
  simp only [checkedDiv_of_ne _ _ (ne_of_gt h0), checkedDiv_of_ne _ _ (ne_of_gt (lt_trans h0 h1)),
    Option.bind_eq_bind, Option.some_bind, Option.pure_def]

theorem wanderBehaveChecked_eq (M : JSMath K) (rand : ℕ → K) (f : Fish K) (n : ℕ)
    (hPI : M.PI ≠ 0) :
    wanderBehaveChecked M rand f n = some (wanderBehave M rand f n) := by
  have h2 : M.PI * 2 ≠ 0 := mul_ne_zero hPI two_ne_zero
  have hfst : ∀ (c : Prop) [Decidable c] (a b : (K × ℕ)),
      (if c then a else b).1 = if c then a.1 else b.1 := by
    intro c _ a b
    split_ifs <;> rfl
  have hsnd : ∀ (c : Prop) [Decidable c] (a b : (K × ℕ)),
      (if c then a else b).2 = if c then a.2 else b.2 := by
    intro c _ a b
    split_ifs <;> rfl
  unfold wanderBehaveChecked wanderBehave
  lift_lets
  intro baseSpeed0 n1 swimDirection0 n2 depthOscillation0' n3 timer0' n4 timer1' horizontalBias
    verticalSubtlety vx vy1 depthOscillation' vy' turn' n5 directionChange turned timer2' jp
    depthOscillation0 timer0 timer1 depthOscillation vy turn normalizedDir upward downward
    swimDirection1 timer2 n6 reverse swimDirection baseSpeed n7
  by_cases ht : turn' = true
  · have ht2 : turn = true := ht
    rw [if_pos ht]
    simp only [checkedRem_of_ne _ _ h2, Option.bind_eq_bind, Option.some_bind, Option.pure_def,
      jp, n7, baseSpeed, swimDirection, reverse, n6, swimDirection1, timer2, timer2', ht, ht2,
      if_true, hfst, hsnd, upward, downward, normalizedDir, vy, vy', depthOscillation,
      depthOscillation', depthOscillation0, depthOscillation0']
  · have ht2 : ¬ turn = true := ht
    rw [if_neg ht]
    simp only [Option.bind_eq_bind, Option.some_bind, Option.pure_def,
      jp, n7, baseSpeed, swimDirection, reverse, n6, swimDirection1, timer2, timer2', ht, ht2,
      if_false, Bool.false_eq_true, vy, vy', depthOscillation, depthOscillation', depthOscillation0,
      depthOscillation0', timer1, timer1', timer0, timer0']

theorem swimMovedChecked_eq (M : JSMath K) (f : Fish K) (hspeed : 0 ≤ f.speed) :
    swimMovedChecked M f = some (swimMoved M f) := by
  unfold swimMovedChecked swimMoved
  simp only []
  have hmax : (0 : K) ≤ if f.isFleeing.getD false = true then f.speed * 0.8
      else f.speed * 0.3 := by
    split_ifs <;> exact mul_nonneg hspeed (by norm_num)
  generalize (if f.isFleeing.getD false = true then f.speed * 0.8 else f.speed * 0.3) = m
    at hmax ⊢
  generalize M.sqrt _ = c
  by_cases hc : c > m
  · have hne : c ≠ 0 := ne_of_gt (lt_of_le_of_lt hmax hc)
    simp only [if_pos hc, checkedDiv_of_ne _ _ hne, Option.bind_eq_bind, Option.some_bind,
      Option.pure_def]
  · simp only [if_neg hc, Option.bind_eq_bind, Option.some_bind, Option.pure_def]


theorem updateOneFishChecked_eq (M : JSMath K) (rand : ℕ → K) (w : World K) (sx sy : K)
    (f : Fish K) (n : ℕ) (hPI : M.PI ≠ 0) (hspeed : 0 ≤ f.speed) :
    updateOneFishChecked M rand w sx sy f n = some (updateOneFish M rand w sx sy f n) := by
  unfold updateOneFishChecked updateOneFish updateGreenFish greenMoved swimStep
  simp only []
  by_cases hg : f.type = FishType.green
  · simp only [if_pos hg, greenBehaveChecked_eq, Option.bind_eq_bind, Option.some_bind,
      Option.pure_def]
  · rw [if_neg hg, if_neg hg]
    by_cases hc : M.sqrt ((f.x - sx) * (f.x - sx) + (f.y - sy) * (f.y - sy)) < f.fleeDistance ∧
        M.sqrt ((f.x - sx) * (f.x - sx) + (f.y - sy) * (f.y - sy)) > 0
    · rw [if_pos hc, if_pos hc, fleeBehaveChecked_eq sx sy _ f hc.2 hc.1]
      have hs := swimMovedChecked_eq M (fleeBehave sx sy
        (M.sqrt ((f.x - sx) * (f.x - sx) + (f.y - sy) * (f.y - sy))) f) hspeed
      simp only [hs, Option.bind_eq_bind, Option.some_bind, Option.pure_def]
    · rw [if_neg hc, if_neg hc, wanderBehaveChecked_eq M rand f n hPI]
      have hs := swimMovedChecked_eq M (wanderBehave M rand f n).1 hspeed
      simp only [hs, Option.bind_eq_bind, Option.some_bind, Option.pure_def]

theorem updateFishChecked_eq (M : JSMath K) (rand : ℕ → K) (g : Game K) (hPI : M.PI ≠ 0)
    (hspeed : ∀ f ∈ g.fishPieces, 0 ≤ f.speed) :
    updateFishChecked M rand g = some (updateFish M rand g) := by
  have hfold : ∀ (l : List (Fish K)) (acc : List (Fish K) × ℕ), (∀ f ∈ l, 0 ≤ f.speed) →
      l.foldl
        (fun (acc : Option (List (Fish K) × ℕ)) fish => do
          let a ← acc
          let u ← updateOneFishChecked M rand g.world (g.shark.x - g.world.offsetX)
            (g.shark.y - g.world.offsetY) fish a.2
          pure (a.1 ++ [u.1], u.2))
        (some acc)
      = some (l.foldl
        (fun (acc : List (Fish K) × ℕ) fish =>
          let u := updateOneFish M rand g.world (g.shark.x - g.world.offsetX)
            (g.shark.y - g.world.offsetY) fish acc.2
          (acc.1 ++ [u.1], u.2))
        acc) := by
    intro l
    induction l with
    | nil => intro acc _; rfl
    | cons f l ih =>
      intro acc h
      rw [List.foldl_cons, List.foldl_cons]
      have h1 := updateOneFishChecked_eq M rand g.world (g.shark.x - g.world.offsetX)
        (g.shark.y - g.world.offsetY) f acc.2 hPI (h f (List.mem_cons_self _ _))
      simp only [h1, Option.bind_eq_bind, Option.some_bind, Option.pure_def]
      exact ih _ (fun x hx => h x (List.mem_cons_of_mem _ hx))
  unfold updateFishChecked updateFish
  simp only []
  rw [hfold g.fishPieces _ hspeed]
  rfl

theorem particleTickChecked_eq (rand : ℕ → K) (n : ℕ) (p : Particle K) (h : p.maxLife ≠ 0) :
    particleTickChecked rand n p = some (particleTick rand n p) := by
  have h7 : (0.7 : K) ≠ 0 := by norm_num
  unfold particleTickChecked particleTick
  simp only [checkedDiv_of_ne _ _ h, checkedDiv_of_ne _ _ h7, Option.bind_eq_bind,
    Option.some_bind, Option.pure_def]
  split_ifs <;> rfl

theorem updateBloodLoopChecked_eq (rand : ℕ → K) : ∀ (i : ℕ) (g : Game K),
    (∀ p ∈ g.bloodParticles, 0 < p.maxLife) →
    updateBloodLoopChecked rand i g = some (updateBloodLoop rand i g)
  | 0, g, _ => rfl
  | i + 1, g, h => by
    rw [updateBloodLoopChecked, updateBloodLoop]
    cases hget : g.bloodParticles[i]? with
    | none => exact updateBloodLoopChecked_eq rand i g h
    | some particle =>
      have hmem : particle ∈ g.bloodParticles := List.getElem?_mem hget
      have hpos := h particle hmem
      have hset : ∀ p ∈ g.bloodParticles.set i (particleTick rand g.randomCalls particle),
          0 < p.maxLife := by
        intro p hp
        rcases List.mem_or_eq_of_mem_set hp with hp | hp
        · exact h p hp
        · rw [hp, (particleTick_life rand g.randomCalls particle).2]
          exact hpos
      simp only [particleTickChecked_eq rand g.randomCalls particle (ne_of_gt hpos),
        Option.bind_eq_bind, Option.some_bind]
      split_ifs
      · exact updateBloodLoopChecked_eq rand i _
          (fun p hp => hset p (List.mem_of_mem_eraseIdx hp))
      · exact updateBloodLoopChecked_eq rand i _ hset

theorem updateBloodParticlesChecked_eq (rand : ℕ → K) (g : Game K)
    (h : ∀ p ∈ g.bloodParticles, 0 < p.maxLife) :
    updateBloodParticlesChecked rand g = some (updateBloodParticles rand g) :=
  updateBloodLoopChecked_eq rand _ g h



/-! ## The accuracy of double rounding -/

/-- Rounding to the nearest integer moves a number by at most one half. -/
theorem roundHalfEven_err (t : K) : |(roundHalfEven t : K) - t| ≤ 1 / 2 := by
  have h1 : (⌊t⌋ : K) ≤ t := Int.floor_le t
  have h2 : t < (⌊t⌋ : K) + 1 := Int.lt_floor_add_one t
  unfold roundHalfEven
  rw [abs_le]
  split_ifs with a b c
  · constructor <;> linarith
  · push_cast
    constructor <;> linarith
  · have hle : (1 : K) / 2 ≤ t - (⌊t⌋ : K) := not_lt.1 a
    constructor <;> linarith
  · have hle : t - (⌊t⌋ : K) ≤ 1 / 2 := not_lt.1 b
    push_cast
    constructor <;> linarith

/-- With enough fuel the count of halvings is `Nat.log2`. -/
theorem halvings_eq : ∀ (fuel n : ℕ), n ≤ fuel → halvings fuel n = Nat.log2 n
  | 0, n, h => by
    have h0 : n = 0 := by omega
    rw [h0, halvings]
    exact Nat.log2_zero.symm
  | fuel + 1, n, h => by
    rw [halvings, Nat.log2]
    split_ifs with h2
    · rw [halvings_eq fuel (n / 2) (by omega)]
    · rfl

/-- The function `floorLog2` is `Nat.log2`. -/
theorem floorLog2_eq (n : ℕ) : floorLog2 n = Nat.log2 n := halvings_eq n n le_rfl

/-- The power of two at the exponent of a positive number is not above it. -/
theorem binaryExponent_le (x : K) (hx : 0 < x) : (2 : K) ^ binaryExponent x ≤ x := by
  unfold binaryExponent
  rw [floorLog2_eq, floorLog2_eq]
  split_ifs with h
  · have hpos : 0 < ⌊x⌋₊ := Nat.floor_pos.2 h
    have h1 : 2 ^ Nat.log2 ⌊x⌋₊ ≤ ⌊x⌋₊ := Nat.log2_self_le (Nat.pos_iff_ne_zero.1 hpos)
    have h2 : ((2 ^ Nat.log2 ⌊x⌋₊ : ℕ) : K) ≤ (⌊x⌋₊ : K) := Nat.cast_le.2 h1
    rw [zpow_natCast]
    push_cast at h2
    exact le_trans h2 (Nat.floor_le (le_of_lt hx))
  · have h1 : ⌈x⁻¹⌉₊ - 1 < 2 ^ (Nat.log2 (⌈x⁻¹⌉₊ - 1) + 1) := Nat.lt_log2_self
    have h2 : ⌈x⁻¹⌉₊ ≤ 2 ^ (Nat.log2 (⌈x⁻¹⌉₊ - 1) + 1) := by omega
    have h3 : ((⌈x⁻¹⌉₊ : ℕ) : K) ≤ ((2 ^ (Nat.log2 (⌈x⁻¹⌉₊ - 1) + 1) : ℕ) : K) := Nat.cast_le.2 h2
    have h4 : x⁻¹ ≤ (2 : K) ^ (Nat.log2 (⌈x⁻¹⌉₊ - 1) + 1) := by
      push_cast at h3
      exact le_trans (Nat.le_ceil _) h3
    rw [zpow_neg, zpow_natCast]
    rw [inv_le_comm₀ (by positivity) hx]
    exact h4

/-- Double rounding has relative error at most `2 ^ (-53)`. -/
theorem roundDouble_err (x : K) : |roundDouble x - x| ≤ (2 : K) ^ (-53 : ℤ) * |x| := by
  unfold roundDouble
  split_ifs with h0
  · rw [h0]
    simp
  · have hx : 0 < |x| := abs_pos.2 h0
    have hu : (0 : K) < (2 : K) ^ (binaryExponent |x| - 52) := by positivity
    have he := binaryExponent_le |x| hx
    have hr := roundHalfEven_err (x / (2 : K) ^ (binaryExponent |x| - 52))
    have heq : (roundHalfEven (x / (2 : K) ^ (binaryExponent |x| - 52)) : K)
          * (2 : K) ^ (binaryExponent |x| - 52) - x
        = ((roundHalfEven (x / (2 : K) ^ (binaryExponent |x| - 52)) : K)
            - x / (2 : K) ^ (binaryExponent |x| - 52)) * (2 : K) ^ (binaryExponent |x| - 52) := by
      field_simp
    rw [heq, abs_mul, abs_of_pos hu]
    have hsplit : (2 : K) ^ (binaryExponent |x| - 52)
        = (2 : K) ^ (-53 : ℤ) * 2 * (2 : K) ^ binaryExponent |x| := by
      rw [show binaryExponent |x| - 52 = (-53 : ℤ) + 1 + binaryExponent |x| by ring,
        zpow_add₀ (by norm_num), zpow_add₀ (by norm_num), zpow_one]
    have h53 : (0 : K) < (2 : K) ^ (-53 : ℤ) := by positivity
    calc |(roundHalfEven (x / (2 : K) ^ (binaryExponent |x| - 52)) : K)
            - x / (2 : K) ^ (binaryExponent |x| - 52)| * (2 : K) ^ (binaryExponent |x| - 52)
        ≤ 1 / 2 * (2 : K) ^ (binaryExponent |x| - 52) :=
          mul_le_mul_of_nonneg_right hr (le_of_lt hu)
      _ = (2 : K) ^ (-53 : ℤ) * (2 : K) ^ binaryExponent |x| := by rw [hsplit]; ring
      _ ≤ (2 : K) ^ (-53 : ℤ) * |x| := mul_le_mul_of_nonneg_left he (le_of_lt h53)


/-- The exponent of a positive number is the largest power of two below it:
the number lies below the next power. -/
theorem binaryExponent_lt (x : K) (hx : 0 < x) : x < (2 : K) ^ (binaryExponent x + 1) := by
  unfold binaryExponent
  rw [floorLog2_eq, floorLog2_eq]
  split_ifs with h
  · have h1 : ⌊x⌋₊ < 2 ^ (Nat.log2 ⌊x⌋₊ + 1) := Nat.lt_log2_self
    have h2 : ⌊x⌋₊ + 1 ≤ 2 ^ (Nat.log2 ⌊x⌋₊ + 1) := h1
    have h3 : ((⌊x⌋₊ + 1 : ℕ) : K) ≤ ((2 ^ (Nat.log2 ⌊x⌋₊ + 1) : ℕ) : K) := Nat.cast_le.2 h2
    push_cast at h3
    have h4 : ((Nat.log2 ⌊x⌋₊ : ℕ) : ℤ) + 1 = ((Nat.log2 ⌊x⌋₊ + 1 : ℕ) : ℤ) := by push_cast; rfl
    rw [h4, zpow_natCast]
    exact lt_of_lt_of_le (Nat.lt_floor_add_one x) h3
  · have hx1 : x < 1 := not_le.1 h
    have hinv : 1 < x⁻¹ := (one_lt_inv₀ hx).2 hx1
    have hc : 2 ≤ ⌈x⁻¹⌉₊ := by
      have : 1 < ⌈x⁻¹⌉₊ := Nat.lt_ceil.2 (by exact_mod_cast hinv)
      omega
    have h1 : 2 ^ Nat.log2 (⌈x⁻¹⌉₊ - 1) ≤ ⌈x⁻¹⌉₊ - 1 := Nat.log2_self_le (by omega)
    have h2 : ((2 ^ Nat.log2 (⌈x⁻¹⌉₊ - 1) : ℕ) : K) ≤ ((⌈x⁻¹⌉₊ - 1 : ℕ) : K) := Nat.cast_le.2 h1
    have h3 : ((⌈x⁻¹⌉₊ - 1 : ℕ) : K) < x⁻¹ := by
      rw [Nat.cast_sub (by omega), Nat.cast_one, sub_lt_iff_lt_add]
      exact Nat.ceil_lt_add_one (le_of_lt (inv_pos.2 hx))
    have h4 : (2 : K) ^ Nat.log2 (⌈x⁻¹⌉₊ - 1) < x⁻¹ := by
      push_cast at h2
      exact lt_of_le_of_lt h2 h3
    have e : -(((Nat.log2 (⌈x⁻¹⌉₊ - 1) + 1 : ℕ) : ℕ) : ℤ) + 1
        = -((Nat.log2 (⌈x⁻¹⌉₊ - 1) : ℕ) : ℤ) := by
      push_cast
      ring
    rw [e, zpow_neg, zpow_natCast]
    rw [lt_inv_comm₀ hx (by positivity)]
    exact h4

/-- The bits that `sqrtBits` adds give the square root rounded down. -/
theorem sqrtBits_spec : ∀ (bits n acc : ℕ), acc * acc ≤ n →
    n < (acc + 2 ^ bits) * (acc + 2 ^ bits) →
    sqrtBits bits n acc * sqrtBits bits n acc ≤ n ∧
      n < (sqrtBits bits n acc + 1) * (sqrtBits bits n acc + 1)
  | 0, n, acc, h1, h2 => by
    rw [sqrtBits]
    exact ⟨h1, by simpa using h2⟩
  | bits + 1, n, acc, h1, h2 => by
    rw [sqrtBits]
    split_ifs with h
    · exact sqrtBits_spec bits n (acc + 2 ^ bits) h (by
        rw [show acc + 2 ^ bits + 2 ^ bits = acc + 2 ^ (bits + 1) by rw [pow_succ]; ring]
        exact h2)
    · exact sqrtBits_spec bits n acc h1 (not_le.1 h)

/-- The function `floorSqrt` is the square root rounded down. -/
theorem floorSqrt_spec (n : ℕ) :
    floorSqrt n * floorSqrt n ≤ n ∧ n < (floorSqrt n + 1) * (floorSqrt n + 1) := by
  unfold floorSqrt
  apply sqrtBits_spec
  · simp
  · rw [floorLog2_eq, zero_add, ← pow_add]
    have h1 : n < 2 ^ (Nat.log2 n + 1) := Nat.lt_log2_self
    have h2 : Nat.log2 n + 1 ≤ Nat.log2 n / 2 + 1 + (Nat.log2 n / 2 + 1) := by omega
    exact lt_of_lt_of_le h1 (Nat.pow_le_pow_right (by norm_num) h2)

/-- Rounding to the nearest integer keeps an integer. -/
theorem roundHalfEven_intCast (z : ℤ) : roundHalfEven (z : K) = z := by
  unfold roundHalfEven
  simp

/-- A natural number below `2 ^ 53` is a double: rounding keeps it. -/
theorem roundDouble_natCast (n : ℕ) (h : n < 2 ^ 53) : roundDouble (n : K) = n := by
  unfold roundDouble
  split_ifs with h0
  · rw [h0]
  · have hn : 0 < n := Nat.pos_of_ne_zero (fun e => h0 (by rw [e]; simp))
    have habs : |(n : K)| = n := abs_of_nonneg (Nat.cast_nonneg n)
    have he : binaryExponent (n : K) = (Nat.log2 n : ℤ) := by
      unfold binaryExponent
      rw [if_pos (by exact_mod_cast hn), Nat.floor_natCast, floorLog2_eq]
    have hlog : Nat.log2 n ≤ 52 := by
      have := (Nat.log2_lt (Nat.pos_iff_ne_zero.1 hn)).2 h
      omega
    rw [habs, he]
    have hpow : (2 : K) ^ ((Nat.log2 n : ℤ) - 52)
        = (((2 ^ (52 - Nat.log2 n) : ℕ) : ℤ) : K)⁻¹ := by
      rw [show ((Nat.log2 n : ℤ) - 52) = -((52 - Nat.log2 n : ℕ) : ℤ) by omega, zpow_neg,
        zpow_natCast]
      push_cast
      rfl
    have hmul : (n : K) / (((2 ^ (52 - Nat.log2 n) : ℕ) : ℤ) : K)⁻¹
        = (((n * 2 ^ (52 - Nat.log2 n) : ℕ) : ℤ) : K) := by
      rw [div_inv_eq_mul]
      push_cast
      ring
    rw [hpow, hmul, roundHalfEven_intCast]
    push_cast
    field_simp


/-! ## Particle ageing in rounded arithmetic -/

theorem particleTickRounded_id (rand : ℕ → K) (n : ℕ) (p : Particle K) :
    particleTickRounded id rand n p = particleTick rand n p := rfl

theorem updateBloodLoopRounded_id (rand : ℕ → K) : ∀ (i : ℕ) (g : Game K),
    updateBloodLoopRounded id rand i g = updateBloodLoop rand i g
  | 0, _ => rfl
  | i + 1, g => by
    rw [updateBloodLoopRounded, updateBloodLoop]
    cases g.bloodParticles[i]? with
    | none => exact updateBloodLoopRounded_id rand i g
    | some particle =>
      simp only [particleTickRounded_id]
      split_ifs
      · exact updateBloodLoopRounded_id rand i _
      · exact updateBloodLoopRounded_id rand i _

theorem updateBloodParticlesRounded_id (rand : ℕ → K) (g : Game K) :
    updateBloodParticlesRounded id rand g = updateBloodParticles rand g :=
  updateBloodLoopRounded_id rand _ g

theorem particleTickRounded_life (fl : K → K) (rand : ℕ → K) (n : ℕ) (p : Particle K) :
    (particleTickRounded fl rand n p).life = fl (p.life - fl (1 / p.maxLife)) ∧
    (particleTickRounded fl rand n p).maxLife = p.maxLife := by
  unfold particleTickRounded
  refine ⟨?_, rfl⟩
  simp only []
  norm_num

theorem agedLivesRounded_append (fl : K → K) (l1 l2 : List (K × K)) :
    agedLivesRounded fl (l1 ++ l2) = agedLivesRounded fl l1 ++ agedLivesRounded fl l2 := by
  unfold agedLivesRounded
  rw [List.filter_append, List.map_append]

theorem agedLivesRounded_singleton (fl : K → K) (m life : K) :
    agedLivesRounded fl [(m, life)]
      = if fl (life - fl (1 / m)) ≤ 0 then [] else [(m, fl (life - fl (1 / m)))] := by
  unfold agedLivesRounded
  by_cases h : fl (life - fl (1 / m)) ≤ 0
  · rw [if_pos h, List.filter_cons_of_neg (by simpa using h)]
    rfl
  · rw [if_neg h, List.filter_cons_of_pos (by simpa using h)]
    rfl

/-- The backward loop in rounded arithmetic ages the particles below `i` and
drops those whose rounded life is not positive; the others are untouched. -/
theorem updateBloodLoopRounded_lives (fl : K → K) (rand : ℕ → K) : ∀ (i : ℕ) (g : Game K),
    i ≤ g.bloodParticles.length →
    (updateBloodLoopRounded fl rand i g).bloodParticles.map (fun q => (q.maxLife, q.life))
      = agedLivesRounded fl ((g.bloodParticles.take i).map (fun q => (q.maxLife, q.life)))
        ++ (g.bloodParticles.drop i).map (fun q => (q.maxLife, q.life))
  | 0, g, _ => by simp [updateBloodLoopRounded, agedLivesRounded]
  | i + 1, g, hi => by
    have hlt : i < g.bloodParticles.length := hi
    have hget : g.bloodParticles[i]? = some g.bloodParticles[i] := List.getElem?_eq_getElem hlt
    have ⟨t1, t2⟩ := particleTickRounded_life fl rand g.randomCalls g.bloodParticles[i]
    rw [updateBloodLoopRounded, hget]
    simp only []
    rw [List.take_succ, hget, Option.toList_some, List.map_append, agedLivesRounded_append,
      List.map_singleton, agedLivesRounded_singleton]
    by_cases hdead : (particleTickRounded fl rand g.randomCalls g.bloodParticles[i]).life ≤ 0
    · rw [if_pos hdead]
      have ih := updateBloodLoopRounded_lives fl rand i
        { g with bloodParticles := (g.bloodParticles.set i
                    (particleTickRounded fl rand g.randomCalls g.bloodParticles[i])).eraseIdx i,
                 randomCalls := g.randomCalls + 2 }
        (by
          show i ≤ ((g.bloodParticles.set i _).eraseIdx i).length
          rw [eraseIdx_set_self, List.length_eraseIdx]
          split_ifs
          omega)
      rw [ih]
      simp only [eraseIdx_set_self, take_eraseIdx_self, drop_eraseIdx_self]
      rw [t1] at hdead
      rw [if_pos hdead, List.append_nil]
    · rw [if_neg hdead]
      have ih := updateBloodLoopRounded_lives fl rand i
        { g with bloodParticles := g.bloodParticles.set i
                    (particleTickRounded fl rand g.randomCalls g.bloodParticles[i]),
                 randomCalls := g.randomCalls + 2 }
        (by
          show i ≤ (g.bloodParticles.set i _).length
          rw [List.length_set]
          omega)
      rw [ih]
      simp only [take_set_self, drop_set_self _ _ _ hlt, List.map_cons, t1, t2]
      rw [t1] at hdead
      rw [if_neg hdead, List.append_assoc, List.singleton_append]

theorem iterate_updateBloodParticlesRounded_lives (fl : K → K) (rand : ℕ → K) (g : Game K)
    (n : ℕ) :
    ((updateBloodParticlesRounded fl rand)^[n] g).bloodParticles.map
        (fun q => (q.maxLife, q.life))
      = (agedLivesRounded fl)^[n] (g.bloodParticles.map (fun q => (q.maxLife, q.life))) := by
  have step : ∀ s : Game K,
      (updateBloodParticlesRounded fl rand s).bloodParticles.map (fun q => (q.maxLife, q.life))
        = agedLivesRounded fl (s.bloodParticles.map (fun q => (q.maxLife, q.life))) := by
    intro s
    unfold updateBloodParticlesRounded
    rw [updateBloodLoopRounded_lives fl rand _ s (le_refl _), List.take_length, List.drop_length,
      List.map_nil, List.append_nil]
  induction n with
  | zero => rfl
  | succ n ih =>
    rw [Function.iterate_succ_apply', Function.iterate_succ_apply', step, ih]

theorem survives_succ (fl : K → K) (m : K) (n : ℕ) :
    survives fl m (n + 1) = (survives fl m n && decide (¬ lifeAfter fl m (n + 1) ≤ 0)) := by
  unfold survives
  rw [List.range_succ, List.all_append]
  simp

/-- Ageing `n` times a list of pairs `(maxLife, 1)` in rounded arithmetic keeps
the pairs whose rounded life stayed positive, at that life. -/
theorem iterate_agedLivesRounded (fl : K → K) (l : List (K × K)) (h : ∀ p ∈ l, p.2 = 1)
    (n : ℕ) :
    (agedLivesRounded fl)^[n] l
      = (l.filter (fun p => survives fl p.1 n)).map (fun p => (p.1, lifeAfter fl p.1 n)) := by
  induction n with
  | zero =>
    rw [Function.iterate_zero_apply]
    have hf : l.filter (fun p => survives fl p.1 0) = l := by
      rw [List.filter_eq_self]
      intro p _
      rfl
    rw [hf]
    conv_lhs => rw [← List.map_id l]
    refine List.map_congr_left (fun p hp => ?_)
    exact Prod.ext rfl (h p hp)
  | succ n ih =>
    rw [Function.iterate_succ_apply', ih]
    unfold agedLivesRounded
    rw [List.filter_map, List.map_map, List.filter_filter]
    have hfil : l.filter (fun p => (((fun p : K × K => decide (¬ fl (p.2 - fl (1 / p.1)) ≤ 0))
          ∘ fun p : K × K => (p.1, lifeAfter fl p.1 n)) p) && survives fl p.1 n)
        = l.filter (fun p => survives fl p.1 (n + 1)) := by
      refine List.filter_congr (fun p _ => ?_)
      rw [survives_succ, Bool.and_comm]
      rfl
    rw [hfil]
    refine List.map_congr_left (fun p _ => ?_)
    rfl

/-- In exact arithmetic the life after `n` ticks is `1 - n / maxLife`. -/
theorem lifeAfter_id (m : K) (n : ℕ) : lifeAfter id m n = 1 - (n : K) / m := by
  induction n with
  | zero => simp [lifeAfter]
  | succ n ih =>
    rw [lifeAfter, ih]
    simp only [id]
    push_cast
    ring

/-- In exact arithmetic a particle survives `n` ticks exactly when
`n < maxLife`. -/
theorem survives_id (m : K) (hm : 0 < m) (n : ℕ) : survives id m n = decide ((n : K) < m) := by
  induction n with
  | zero => simp [survives, hm]
  | succ n ih =>
    rw [survives_succ, ih, lifeAfter_id, ← Bool.decide_and, decide_eq_decide, not_le, sub_pos,
      div_lt_one hm]
    constructor
    · exact fun hx => hx.2
    · intro hx
      refine ⟨?_, hx⟩
      have : (n : K) < ((n + 1 : ℕ) : K) := by push_cast; linarith
      exact lt_trans this hx


/-- A rounding with relative error at most `u` has `0 ≤ u`. -/
theorem relErr_nonneg (u : K) (fl : K → K) (hfl : ∀ x, |fl x - x| ≤ u * |x|) : 0 ≤ u := by
  have h := hfl 1
  rw [abs_one, mul_one] at h
  exact le_trans (abs_nonneg _) h

/-- The rounded countdown of a particle with the integer lifetime `L` stays
within `3 * k * u` of the exact one, `1 - k / L`, for the ticks `k ≤ L + 1`, when
every operation has a relative error of at most `u` and `3 * u * L * (L + 1) ≤ 1`. -/
theorem lifeAfter_err (u : K) (fl : K → K) (hfl : ∀ x, |fl x - x| ≤ u * |x|) (L : ℕ)
    (hL : 1 ≤ L) (hu : 3 * u * L * (L + 1) ≤ 1) :
    ∀ k : ℕ, k ≤ L + 1 → |lifeAfter fl (L : K) k - (1 - (k : K) / L)| ≤ 3 * k * u := by
  have hu0 : 0 ≤ u := relErr_nonneg u fl hfl
  have hL1 : (1 : K) ≤ L := by exact_mod_cast hL
  have hLpos : (0 : K) < L := lt_of_lt_of_le one_pos hL1
  have hinv : (1 : K) / L ≤ 1 := by rw [div_le_one hLpos]; exact hL1
  have hinv0 : (0 : K) < 1 / L := by positivity
  have hd : |fl (1 / (L : K)) - 1 / L| ≤ u := by
    have h := hfl (1 / (L : K))
    rw [abs_of_pos hinv0] at h
    exact le_trans h (by nlinarith)
  intro k
  induction k with
  | zero =>
    intro _
    simp [lifeAfter]
  | succ k ih =>
    intro hk
    have hkL : (k : K) ≤ L := by exact_mod_cast Nat.le_of_succ_le_succ hk
    have ih1 := ih (by omega)
    have hsmall : (3 * (k : K) + 1) * u ≤ 1 := by
      have hc : 3 * (k : K) + 1 ≤ 3 * L * (L + 1) := by nlinarith [mul_le_mul hL1 hL1 zero_le_one hLpos.le]
      have h1 := mul_le_mul_of_nonneg_right hc hu0
      linarith
    have hk0 : (0 : K) ≤ k := Nat.cast_nonneg k
    have hfrac : |1 - ((k : K) + 1) / L| ≤ 1 := by
      rw [abs_le]
      have h1 : ((k : K) + 1) / L ≤ 2 := by
        rw [div_le_iff₀ hLpos]
        linarith
      have h2 : 0 ≤ ((k : K) + 1) / L := by positivity
      constructor <;> linarith
    have hsecond : |lifeAfter fl (L : K) k - fl (1 / (L : K)) - (1 - ((k : K) + 1) / L)|
        ≤ 3 * k * u + u := by
      have e : lifeAfter fl (L : K) k - fl (1 / (L : K)) - (1 - ((k : K) + 1) / L)
          = (lifeAfter fl (L : K) k - (1 - (k : K) / L)) - (fl (1 / (L : K)) - 1 / L) := by
        field_simp
        ring
      rw [e]
      exact le_trans (abs_sub _ _) (add_le_add ih1 hd)
    have habs : |lifeAfter fl (L : K) k - fl (1 / (L : K))| ≤ 3 * k * u + u + 1 := by
      have e : lifeAfter fl (L : K) k - fl (1 / (L : K))
          = (lifeAfter fl (L : K) k - fl (1 / (L : K)) - (1 - ((k : K) + 1) / L))
            + (1 - ((k : K) + 1) / L) := by ring
      rw [e]
      exact le_trans (abs_add _ _) (add_le_add hsecond hfrac)
    have hfirst : |fl (lifeAfter fl (L : K) k - fl (1 / (L : K)))
        - (lifeAfter fl (L : K) k - fl (1 / (L : K)))| ≤ u * (3 * k * u + u + 1) :=
      le_trans (hfl _) (mul_le_mul_of_nonneg_left habs hu0)
    have e : lifeAfter fl (L : K) (k + 1) - (1 - ((k + 1 : ℕ) : K) / L)
        = (fl (lifeAfter fl (L : K) k - fl (1 / (L : K)))
            - (lifeAfter fl (L : K) k - fl (1 / (L : K))))
          + (lifeAfter fl (L : K) k - fl (1 / (L : K)) - (1 - ((k : K) + 1) / L)) := by
      rw [Nat.cast_succ]
      simp only [lifeAfter]
      ring
    rw [e]
    refine le_trans (abs_add _ _) (le_trans (add_le_add hfirst hsecond) ?_)
    rw [Nat.cast_succ]
    have h3 : u * ((3 * (k : K) + 1) * u) ≤ u * 1 := mul_le_mul_of_nonneg_left hsmall hu0
    nlinarith

/-- The countdown of a particle with the integer lifetime `L` is positive at
every tick before `L` and has reached `≤ 0` at tick `L + 1`, when every
operation has a relative error of at most `u` and `3 * u * L * (L + 1) ≤ 1`; in
exact arithmetic (`u = 0`) it is `0` at tick `L`. -/
theorem lifeAfter_sign (u : K) (fl : K → K) (hfl : ∀ x, |fl x - x| ≤ u * |x|) (L : ℕ)
    (hL : 1 ≤ L) (hu : 3 * u * L * (L + 1) ≤ 1) :
    (∀ k : ℕ, k < L → 0 < lifeAfter fl (L : K) k) ∧ lifeAfter fl (L : K) (L + 1) ≤ 0 ∧
    (u = 0 → lifeAfter fl (L : K) L = 0) := by
  have hu0 : 0 ≤ u := relErr_nonneg u fl hfl
  have hL1 : (1 : K) ≤ L := by exact_mod_cast hL
  have hLpos : (0 : K) < L := lt_of_lt_of_le one_pos hL1
  refine ⟨fun k hk => ?_, ?_, fun h0 => ?_⟩
  · have h := lifeAfter_err u fl hfl L hL hu k (by omega)
    have hk1 : (k : K) + 1 ≤ L := by exact_mod_cast hk
    have hk0 : (0 : K) ≤ k := Nat.cast_nonneg k
    have h1 : (1 : K) / L ≤ 1 - (k : K) / L := by
      rw [le_sub_iff_add_le, ← add_div, div_le_one hLpos]
      linarith
    have h2 : 3 * (k : K) * u < 1 / L := by
      rw [lt_div_iff₀ hLpos]
      rcases eq_or_lt_of_le hu0 with h0 | h0
      · rw [← h0]; simp
      · nlinarith
    have h3 := (abs_le.1 h).1
    linarith
  · have h := lifeAfter_err u fl hfl L hL hu (L + 1) le_rfl
    have h3 := (abs_le.1 h).2
    have e : (1 : K) - ((L + 1 : ℕ) : K) / L = -(1 / L) := by
      rw [Nat.cast_succ]
      field_simp
    have h2 : 3 * ((L + 1 : ℕ) : K) * u ≤ 1 / L := by
      rw [Nat.cast_succ, le_div_iff₀ hLpos]
      linarith
    rw [e] at h3
    linarith
  · have h := lifeAfter_err u fl hfl L hL hu L (by omega)
    rw [h0, mul_zero, div_self (ne_of_gt hLpos), sub_self, sub_zero] at h
    exact abs_eq_zero.1 (le_antisymm h (abs_nonneg _))

/-! ## The fish update in rounded arithmetic -/

/-- The rounded bounds test with `fl = id` is the exact one. -/
theorem clampYRounded_id (w : World K) (fish : Fish K) :
    clampYRounded id w fish = clampY w fish := rfl

/-- The rounded state switch of a green fish with `fl = id` is the exact one. -/
theorem greenBehaveRounded_id (M : JSMath K) (sx sy : K) (fish : Fish K) :
    greenBehaveRounded id M sx sy fish = greenBehave M sx sy fish := rfl

/-- The rounded green branch with `fl = id` is the exact one. -/
theorem updateGreenFishRounded_id (M : JSMath K) (w : World K) (sx sy : K) (fish : Fish K) :
    updateGreenFishRounded id M w sx sy fish = updateGreenFish M w sx sy fish := by
  unfold updateGreenFishRounded updateGreenFish greenMoved
  simp only [greenBehaveRounded_id, clampYRounded_id, id]

/-- The rounded fleeing branch with `fl = id` is the exact one. -/
theorem fleeBehaveRounded_id (sx sy d : K) (fish : Fish K) :
    fleeBehaveRounded id sx sy d fish = fleeBehave sx sy d fish := rfl

/-- The rounded wandering branch with `fl = id` is the exact one. -/
theorem wanderBehaveRounded_id (M : JSMath K) (rand : ℕ → K) (fish : Fish K) (n : ℕ) :
    wanderBehaveRounded id M rand fish n = wanderBehave M rand fish n := rfl

/-- The rounded end of the normal branch with `fl = id` is the exact one. -/
theorem swimMovedRounded_id (M : JSMath K) (fish : Fish K) :
    swimMovedRounded id M fish = swimMoved M fish := rfl

/-- The rounded distance to the shark with `fl = id` is the exact one. -/
theorem distanceToSharkRounded_id (M : JSMath K) (sx sy : K) (fish : Fish K) :
    distanceToSharkRounded id M sx sy fish
      = M.sqrt ((fish.x - sx) * (fish.x - sx) + (fish.y - sy) * (fish.y - sy)) := rfl

/-- The rounded update of one fish with `fl = id` is the exact one. -/
theorem updateOneFishRounded_id (M : JSMath K) (rand : ℕ → K) (w : World K) (sx sy : K)
    (fish : Fish K) (n : ℕ) :
    updateOneFishRounded id M rand w sx sy fish n = updateOneFish M rand w sx sy fish n := by
  unfold updateOneFishRounded updateOneFish
  by_cases hg : fish.type = FishType.green
  · rw [if_pos hg, if_pos hg, updateGreenFishRounded_id]
  · rw [if_neg hg, if_neg hg]
    unfold normalMovedRounded swimStep
    simp only [distanceToSharkRounded_id, clampYRounded_id, swimMovedRounded_id,
      fleeBehaveRounded_id, wanderBehaveRounded_id]
    by_cases hc : M.sqrt ((fish.x - sx) * (fish.x - sx) + (fish.y - sy) * (fish.y - sy))
        < fish.fleeDistance ∧
        M.sqrt ((fish.x - sx) * (fish.x - sx) + (fish.y - sy) * (fish.y - sy)) > 0
    · rw [if_pos hc, if_pos hc]
    · rw [if_neg hc, if_neg hc]

/-- The rounded `updateFish` with `fl = id` is the exact one. -/
theorem updateFishRounded_id (M : JSMath K) (rand : ℕ → K) (g : Game K) :
    updateFishRounded id M rand g = updateFish M rand g := by
  unfold updateFishRounded updateFish
  simp only [updateOneFishRounded_id, id]

/-- The bounds test in rounded arithmetic changes neither `vx`, the square of
`vy` nor `isFleeing`. -/
theorem clampYRounded_frame (fl : K → K) (w : World K) (p : Fish K) :
    (clampYRounded fl w p).vx = p.vx ∧ (clampYRounded fl w p).vy ^ 2 = p.vy ^ 2 ∧
    (clampYRounded fl w p).isFleeing = p.isFleeing ∧
    (clampYRounded fl w p).speed = p.speed := by
  unfold clampYRounded
  simp only []
  split_ifs <;> simp [sq_abs]

/-- The fish lists before and after the rounded `updateFish` correspond fish by
fish. -/
theorem updateFishRounded_pointwise (fl : K → K) (M : JSMath K) (rand : ℕ → K) (g : Game K) :
    List.Forall₂ (fun f f2 => ∃ n, f2 = (updateOneFishRounded fl M rand g.world
      (fl (g.shark.x - g.world.offsetX)) (fl (g.shark.y - g.world.offsetY)) f n).1)
      g.fishPieces (updateFishRounded fl M rand g).fishPieces := by
  unfold updateFishRounded
  simp only []
  have key : ∀ (l done : List (Fish K)) (acc : List (Fish K) × ℕ),
      List.Forall₂ (fun f f2 => ∃ n, f2 = (updateOneFishRounded fl M rand g.world
        (fl (g.shark.x - g.world.offsetX)) (fl (g.shark.y - g.world.offsetY)) f n).1)
        done acc.1 →
      List.Forall₂ (fun f f2 => ∃ n, f2 = (updateOneFishRounded fl M rand g.world
        (fl (g.shark.x - g.world.offsetX)) (fl (g.shark.y - g.world.offsetY)) f n).1)
        (done ++ l)
        (l.foldl (fun (acc : List (Fish K) × ℕ) fish =>
          ((acc.1 ++ [(updateOneFishRounded fl M rand g.world
            (fl (g.shark.x - g.world.offsetX)) (fl (g.shark.y - g.world.offsetY))
            fish acc.2).1]),
            (updateOneFishRounded fl M rand g.world (fl (g.shark.x - g.world.offsetX))
              (fl (g.shark.y - g.world.offsetY)) fish acc.2).2)) acc).1 := by
    intro l
    induction l with
    | nil => intro done acc h; simpa using h
    | cons a l ih =>
      intro done acc h
      rw [List.foldl_cons]
      have h1 : List.Forall₂ (fun f f2 => ∃ n, f2 = (updateOneFishRounded fl M rand g.world
          (fl (g.shark.x - g.world.offsetX)) (fl (g.shark.y - g.world.offsetY)) f n).1)
          (done ++ [a])
          (acc.1 ++ [(updateOneFishRounded fl M rand g.world
            (fl (g.shark.x - g.world.offsetX)) (fl (g.shark.y - g.world.offsetY))
            a acc.2).1]) :=
        List.rel_append h (List.Forall₂.cons ⟨acc.2, rfl⟩ List.Forall₂.nil)
      have h2 := ih (done ++ [a]) (acc.1 ++ [(updateOneFishRounded fl M rand g.world
        (fl (g.shark.x - g.world.offsetX)) (fl (g.shark.y - g.world.offsetY)) a acc.2).1],
        (updateOneFishRounded fl M rand g.world (fl (g.shark.x - g.world.offsetX))
          (fl (g.shark.y - g.world.offsetY)) a acc.2).2) h1
      simpa using h2
  simpa using key g.fishPieces [] ([], g.randomCalls) List.Forall₂.nil

/-- The fish at index `i` after the rounded `updateFish` is the callback's
result on the fish at index `i` before. -/
theorem updateFishRounded_getElem (fl : K → K) (M : JSMath K) (rand : ℕ → K) (g : Game K)
    (i : ℕ) (f : Fish K) (hf : g.fishPieces[i]? = some f) :
    ∃ n, (updateFishRounded fl M rand g).fishPieces[i]?
      = some (updateOneFishRounded fl M rand g.world
        (fl (g.shark.x - g.world.offsetX)) (fl (g.shark.y - g.world.offsetY)) f n).1 := by
  have h := updateFishRounded_pointwise fl M rand g
  have hi : i < g.fishPieces.length := getElem?_some_lt hf
  have hi2 : i < (updateFishRounded fl M rand g).fishPieces.length := by
    rw [← h.length_eq]; exact hi
  have ha : g.fishPieces[i] = f := by
    rw [List.getElem?_eq_getElem hi] at hf
    exact Option.some.inj hf
  obtain ⟨n, hn⟩ := h.get hi hi2
  refine ⟨n, ?_⟩
  rw [List.getElem?_eq_getElem hi2]
  simp only [List.get_eq_getElem] at hn
  rw [hn, ha]

/-- A rounding with relative error at most `u` keeps `0`, and scales the
absolute value by a factor between `1 - u` and `1 + u`. -/
theorem relErr_abs (u : K) (fl : K → K) (hfl : ∀ x, |fl x - x| ≤ u * |x|) (x : K) :
    (1 - u) * |x| ≤ |fl x| ∧ |fl x| ≤ (1 + u) * |x| := by
  have h := hfl x
  have h1 : |x| ≤ |fl x| + |fl x - x| := by
    have := abs_sub_abs_le_abs_sub x (fl x)
    rw [abs_sub_comm x (fl x)] at this
    linarith
  have h2 : |fl x| ≤ |x| + |fl x - x| := by
    have := abs_sub_abs_le_abs_sub (fl x) x
    linarith
  constructor <;> linarith

/-- A rounding with relative error at most `u < 1` keeps the sign of a number
that is not negative. -/
theorem relErr_nonneg_arg (u : K) (fl : K → K) (hfl : ∀ x, |fl x - x| ≤ u * |x|) (hu1 : u ≤ 1)
    (x : K) (hx : 0 ≤ x) : (1 - u) * x ≤ fl x ∧ fl x ≤ (1 + u) * x ∧ 0 ≤ fl x := by
  have h := hfl x
  rw [abs_of_nonneg hx] at h
  have h1 := abs_le.1 h
  have h2 : 0 ≤ (1 - u) * x := mul_nonneg (by linarith) hx
  refine ⟨by linarith, by linarith, by linarith⟩

/-- The speed limit of `updateFish` in rounded arithmetic: when every operation
and the square root have a relative error of at most `u < 1`, the velocity
after the limit `m` is at most `m * ((1 + u) ^ 2 / (1 - u) ^ 2)` long. -/
theorem sqrt_capped_rounded (u : ℝ) (hu1 : u < 1) (fl : ℝ → ℝ)
    (hfl : ∀ x, |fl x - x| ≤ u * |x|) (sqrt : ℝ → ℝ)
    (hsqrt : ∀ x, 0 ≤ x → |sqrt x - Real.sqrt x| ≤ u * Real.sqrt x) (a b m : ℝ) (hm : 0 ≤ m) :
    Real.sqrt ((if sqrt (fl (fl (a * a) + fl (b * b))) > m
          then fl (fl (a / sqrt (fl (fl (a * a) + fl (b * b)))) * m) else a) ^ 2
      + (if sqrt (fl (fl (a * a) + fl (b * b))) > m
          then fl (fl (b / sqrt (fl (fl (a * a) + fl (b * b)))) * m) else b) ^ 2)
      ≤ m * ((1 + u) ^ 2 / (1 - u) ^ 2) := by
  have hu0 : 0 ≤ u := relErr_nonneg u fl hfl
  have hk : 0 < 1 - u := by linarith
  have hk2 : 0 < (1 - u) ^ 2 := by positivity
  have hK2 : 1 ≤ (1 + u) ^ 2 := by nlinarith
  set c := sqrt (fl (fl (a * a) + fl (b * b))) with hc
  set N := Real.sqrt (a * a + b * b) with hN
  have hN0 : 0 ≤ N := Real.sqrt_nonneg _
  have hNsq : N ^ 2 = a * a + b * b := Real.sq_sqrt (by nlinarith [mul_self_nonneg a, mul_self_nonneg b])
  -- the computed length is at least `(1 - u) ^ 2` times the true length
  have ha := relErr_nonneg_arg u fl hfl hu1.le (a * a) (mul_self_nonneg a)
  have hb := relErr_nonneg_arg u fl hfl hu1.le (b * b) (mul_self_nonneg b)
  have hs := relErr_nonneg_arg u fl hfl hu1.le (fl (a * a) + fl (b * b))
    (add_nonneg ha.2.2 hb.2.2)
  have hs1 : (1 - u) ^ 2 * N ^ 2 ≤ fl (fl (a * a) + fl (b * b)) := by
    rw [hNsq]
    have : (1 - u) * ((1 - u) * (a * a + b * b)) ≤ (1 - u) * (fl (a * a) + fl (b * b)) :=
      mul_le_mul_of_nonneg_left (by linarith [ha.1, hb.1]) hk.le
    nlinarith [hs.1]
  have hs2 : (1 - u) * N ≤ Real.sqrt (fl (fl (a * a) + fl (b * b))) := by
    apply Real.le_sqrt_of_sq_le
    rw [mul_pow]
    exact hs1
  have hc1 : (1 - u) * Real.sqrt (fl (fl (a * a) + fl (b * b))) ≤ c := by
    have h := abs_le.1 (hsqrt _ hs.2.2)
    linarith [h.1]
  have hcN : (1 - u) ^ 2 * N ≤ c := by
    have : (1 - u) * ((1 - u) * N) ≤ (1 - u) * Real.sqrt (fl (fl (a * a) + fl (b * b))) :=
      mul_le_mul_of_nonneg_left hs2 hk.le
    nlinarith
  have hNc : N ≤ c / (1 - u) ^ 2 := by
    rw [le_div_iff₀ hk2]
    linarith
  have hgoal0 : 0 ≤ m * ((1 + u) ^ 2 / (1 - u) ^ 2) := by positivity
  by_cases h : c > m
  · rw [if_pos h, if_pos h]
    have hcpos : 0 < c := lt_of_le_of_lt hm h
    set t := (1 + u) ^ 2 * m / c with ht
    have ht0 : 0 ≤ t := by positivity
    have hcomp : ∀ z : ℝ, |fl (fl (z / c) * m)| ≤ t * |z| := by
      intro z
      have h1 := (relErr_abs u fl hfl (fl (z / c) * m)).2
      have h2 := (relErr_abs u fl hfl (z / c)).2
      rw [abs_mul, abs_of_nonneg hm] at h1
      rw [abs_div, abs_of_pos hcpos] at h2
      have h3 : |fl (z / c)| * m ≤ (1 + u) * (|z| / c) * m :=
        mul_le_mul_of_nonneg_right h2 hm
      have h4 : (1 + u) * (|fl (z / c)| * m) ≤ (1 + u) * ((1 + u) * (|z| / c) * m) :=
        mul_le_mul_of_nonneg_left h3 (by linarith)
      have e : t * |z| = (1 + u) * ((1 + u) * (|z| / c) * m) := by
        rw [ht]
        field_simp
        ring
      rw [e]
      linarith
    have hsq : ∀ z : ℝ, (fl (fl (z / c) * m)) ^ 2 ≤ t ^ 2 * z ^ 2 := by
      intro z
      rw [← sq_abs (fl (fl (z / c) * m)), ← sq_abs z, ← mul_pow]
      exact pow_le_pow_left₀ (abs_nonneg _) (hcomp z) 2
    have htN : t * N ≤ m * ((1 + u) ^ 2 / (1 - u) ^ 2) := by
      have h1 : t * N ≤ t * (c / (1 - u) ^ 2) := mul_le_mul_of_nonneg_left hNc ht0
      have e : t * (c / (1 - u) ^ 2) = m * ((1 + u) ^ 2 / (1 - u) ^ 2) := by
        rw [ht]
        field_simp
        ring
      linarith
    rw [Real.sqrt_le_iff]
    refine ⟨hgoal0, ?_⟩
    have h1 := hsq a
    have h2 := hsq b
    have h3 : (t * N) ^ 2 ≤ (m * ((1 + u) ^ 2 / (1 - u) ^ 2)) ^ 2 :=
      pow_le_pow_left₀ (mul_nonneg ht0 hN0) htN 2
    have e : (t * N) ^ 2 = t ^ 2 * a ^ 2 + t ^ 2 * b ^ 2 := by
      rw [mul_pow, hNsq]
      ring
    linarith
  · rw [if_neg h, if_neg h, sq, sq]
    have hcm : c ≤ m := not_lt.1 h
    calc N ≤ c / (1 - u) ^ 2 := hNc
      _ ≤ m / (1 - u) ^ 2 := div_le_div_of_nonneg_right hcm hk2.le
      _ = m * (1 / (1 - u) ^ 2) := by ring
      _ ≤ m * ((1 + u) ^ 2 / (1 - u) ^ 2) :=
        mul_le_mul_of_nonneg_left (div_le_div_of_nonneg_right hK2 hk2.le) hm

/-- The limit `maxSpeed = speed * c` of `updateFish`, computed with relative
error at most `u` per operation, is at most `c * speed * (1 + u) ^ 2`. -/
theorem maxSpeed_rounded (u : ℝ) (hu1 : u < 1) (fl : ℝ → ℝ)
    (hfl : ∀ x, |fl x - x| ≤ u * |x|) (speed c : ℝ) (hspeed : 0 ≤ speed) (hc : 0 ≤ c) :
    0 ≤ fl (speed * fl c) ∧ fl (speed * fl c) ≤ c * speed * (1 + u) ^ 2 := by
  have hu0 : 0 ≤ u := relErr_nonneg u fl hfl
  have h1 := relErr_nonneg_arg u fl hfl hu1.le c hc
  have h2 := relErr_nonneg_arg u fl hfl hu1.le (speed * fl c) (mul_nonneg hspeed h1.2.2)
  refine ⟨h2.2.2, le_trans h2.2.1 ?_⟩
  have h3 : speed * fl c ≤ speed * ((1 + u) * c) := mul_le_mul_of_nonneg_left h1.2.1 hspeed
  have h4 : (1 + u) * (speed * fl c) ≤ (1 + u) * (speed * ((1 + u) * c)) :=
    mul_le_mul_of_nonneg_left h3 (by linarith)
  calc (1 + u) * (speed * fl c) ≤ (1 + u) * (speed * ((1 + u) * c)) := h4
    _ = c * speed * (1 + u) ^ 2 := by ring

/-- When every operation and the square root have a relative error of at most
`u < 1`, the velocity that `swimMovedRounded` leaves is at most
`(1 + u) ^ 4 / (1 - u) ^ 2` times the limit of the fish's mode long. -/
theorem swimMovedRounded_speed (u : ℝ) (hu1 : u < 1) (fl : ℝ → ℝ)
    (hfl : ∀ x, |fl x - x| ≤ u * |x|) (M : JSMath ℝ)
    (hsqrt : ∀ x, 0 ≤ x → |M.sqrt x - Real.sqrt x| ≤ u * Real.sqrt x)
    (f : Fish ℝ) (b : Bool) (hb : f.isFleeing = some b) (hspeed : 0 ≤ f.speed) :
    Real.sqrt ((swimMovedRounded fl M f).vx ^ 2 + (swimMovedRounded fl M f).vy ^ 2)
      ≤ (if b then 0.8 else 0.3) * f.speed * ((1 + u) ^ 4 / (1 - u) ^ 2) := by
  have hu0 : 0 ≤ u := relErr_nonneg u fl hfl
  have hk2 : 0 < (1 - u) ^ 2 := by
    have : 0 < 1 - u := by linarith
    positivity
  have key : ∀ (c a1 b1 : ℝ), 0 ≤ c →
      Real.sqrt ((if M.sqrt (fl (fl (a1 * a1) + fl (b1 * b1))) > fl (f.speed * fl c)
            then fl (fl (a1 / M.sqrt (fl (fl (a1 * a1) + fl (b1 * b1)))) * fl (f.speed * fl c))
            else a1) ^ 2
        + (if M.sqrt (fl (fl (a1 * a1) + fl (b1 * b1))) > fl (f.speed * fl c)
            then fl (fl (b1 / M.sqrt (fl (fl (a1 * a1) + fl (b1 * b1)))) * fl (f.speed * fl c))
            else b1) ^ 2)
        ≤ c * f.speed * ((1 + u) ^ 4 / (1 - u) ^ 2) := by
    intro c a1 b1 hc
    have hm := maxSpeed_rounded u hu1 fl hfl f.speed c hspeed hc
    refine le_trans (sqrt_capped_rounded u hu1 fl hfl M.sqrt hsqrt a1 b1 _ hm.1) ?_
    have h1 : fl (f.speed * fl c) * ((1 + u) ^ 2 / (1 - u) ^ 2)
        ≤ c * f.speed * (1 + u) ^ 2 * ((1 + u) ^ 2 / (1 - u) ^ 2) :=
      mul_le_mul_of_nonneg_right hm.2 (by positivity)
    calc fl (f.speed * fl c) * ((1 + u) ^ 2 / (1 - u) ^ 2)
        ≤ c * f.speed * (1 + u) ^ 2 * ((1 + u) ^ 2 / (1 - u) ^ 2) := h1
      _ = c * f.speed * ((1 + u) ^ 4 / (1 - u) ^ 2) := by ring
  unfold swimMovedRounded
  simp only [hb, Option.getD_some]
  cases b
  · simp only [Bool.false_eq_true, if_false]
    exact key 0.3 _ _ (by norm_num)
  · simp only [if_true]
    exact key 0.8 _ _ (by norm_num)

/-! ## The claims -/

/-- C1: one call of `updateFishEating` leaves in the fish list exactly the fish
whose Euclidean distance to the mouth point is not below `30 * growthFactor`, in
their original order, and removes the others; the mouth point and the growth
factor are those of the state at the start of the call. -/
theorem C1_updateFishEating_removes_fish_in_radius (M : JSMath ℝ) (hM : M.IsReal)
    (rand : ℕ → ℝ) (g : Game ℝ) :
    (updateFishEating M rand g).fishPieces
      = g.fishPieces.filter (fun f => decide (¬ Real.sqrt
          ((f.x - (mouthPoint M g).1) ^ 2 + (f.y - (mouthPoint M g).2) ^ 2)
            < 30 * g.shark.growthFactor)) := by
  unfold updateFishEating
  simp only []
  rw [eatLoop_fishPieces M rand _ _ _ _ g le_rfl, List.take_length, List.drop_length,
    List.append_nil, hM.1]
  refine List.filter_congr (fun f _ => ?_)
  rw [sq, sq]

/-- C1 at a sample state with one fish at the mouth point and one far away. -/
theorem C1_witness :
    (JSMath.mk Real.sqrt Real.cos Real.sin (fun y x => Complex.arg ⟨x, y⟩) Real.pi).IsReal ∧
    (updateFishEating (JSMath.mk Real.sqrt Real.cos Real.sin (fun y x => Complex.arg ⟨x, y⟩)
        Real.pi) (fun _ => 0)
        { moduleState (800 : ℝ) 600 with
          fishPieces := [fishAt 72 20 12 "#FFD700", fishAt 1000 320 8 "#FF6347"] }).fishPieces.length
      = ([fishAt (72 : ℝ) 20 12 "#FFD700", fishAt 1000 320 8 "#FF6347"].filter
          (fun f => decide (¬ Real.sqrt
            ((f.x - (mouthPoint (JSMath.mk Real.sqrt Real.cos Real.sin
                (fun y x => Complex.arg ⟨x, y⟩) Real.pi)
                { moduleState (800 : ℝ) 600 with
                  fishPieces := [fishAt 72 20 12 "#FFD700",
                    fishAt 1000 320 8 "#FF6347"] }).1) ^ 2
              + (f.y - (mouthPoint (JSMath.mk Real.sqrt Real.cos Real.sin
                (fun y x => Complex.arg ⟨x, y⟩) Real.pi)
                { moduleState (800 : ℝ) 600 with
                  fishPieces := [fishAt 72 20 12 "#FFD700",
                    fishAt 1000 320 8 "#FF6347"] }).2) ^ 2)
              < 30 * (1.0 : ℝ)))).length :=
  ⟨⟨rfl, rfl, rfl, rfl, fun _ _ => rfl⟩,
    congrArg List.length (C1_updateFishEating_removes_fish_in_radius _
      ⟨rfl, rfl, rfl, rfl, fun _ _ => rfl⟩ _ _)⟩

/-- C2: `handleFishEaten`, called on the fish at index `i`, removes that fish
and no other, adds 1 to `fishEaten`, and for the slow colour adds
`0.02 + size/500` to `growthFactor` and 1 to `slowFishEaten` only, otherwise
`0.015 + size/600` to `growthFactor` and 1 to `fastFishEaten` only. -/
theorem C2_handleFishEaten_effect (M : JSMath K) (rand : ℕ → K) (g : Game K) (fish : Fish K)
    (i : ℕ) (h : g.fishPieces[i]? = some fish) :
    (∃ before after, g.fishPieces = before ++ fish :: after ∧ before.length = i ∧
      (handleFishEaten M rand fish i g).fishPieces = before ++ after) ∧
    (handleFishEaten M rand fish i g).gameStats.fishEaten = g.gameStats.fishEaten + 1 ∧
    (fish.color = "#FFD700" →
      (handleFishEaten M rand fish i g).shark.growthFactor
        = g.shark.growthFactor + (0.02 + fish.size / 500) ∧
      (handleFishEaten M rand fish i g).gameStats.slowFishEaten
        = g.gameStats.slowFishEaten + 1 ∧
      (handleFishEaten M rand fish i g).gameStats.fastFishEaten
        = g.gameStats.fastFishEaten) ∧
    (fish.color ≠ "#FFD700" →
      (handleFishEaten M rand fish i g).shark.growthFactor
        = g.shark.growthFactor + (0.015 + fish.size / 600) ∧
      (handleFishEaten M rand fish i g).gameStats.fastFishEaten
        = g.gameStats.fastFishEaten + 1 ∧
      (handleFishEaten M rand fish i g).gameStats.slowFishEaten
        = g.gameStats.slowFishEaten) := by
  obtain ⟨h1, h2, h3, h4, h5, -⟩ := handleFishEaten_spec M rand fish i g
  have hi : i < g.fishPieces.length := getElem?_some_lt h
  have ha : g.fishPieces[i] = fish := by
    rw [List.getElem?_eq_getElem hi] at h
    exact Option.some.inj h
  refine ⟨⟨g.fishPieces.take i, g.fishPieces.drop (i + 1), ?_, ?_, ?_⟩, h2, ?_, ?_⟩
  · rw [← ha, ← List.drop_eq_getElem_cons hi, List.take_append_drop]
  · simp; omega
  · rw [h1, List.eraseIdx_eq_take_drop_succ]
  · intro hc
    rw [h3, h4, h5]
    simp [hc]
  · intro hc
    rw [h3, h4, h5]
    simp [hc]

/-- C2 at a sample state whose only fish, a slow one, is eaten. -/
theorem C2_witness :
    ({ moduleState (800 : ℚ) 600 with
        fishPieces := [fishAt 100 100 10 "#FFD700"] }.fishPieces[0]?
      = some (fishAt 100 100 10 "#FFD700")) ∧
    (handleFishEaten ratMath (fun _ => 0) (fishAt 100 100 10 "#FFD700") 0
        { moduleState (800 : ℚ) 600 with
          fishPieces := [fishAt 100 100 10 "#FFD700"] }).gameStats.fishEaten
      = (moduleState (800 : ℚ) 600).gameStats.fishEaten + 1 :=
  ⟨rfl, (C2_handleFishEaten_effect ratMath (fun _ => 0)
    { moduleState (800 : ℚ) 600 with fishPieces := [fishAt 100 100 10 "#FFD700"] }
    (fishAt 100 100 10 "#FFD700") 0 rfl).2.1⟩

/-- C3: along every sequence of eating events on fish of non-negative size that
starts from the state `initializeGame` returns, `growthFactor` is at least 1
before each event, does not decrease in the event, and after the event `width`
is `baseWidth * growthFactor` and `height` is `baseHeight * growthFactor`. -/
theorem C3_growth_monotone (M : JSMath K) (rand : ℕ → K) (g0 : Game K)
    (events : List (Fish K × ℕ)) (e : Fish K × ℕ)
    (hsize : ∀ x ∈ events ++ [e], 0 ≤ x.1.size) :
    1 ≤ (eatEvents M rand events (initializeGame M rand g0)).shark.growthFactor ∧
    (eatEvents M rand events (initializeGame M rand g0)).shark.growthFactor
      ≤ (eatEvents M rand (events ++ [e]) (initializeGame M rand g0)).shark.growthFactor ∧
    (eatEvents M rand (events ++ [e]) (initializeGame M rand g0)).shark.width
      = (eatEvents M rand (events ++ [e]) (initializeGame M rand g0)).shark.baseWidth
        * (eatEvents M rand (events ++ [e]) (initializeGame M rand g0)).shark.growthFactor ∧
    (eatEvents M rand (events ++ [e]) (initializeGame M rand g0)).shark.height
      = (eatEvents M rand (events ++ [e]) (initializeGame M rand g0)).shark.baseHeight
        * (eatEvents M rand (events ++ [e]) (initializeGame M rand g0)).shark.growthFactor := by
  have hstep : eatEvents M rand (events ++ [e]) (initializeGame M rand g0)
      = handleFishEaten M rand e.1 e.2 (eatEvents M rand events (initializeGame M rand g0)) := by
    simp [eatEvents, List.foldl_append]
  have h0 := (initializeGame_shark M rand g0).1
  have h1 := eatEvents_growth M rand events (initializeGame M rand g0)
    (fun x hx => hsize x (List.mem_append_left _ hx))
  rw [h0] at h1
  obtain ⟨-, -, -, -, -, s6, s7, s8, s9⟩ := handleFishEaten_spec M rand e.1 e.2
    (eatEvents M rand events (initializeGame M rand g0))
  refine ⟨h1, ?_, ?_, ?_⟩
  · rw [hstep]
    exact handleFishEaten_growth M rand e.1 e.2 _ (hsize e (by simp))
  · rw [hstep, s6, s8]
  · rw [hstep, s7, s9]

/-- C3 for a slow fish followed by a fast fish, after `initializeGame`. -/
theorem C3_witness :
    (∀ x ∈ [(fishAt (100 : ℚ) 100 10 "#FFD700", 0)] ++ [(fishAt (50 : ℚ) 60 8 "#FF6347", 0)],
      0 ≤ x.1.size) ∧
    (eatEvents ratMath (fun _ => 0) [(fishAt (100 : ℚ) 100 10 "#FFD700", 0)]
        (initializeGame ratMath (fun _ => 0) (moduleState 800 600))).shark.growthFactor
      ≤ (eatEvents ratMath (fun _ => 0)
          ([(fishAt (100 : ℚ) 100 10 "#FFD700", 0)] ++ [(fishAt (50 : ℚ) 60 8 "#FF6347", 0)])
          (initializeGame ratMath (fun _ => 0) (moduleState 800 600))).shark.growthFactor :=
  ⟨by simp [fishAt],
    (C3_growth_monotone ratMath (fun _ => 0) (moduleState 800 600)
      [(fishAt (100 : ℚ) 100 10 "#FFD700", 0)] (fishAt (50 : ℚ) 60 8 "#FF6347", 0)
      (by simp [fishAt])).2.1⟩

/-- C4: after one call of `generateSeaweedChunk` (of `generateFishChunk`) for a
chunk coordinate its key is in `generatedChunks` (in `fishGeneratedChunks`), and
a second call for the same coordinate returns the state unchanged. -/
theorem C4_chunk_generation_idempotent (M : JSMath K) (rand : ℕ → K) (cx cy : ℤ)
    (size size2 : K) (g : Game K) :
    (cx, cy) ∈ (generateSeaweedChunk M rand cx cy size g).generatedChunks ∧
    generateSeaweedChunk M rand cx cy size2 (generateSeaweedChunk M rand cx cy size g)
      = generateSeaweedChunk M rand cx cy size g ∧
    (cx, cy) ∈ (generateFishChunk rand cx cy size g).fishGeneratedChunks ∧
    generateFishChunk rand cx cy size2 (generateFishChunk rand cx cy size g)
      = generateFishChunk rand cx cy size g := by
  obtain ⟨_, _, -, -, -, -, -, -, hs, -⟩ := generateSeaweedChunk_new M rand cx cy size g
  obtain ⟨_, -, -, -, -, -, hf, -⟩ := generateFishChunk_new rand cx cy size g
  have h1 := (hs (cx, cy)).2 (Or.inr rfl)
  have h2 := (hf (cx, cy)).2 (Or.inr rfl)
  exact ⟨h1, generateSeaweedChunk_of_marked M rand cx cy size2 _ h1, h2,
    generateFishChunk_of_marked rand cx cy size2 _ h2⟩

/-- C5, as amended: for draws in `[0, 1)`, every fish that `generateFishChunk`
appends is normal and carries the key of the chunk of its own position; every
fish that `generateSeaweedChunk` appends is green and carries the key of the
chunk of its seaweed stalk, 10 units above it, which is the chunk of its own
position whenever that position is still above the lower edge of the chunk. -/
theorem C5_generated_fish_chunkKey (M : JSMath K) (rand : ℕ → K) (cx cy : ℤ) (g : Game K)
    (hrand : ∀ n, 0 ≤ rand n ∧ rand n < 1) :
    (∀ f ∈ (generateFishChunk rand cx cy chunkSize g).fishPieces.drop g.fishPieces.length,
      f.type = FishType.normal ∧ f.chunkKey = getChunkCoords f.x f.y) ∧
    (∀ f ∈ (generateSeaweedChunk M rand cx cy chunkSize g).fishPieces.drop g.fishPieces.length,
      f.type = FishType.green ∧ f.chunkKey = getChunkCoords f.x (f.y - 10) ∧
      (f.y < ((cy : K) + 1) * chunkSize → f.chunkKey = getChunkCoords f.x f.y)) := by
  have hs : (0 : K) < chunkSize := by unfold chunkSize; norm_num
  constructor
  · obtain ⟨ef, h1, -, -, h3, -⟩ := generateFishChunk_new rand cx cy chunkSize g
    rw [h1, List.drop_left]
    intro f hf
    obtain ⟨n, -, rfl⟩ := h3 f hf
    refine ⟨rfl, ?_⟩
    simp only [spawnFish, getChunkCoords]
    rw [floor_chunk cx _ (hrand n).1 (hrand n).2, floor_chunk cy _ (hrand _).1 (hrand _).2]
  · obtain ⟨e, ef, -, h2, -, -, h4, -⟩ := generateSeaweedChunk_new M rand cx cy chunkSize g
    rw [h2, List.drop_left]
    intro f hf
    obtain ⟨n, -, rfl⟩ := h4 f hf
    refine ⟨rfl, ?_, ?_⟩
    · simp only [spawnLurker, getChunkCoords, add_sub_cancel_right]
      rw [floor_chunk cx _ (hrand n).1 (hrand n).2, floor_chunk cy _ (hrand _).1 (hrand _).2]
    · simp only [spawnLurker, getChunkCoords]
      intro hy
      rw [floor_chunk cx _ (hrand n).1 (hrand n).2]
      congr 1
      symm
      rw [Int.floor_eq_iff]
      have hr := (hrand (n + 1)).1
      constructor
      · rw [le_div_iff₀ hs]
        nlinarith
      · rw [div_lt_iff₀ hs]
        linarith

set_option maxRecDepth 100000 in
/-- C5, as amended, for chunk `(0, 1)` of an 800 by 600 canvas with no chunk
generated yet, under the draws `boundaryDraws`: `generateFishChunk` appends 3
normal fish and `generateSeaweedChunk` appends 15 green fish, and each of them
carries the key the theorem names. -/
theorem C5_witness :
    (∀ n, (0 : ℚ) ≤ boundaryDraws n ∧ boundaryDraws n < 1) ∧
    ((generateFishChunk boundaryDraws 0 1 chunkSize
        (steeringState (0 : ℚ) 400 300 [])).fishPieces.drop
      (steeringState (0 : ℚ) 400 300 []).fishPieces.length).length = 3 ∧
    ((generateSeaweedChunk ratMath boundaryDraws 0 1 chunkSize
        (steeringState (0 : ℚ) 400 300 [])).fishPieces.drop
      (steeringState (0 : ℚ) 400 300 []).fishPieces.length).length = 15 ∧
    (∀ f ∈ (generateFishChunk boundaryDraws 0 1 chunkSize
        (steeringState (0 : ℚ) 400 300 [])).fishPieces.drop
          (steeringState (0 : ℚ) 400 300 []).fishPieces.length,
      f.type = FishType.normal ∧ f.chunkKey = getChunkCoords f.x f.y) ∧
    (∀ f ∈ (generateSeaweedChunk ratMath boundaryDraws 0 1 chunkSize
        (steeringState (0 : ℚ) 400 300 [])).fishPieces.drop
          (steeringState (0 : ℚ) 400 300 []).fishPieces.length,
      f.type = FishType.green ∧ f.chunkKey = getChunkCoords f.x (f.y - 10) ∧
      (f.y < (((1 : ℤ) : ℚ) + 1) * chunkSize → f.chunkKey = getChunkCoords f.x f.y)) :=
  ⟨fun n => by unfold boundaryDraws; split_ifs <;> norm_num,
    by decide!, by decide!,
    (C5_generated_fish_chunkKey ratMath boundaryDraws 0 1 (steeringState (0 : ℚ) 400 300 [])
      (fun n => by unfold boundaryDraws; split_ifs <;> norm_num)).1,
    (C5_generated_fish_chunkKey ratMath boundaryDraws 0 1 (steeringState (0 : ℚ) 400 300 [])
      (fun n => by unfold boundaryDraws; split_ifs <;> norm_num)).2⟩

set_option maxRecDepth 100000 in
/-- C5 fails as stated: with draws in `[0, 1)`, `initializeGame` on an 800 by 600
canvas leaves a green fish whose key is not the chunk of its own position (its
stalk is at `y = 1599` in chunk row 1, the fish at `y = 1609` in row 2). -/
theorem C5_counterexample :
    ∃ f ∈ (initializeGame ratMath boundaryDraws (moduleState 800 600)).fishPieces,
      f.type = FishType.green ∧ f.y = 1609 ∧ f.chunkKey.2 = 1 ∧
        (getChunkCoords f.x f.y).2 = 2 ∧ f.chunkKey ≠ getChunkCoords f.x f.y := by
  decide!

set_option maxRecDepth 100000 in
/-- C6 fails on the code: from `initializeGame` on an 800 by 600 canvas, chunk
`(-2, 1)` holds a stalk with a green fish at `x = -1600` and three normal fish at
`x = -1400`.  A call at offset `(-801, 0)` appends the three fish of chunk
`(3, 1)` and removes one fish, the green one; all three normal fish of chunk
`(-2, 1)` stay, yet the key `(-2, 1)` is deleted from `fishGeneratedChunks`, the
registry of the normal fish. -/
theorem C6_green_fish_eviction_unmarks_fish_registry :
    ((-2, 1) ∈ (initializeGame ratMath lurkerDraws (moduleState 800 600)).fishGeneratedChunks ∧
      normalFishOf (-2, 1)
        (initializeGame ratMath lurkerDraws (moduleState 800 600)).fishPieces = 3 ∧
      ((initializeGame ratMath lurkerDraws (moduleState 800 600)).fishPieces.filter
        (fun f => decide (f.type = FishType.green))).length = 1) ∧
    (normalFishOf (-2, 1)
        (manageAt ratMath lurkerDraws (initializeGame ratMath lurkerDraws (moduleState 800 600))
          (-801, 0)).fishPieces = 3 ∧
      ((manageAt ratMath lurkerDraws (initializeGame ratMath lurkerDraws (moduleState 800 600))
          (-801, 0)).fishPieces.filter (fun f => decide (f.type = FishType.green))).length = 0 ∧
      (manageAt ratMath lurkerDraws (initializeGame ratMath lurkerDraws (moduleState 800 600))
          (-801, 0)).fishPieces.length + 1
        = (initializeGame ratMath lurkerDraws (moduleState 800 600)).fishPieces.length + 3 ∧
      (-2, 1) ∉ (manageAt ratMath lurkerDraws
        (initializeGame ratMath lurkerDraws (moduleState 800 600)) (-801, 0)).fishGeneratedChunks) := by
  decide!

/-- C7, as amended: one call of `manageSeaweedChunks` appends, for any one
`chunkKey`, at most 16 seaweed stalks and at most 3 normal fish, the per-chunk
counts of `generateSeaweedChunk` and `generateFishChunk`, and appends no stalk
(no normal fish) for a key that is marked in `generatedChunks` (in
`fishGeneratedChunks`) when the call starts; what stays of the earlier stalks
and fish is a prefix of the new lists. -/
theorem C7_one_call_adds_at_most_one_population (M : JSMath K) (rand : ℕ → K) (g : Game K) :
    ∃ freshSeaweed freshFish,
      (manageSeaweedChunks M rand g).seaweedPieces
        = g.seaweedPieces.filter
            (fun a => decide (|a.x - viewCenterX g| ≤ 2400 ∧ |a.y - viewCenterY g| ≤ 2400))
          ++ freshSeaweed ∧
      (manageSeaweedChunks M rand g).fishPieces
        = g.fishPieces.filter
            (fun a => decide (|a.x - viewCenterX g| ≤ 2400 ∧ |a.y - viewCenterY g| ≤ 2400))
          ++ freshFish ∧
      (seaweedCount (chunkSize : K)).toNat = 16 ∧ (fishCount (chunkSize : K)).toNat = 3 ∧
      ∀ k, seaweedOf k freshSeaweed ≤ (seaweedCount (chunkSize : K)).toNat ∧
        normalFishOf k freshFish ≤ (fishCount (chunkSize : K)).toNat ∧
        (k ∈ g.generatedChunks → seaweedOf k freshSeaweed = 0) ∧
        (k ∈ g.fishGeneratedChunks → normalFishOf k freshFish = 0) := by
  obtain ⟨h1, h2, -⟩ := manageSeaweedChunks_spec M rand g
  obtain ⟨⟨e, ef, he, hef, hk⟩, -, -⟩ := generateAround_fresh M rand
    (getChunkCoords (viewCenterX g) (viewCenterY g)).1
    (getChunkCoords (viewCenterX g) (viewCenterY g)).2 chunkSize g
  refine ⟨e.filter (fun a => inView (viewCenterX g) (viewCenterY g) (chunkSize * 3) a.x a.y),
    ef.filter (fun a => inView (viewCenterX g) (viewCenterY g) (chunkSize * 3) a.x a.y),
    ?_, ?_, seaweedCount_chunkSize, fishCount_chunkSize, fun k => ?_⟩
  · rw [h1, he, List.filter_append]
    simp only [inView_iff]
  · rw [h2, hef, List.filter_append]
    simp only [inView_iff]
  · obtain ⟨k1, k2, -, -, k5, k6⟩ := hk k
    have s1 : seaweedOf k (e.filter
        (fun a => inView (viewCenterX g) (viewCenterY g) (chunkSize * 3) a.x a.y))
        ≤ seaweedOf k e := List.Sublist.countP_le _ (List.filter_sublist _)
    have s2 : normalFishOf k (ef.filter
        (fun a => inView (viewCenterX g) (viewCenterY g) (chunkSize * 3) a.x a.y))
        ≤ normalFishOf k ef := List.Sublist.countP_le _ (List.filter_sublist _)
    exact ⟨le_trans s1 k1, le_trans s2 k2, fun h => Nat.le_zero.1 (k5 h ▸ s1),
      fun h => Nat.le_zero.1 (k6 h ▸ s2)⟩

set_option maxRecDepth 100000 in
/-- C7 fails as stated: from `initializeGame` on an 800 by 600 canvas, with
draws in `[0, 1)`, calls of `manageSeaweedChunks` at the offsets `(-801, 0)` and
`(0, 0)` leave 31 stalks and 5 normal fish with the key `(-2, 1)`, more than the
16 and 3 of one generation: the first call removes one stalk and one fish of
the chunk, at `x = -1600`, and unmarks the key in both registries; the second
regenerates the chunk on top of the 15 stalks and 2 fish that stayed. -/
theorem C7_counterexample :
    seaweedOf (-2, 1)
      ([((-801 : ℚ), (0 : ℚ)), (0, 0)].foldl (manageAt ratMath edgeDraws)
        (initializeGame ratMath edgeDraws (moduleState 800 600))).seaweedPieces = 31 ∧
    normalFishOf (-2, 1)
      ([((-801 : ℚ), (0 : ℚ)), (0, 0)].foldl (manageAt ratMath edgeDraws)
        (initializeGame ratMath edgeDraws (moduleState 800 600))).fishPieces = 5 ∧
    (seaweedCount (chunkSize : ℚ)).toNat = 16 ∧ (fishCount (chunkSize : ℚ)).toNat = 3 := by
  decide!

/-- C8: after `manageSeaweedChunks` the stalks (the fish) that were in the list
before the call and are still there are exactly those with `|x - viewCenterX|`
and `|y - viewCenterY|` both at most 2400, unchanged and in their order; they are
followed by what the call generated and kept. -/
theorem C8_eviction_keeps_exactly_the_entities_in_view (M : JSMath K) (rand : ℕ → K)
    (g : Game K) :
    (manageSeaweedChunks M rand g).seaweedPieces
      = g.seaweedPieces.filter
          (fun a => decide (|a.x - viewCenterX g| ≤ 2400 ∧ |a.y - viewCenterY g| ≤ 2400))
        ++ ((generateAround M rand (getChunkCoords (viewCenterX g) (viewCenterY g)).1
              (getChunkCoords (viewCenterX g) (viewCenterY g)).2 chunkSize g).seaweedPieces.drop
              g.seaweedPieces.length).filter
            (fun a => decide (|a.x - viewCenterX g| ≤ 2400 ∧ |a.y - viewCenterY g| ≤ 2400)) ∧
    (manageSeaweedChunks M rand g).fishPieces
      = g.fishPieces.filter
          (fun a => decide (|a.x - viewCenterX g| ≤ 2400 ∧ |a.y - viewCenterY g| ≤ 2400))
        ++ ((generateAround M rand (getChunkCoords (viewCenterX g) (viewCenterY g)).1
              (getChunkCoords (viewCenterX g) (viewCenterY g)).2 chunkSize g).fishPieces.drop
              g.fishPieces.length).filter
            (fun a => decide (|a.x - viewCenterX g| ≤ 2400 ∧ |a.y - viewCenterY g| ≤ 2400)) := by
  obtain ⟨h1, h2, -⟩ := manageSeaweedChunks_spec M rand g
  have hg := generateAround_grown M rand (getChunkCoords (viewCenterX g) (viewCenterY g)).1
    (getChunkCoords (viewCenterX g) (viewCenterY g)).2 chunkSize g
  obtain ⟨e, he⟩ := hg.seaweed
  obtain ⟨ef, hef⟩ := hg.fish
  constructor
  · rw [h1, he, List.filter_append, List.drop_left]
    simp only [inView_iff]
  · rw [h2, hef, List.filter_append, List.drop_left]
    simp only [inView_iff]

set_option maxRecDepth 100000 in
/-- C9 fails on the code: on a 1600 by 600 canvas at offset `(0, 0)` the viewport
centre is the world point `(800, 300)` in chunk `(1, 0)`, whose neighbourhood is
the columns `-1` to `3`; `manageSeaweedChunks`, called by `initializeGame`, marks
the columns `-2` to `2` in both registries and leaves column `3` unmarked. -/
theorem C9_neighbourhood_centred_on_left_edge :
    getChunkCoords ((1600 : ℚ) / 2 - 0) ((600 : ℚ) / 2 - 0) = (1, 0) ∧
    (-2, 0) ∈ (initializeGame ratMath edgeDraws (moduleState 1600 600)).generatedChunks ∧
    (-2, 0) ∈ (initializeGame ratMath edgeDraws (moduleState 1600 600)).fishGeneratedChunks ∧
    (3, 0) ∉ (initializeGame ratMath edgeDraws (moduleState 1600 600)).generatedChunks ∧
    (3, 0) ∉ (initializeGame ratMath edgeDraws (moduleState 1600 600)).fishGeneratedChunks := by
  decide!

/-- C10: one `updateFish` tick takes a green fish from `hiding` to `emerging`
iff `sharkDist < 120`, from `emerging` to `returning` iff `homeDist > 800`
whatever its timer, and from `returning` to `emerging` if `sharkDist < 120`,
otherwise to `hiding` when `homeDist < 2` and to `returning` when
`homeDist > 2`, both distances taken at the start of the tick; every entry into
`emerging` sets `stateTimer` to 0; and every green fish that
`generateSeaweedChunk` appends is in state `hiding`. -/
theorem C10_ambush_state_machine (M : JSMath K) (rand : ℕ → K) (g : Game K) (i : ℕ)
    (f : Fish K) (hf : g.fishPieces[i]? = some f) (hgreen : f.type = FishType.green)
    (cx cy : ℤ) (size : K) (g0 : Game K) :
    (∃ f2, (updateFish M rand g).fishPieces[i]? = some f2 ∧
      (f.state = FishState.hiding →
        (sharkDist M (g.shark.x - g.world.offsetX) (g.shark.y - g.world.offsetY) f < 120 →
          f2.state = FishState.emerging ∧ f2.stateTimer = 0) ∧
        (¬ sharkDist M (g.shark.x - g.world.offsetX) (g.shark.y - g.world.offsetY) f < 120 →
          f2.state = FishState.hiding)) ∧
      (f.state = FishState.emerging →
        (homeDist M f > 800 → f2.state = FishState.returning) ∧
        (¬ homeDist M f > 800 → f2.state = FishState.emerging)) ∧
      (f.state = FishState.returning →
        (sharkDist M (g.shark.x - g.world.offsetX) (g.shark.y - g.world.offsetY) f < 120 →
          f2.state = FishState.emerging ∧ f2.stateTimer = 0) ∧
        (¬ sharkDist M (g.shark.x - g.world.offsetX) (g.shark.y - g.world.offsetY) f < 120 →
          (homeDist M f < 2 → f2.state = FishState.hiding) ∧
          (homeDist M f > 2 → f2.state = FishState.returning)))) ∧
    (∀ a ∈ (generateSeaweedChunk M rand cx cy size g0).fishPieces.drop g0.fishPieces.length,
      a.type = FishType.green ∧ a.state = FishState.hiding) := by
  constructor
  · obtain ⟨n, hn⟩ := updateFish_getElem M rand g i f hf
    refine ⟨_, hn, ?_⟩
    have hu : (updateOneFish M rand g.world (g.shark.x - g.world.offsetX)
        (g.shark.y - g.world.offsetY) f n).1
        = updateGreenFish M g.world (g.shark.x - g.world.offsetX)
            (g.shark.y - g.world.offsetY) f := by
      unfold updateOneFish
      rw [if_pos hgreen]
    rw [hu, (updateGreenFish_state M g.world _ _ f).1, (updateGreenFish_state M g.world _ _ f).2]
    exact greenBehave_state M _ _ f
  · obtain ⟨e, ef, -, h2, -, -, h4, -⟩ := generateSeaweedChunk_new M rand cx cy size g0
    rw [h2, List.drop_left]
    intro a ha
    obtain ⟨n, -, rfl⟩ := h4 a ha
    exact ⟨rfl, rfl⟩

/-- C10 at a sample state with one hiding green fish at its home. -/
theorem C10_witness :
    ({ moduleState (800 : ℚ) 600 with
        fishPieces := [lurkerAt 100 1010 100 1010 FishState.hiding 0] }.fishPieces[0]?
      = some (lurkerAt 100 1010 100 1010 FishState.hiding 0)) ∧
    (lurkerAt (100 : ℚ) 1010 100 1010 FishState.hiding 0).type = FishType.green ∧
    ∃ f2, (updateFish ratMath (fun _ => 0)
      { moduleState (800 : ℚ) 600 with
        fishPieces := [lurkerAt 100 1010 100 1010 FishState.hiding 0] }).fishPieces[0]?
        = some f2 :=
  ⟨rfl, rfl, (C10_ambush_state_machine ratMath (fun _ => 0)
    { moduleState (800 : ℚ) 600 with
      fishPieces := [lurkerAt 100 1010 100 1010 FishState.hiding 0] } 0
    (lurkerAt 100 1010 100 1010 FishState.hiding 0) rfl rfl 0 0 800
    (moduleState 800 600)).1.imp (fun _ h => h.1)⟩

/-- C11: with the real `Math`, a green fish of speed `≥ 0` at index `i` ends the
`updateFish` tick as the bounds test of the fish the tick moved.  While emerging
with the shark more than 2 units away, the velocity set has length `0.7 * speed`
and is a non-negative multiple of the vector from the fish to the shark, and
`stateTimer` goes up by 1.  While returning more than 2 units from home, it has
length `0.5 * speed` and is a non-negative multiple of the vector to the home.
Returning within 2 units of a home inside the vertical bounds, the fish ends the
tick at its home with zero velocity. -/
theorem C11_ambush_steering (M : JSMath ℝ) (hM : M.IsReal) (rand : ℕ → ℝ) (g : Game ℝ)
    (i : ℕ) (f : Fish ℝ) (hf : g.fishPieces[i]? = some f) (hgreen : f.type = FishType.green)
    (hspeed : 0 ≤ f.speed) :
    (updateFish M rand g).fishPieces[i]?
      = some (clampY g.world
          (greenMoved M (g.shark.x - g.world.offsetX) (g.shark.y - g.world.offsetY) f)) ∧
    (f.state = FishState.emerging →
      sharkDist M (g.shark.x - g.world.offsetX) (g.shark.y - g.world.offsetY) f > 2 →
      Real.sqrt
          ((greenMoved M (g.shark.x - g.world.offsetX) (g.shark.y - g.world.offsetY) f).vx ^ 2
          + (greenMoved M (g.shark.x - g.world.offsetX) (g.shark.y - g.world.offsetY) f).vy ^ 2)
        = 0.7 * f.speed ∧
      0 ≤ 0.7 * f.speed
          / sharkDist M (g.shark.x - g.world.offsetX) (g.shark.y - g.world.offsetY) f ∧
      (greenMoved M (g.shark.x - g.world.offsetX) (g.shark.y - g.world.offsetY) f).vx
        = 0.7 * f.speed
            / sharkDist M (g.shark.x - g.world.offsetX) (g.shark.y - g.world.offsetY) f
          * (g.shark.x - g.world.offsetX - f.x) ∧
      (greenMoved M (g.shark.x - g.world.offsetX) (g.shark.y - g.world.offsetY) f).vy
        = 0.7 * f.speed
            / sharkDist M (g.shark.x - g.world.offsetX) (g.shark.y - g.world.offsetY) f
          * (g.shark.y - g.world.offsetY - f.y) ∧
      (clampY g.world (greenMoved M (g.shark.x - g.world.offsetX)
          (g.shark.y - g.world.offsetY) f)).stateTimer = f.stateTimer + 1) ∧
    (f.state = FishState.returning → homeDist M f > 2 →
      Real.sqrt
          ((greenMoved M (g.shark.x - g.world.offsetX) (g.shark.y - g.world.offsetY) f).vx ^ 2
          + (greenMoved M (g.shark.x - g.world.offsetX) (g.shark.y - g.world.offsetY) f).vy ^ 2)
        = 0.5 * f.speed ∧
      0 ≤ 0.5 * f.speed / homeDist M f ∧
      (greenMoved M (g.shark.x - g.world.offsetX) (g.shark.y - g.world.offsetY) f).vx
        = 0.5 * f.speed / homeDist M f * (f.homeX - f.x) ∧
      (greenMoved M (g.shark.x - g.world.offsetX) (g.shark.y - g.world.offsetY) f).vy
        = 0.5 * f.speed / homeDist M f * (f.homeY - f.y)) ∧
    (f.state = FishState.returning → ¬ homeDist M f > 2 →
      g.world.surfaceY + 80 ≤ f.homeY → f.homeY ≤ g.world.bottomY - 80 →
      (clampY g.world (greenMoved M (g.shark.x - g.world.offsetX)
          (g.shark.y - g.world.offsetY) f)).x = f.homeX ∧
      (clampY g.world (greenMoved M (g.shark.x - g.world.offsetX)
          (g.shark.y - g.world.offsetY) f)).y = f.homeY ∧
      (clampY g.world (greenMoved M (g.shark.x - g.world.offsetX)
          (g.shark.y - g.world.offsetY) f)).vx = 0 ∧
      (clampY g.world (greenMoved M (g.shark.x - g.world.offsetX)
          (g.shark.y - g.world.offsetY) f)).vy = 0) := by
  refine ⟨?_, ?_, ?_, ?_⟩
  · obtain ⟨n, hn⟩ := updateFish_getElem M rand g i f hf
    rw [updateOneFish_green M rand g.world _ _ f n hgreen] at hn
    exact hn
  · intro hs hd
    obtain ⟨h1, h2, h3⟩ := greenMoved_emerging M _ _ f hs hd
    have hpos : 0 < sharkDist M (g.shark.x - g.world.offsetX)
        (g.shark.y - g.world.offsetY) f := by linarith
    have hm : (0 : ℝ) ≤ f.speed * 0.7 := by positivity
    have hsd : sharkDist M (g.shark.x - g.world.offsetX) (g.shark.y - g.world.offsetY) f
        = Real.sqrt ((g.shark.x - g.world.offsetX - f.x) * (g.shark.x - g.world.offsetX - f.x)
          + (g.shark.y - g.world.offsetY - f.y) * (g.shark.y - g.world.offsetY - f.y)) := by
      rw [← sharkDist_eq, hM.1]
    refine ⟨?_, by positivity, ?_, ?_, ?_⟩
    · rw [h1, h2, hsd]
      exact sqrt_steered _ _ _ _ hm (by rw [← hsd]; exact hpos)
    · rw [h1]
      field_simp
      ring
    · rw [h2]
      field_simp
      ring
    · rw [(clampY_state g.world _).2.1, h3]
  · intro hs hd
    obtain ⟨h1, h2⟩ := greenMoved_returning_far M (g.shark.x - g.world.offsetX)
      (g.shark.y - g.world.offsetY) f hs hd
    have hpos : 0 < homeDist M f := by linarith
    have hm : (0 : ℝ) ≤ f.speed * 0.5 := by positivity
    have hsd : homeDist M f
        = Real.sqrt ((f.homeX - f.x) * (f.homeX - f.x)
          + (f.homeY - f.y) * (f.homeY - f.y)) := by
      rw [← homeDist_eq, hM.1]
    refine ⟨?_, by positivity, ?_, ?_⟩
    · rw [h1, h2, hsd]
      exact sqrt_steered _ _ _ _ hm (by rw [← hsd]; exact hpos)
    · rw [h1]
      field_simp
      ring
    · rw [h2]
      field_simp
      ring
  · intro hs hd hlo hhi
    obtain ⟨p1, p2, p3, p4⟩ := greenMoved_returning_near M (g.shark.x - g.world.offsetX)
      (g.shark.y - g.world.offsetY) f hs hd
    have hw : g.world.surfaceY + 80 ≤ g.world.bottomY - 80 := le_trans hlo hhi
    rw [(clampY_spec g.world _ hw).2.2.2.2 (by rw [p2]; exact hlo) (by rw [p2]; exact hhi)]
    exact ⟨p1, p2, p3, p4⟩


/-- C11 for an emerging green fish 100 units below the shark, on an 800 by 600
canvas: the velocity set has length `0.7 * 1.5`. -/
theorem C11_witness :
    (JSMath.mk Real.sqrt Real.cos Real.sin (fun y x => Complex.arg ⟨x, y⟩) Real.pi).IsReal ∧
    (steeringState (0 : ℝ) 400 300
        [lurkerAt 400 400 400 1010 FishState.emerging 0]).fishPieces[0]?
      = some (lurkerAt 400 400 400 1010 FishState.emerging 0) ∧
    (lurkerAt (400 : ℝ) 400 400 1010 FishState.emerging 0).type = FishType.green ∧
    (0 : ℝ) ≤ (lurkerAt (400 : ℝ) 400 400 1010 FishState.emerging 0).speed ∧
    Real.sqrt
        ((greenMoved
            (JSMath.mk Real.sqrt Real.cos Real.sin (fun y x => Complex.arg ⟨x, y⟩) Real.pi)
            400 300 (lurkerAt 400 400 400 1010 FishState.emerging 0)).vx ^ 2
        + (greenMoved
            (JSMath.mk Real.sqrt Real.cos Real.sin (fun y x => Complex.arg ⟨x, y⟩) Real.pi)
            400 300 (lurkerAt 400 400 400 1010 FishState.emerging 0)).vy ^ 2)
      = 0.7 * 1.5 := by
  have hsp : (0 : ℝ) ≤ (lurkerAt (400 : ℝ) 400 400 1010 FishState.emerging 0).speed := by
    norm_num [lurkerAt]
  have hd : sharkDist
      (JSMath.mk Real.sqrt Real.cos Real.sin (fun y x => Complex.arg ⟨x, y⟩) Real.pi)
      ((steeringState (0 : ℝ) 400 300
          [lurkerAt 400 400 400 1010 FishState.emerging 0]).shark.x
        - (steeringState (0 : ℝ) 400 300
          [lurkerAt 400 400 400 1010 FishState.emerging 0]).world.offsetX)
      ((steeringState (0 : ℝ) 400 300
          [lurkerAt 400 400 400 1010 FishState.emerging 0]).shark.y
        - (steeringState (0 : ℝ) 400 300
          [lurkerAt 400 400 400 1010 FishState.emerging 0]).world.offsetY)
      (lurkerAt 400 400 400 1010 FishState.emerging 0) > 2 := by
    show Real.sqrt (((400 : ℝ) - (400 - 0)) ^ 2 + ((400 : ℝ) - (300 - 0)) ^ 2) > 2
    rw [sub_zero, sub_zero, sqrt_vertical]
    norm_num
  have h := ((C11_ambush_steering
    (JSMath.mk Real.sqrt Real.cos Real.sin (fun y x => Complex.arg ⟨x, y⟩) Real.pi)
    ⟨rfl, rfl, rfl, rfl, fun _ _ => rfl⟩ (fun _ => 0)
    (steeringState (0 : ℝ) 400 300 [lurkerAt 400 400 400 1010 FishState.emerging 0]) 0
    (lurkerAt 400 400 400 1010 FishState.emerging 0) rfl rfl hsp).2.1 rfl hd).1
  refine ⟨⟨rfl, rfl, rfl, rfl, fun _ _ => rfl⟩, rfl, rfl, hsp, ?_⟩
  have e1 : (steeringState (0 : ℝ) 400 300
      [lurkerAt 400 400 400 1010 FishState.emerging 0]).shark.x
      - (steeringState (0 : ℝ) 400 300
        [lurkerAt 400 400 400 1010 FishState.emerging 0]).world.offsetX = 400 := by
    norm_num [steeringState]
  have e2 : (steeringState (0 : ℝ) 400 300
      [lurkerAt 400 400 400 1010 FishState.emerging 0]).shark.y
      - (steeringState (0 : ℝ) 400 300
        [lurkerAt 400 400 400 1010 FishState.emerging 0]).world.offsetY = 300 := by
    norm_num [steeringState]
  rw [e1, e2] at h
  rw [h]
  norm_num [lurkerAt]

/-- C12, as amended: in arithmetic rounded by `fl`, where every operation and
`Math.sqrt` have a relative error of at most `u < 1`, a normal fish of speed
`≥ 0` at index `i` ends the `updateFish` tick as the bounds test of the fish `p`
the tick moved.  When the fish is within its `fleeDistance` of the shark, at a
positive distance, it flees and the velocity of `p` is at most
`0.8 * speed * (1 + u) ^ 4 / (1 - u) ^ 2` long; otherwise it wanders and the
velocity is at most `0.3 * speed * (1 + u) ^ 4 / (1 - u) ^ 2` long; the same
bound holds for the fish after the bounds test.  In exact arithmetic (`u = 0`)
the rounded tick is the exact one and the bounds are `0.8 * speed` and
`0.3 * speed`. -/
theorem C12_speed_limits (u : ℝ) (hu1 : u < 1) (fl : ℝ → ℝ)
    (hfl : ∀ x, |fl x - x| ≤ u * |x|) (M : JSMath ℝ)
    (hsqrt : ∀ x, 0 ≤ x → |M.sqrt x - Real.sqrt x| ≤ u * Real.sqrt x)
    (rand : ℕ → ℝ) (g : Game ℝ)
    (i : ℕ) (f : Fish ℝ) (hf : g.fishPieces[i]? = some f) (hnormal : f.type = FishType.normal)
    (hspeed : 0 ≤ f.speed) :
    (∃ n p, p = (normalMovedRounded fl M rand (fl (g.shark.x - g.world.offsetX))
        (fl (g.shark.y - g.world.offsetY)) f n).1 ∧
      (updateFishRounded fl M rand g).fishPieces[i]? = some (clampYRounded fl g.world p) ∧
      (distanceToSharkRounded fl M (fl (g.shark.x - g.world.offsetX))
            (fl (g.shark.y - g.world.offsetY)) f < f.fleeDistance ∧
          distanceToSharkRounded fl M (fl (g.shark.x - g.world.offsetX))
            (fl (g.shark.y - g.world.offsetY)) f > 0 →
        p.isFleeing = some true ∧
        Real.sqrt (p.vx ^ 2 + p.vy ^ 2) ≤ 0.8 * f.speed * ((1 + u) ^ 4 / (1 - u) ^ 2) ∧
        Real.sqrt ((clampYRounded fl g.world p).vx ^ 2 + (clampYRounded fl g.world p).vy ^ 2)
          ≤ 0.8 * f.speed * ((1 + u) ^ 4 / (1 - u) ^ 2)) ∧
      (¬ (distanceToSharkRounded fl M (fl (g.shark.x - g.world.offsetX))
            (fl (g.shark.y - g.world.offsetY)) f < f.fleeDistance ∧
          distanceToSharkRounded fl M (fl (g.shark.x - g.world.offsetX))
            (fl (g.shark.y - g.world.offsetY)) f > 0) →
        p.isFleeing = some false ∧
        Real.sqrt (p.vx ^ 2 + p.vy ^ 2) ≤ 0.3 * f.speed * ((1 + u) ^ 4 / (1 - u) ^ 2) ∧
        Real.sqrt ((clampYRounded fl g.world p).vx ^ 2 + (clampYRounded fl g.world p).vy ^ 2)
          ≤ 0.3 * f.speed * ((1 + u) ^ 4 / (1 - u) ^ 2))) ∧
    (u = 0 → updateFishRounded fl M rand g = updateFish M rand g ∧
      (1 + u) ^ 4 / (1 - u) ^ 2 = 1) := by
  constructor
  · obtain ⟨n, hn⟩ := updateFishRounded_getElem fl M rand g i f hf
    have hone : (updateOneFishRounded fl M rand g.world (fl (g.shark.x - g.world.offsetX))
        (fl (g.shark.y - g.world.offsetY)) f n).1
        = clampYRounded fl g.world (normalMovedRounded fl M rand
          (fl (g.shark.x - g.world.offsetX)) (fl (g.shark.y - g.world.offsetY)) f n).1 := by
      unfold updateOneFishRounded
      rw [if_neg (by rw [hnormal]; decide)]
    rw [hone] at hn
    refine ⟨n, _, rfl, hn, ?_, ?_⟩
    · intro hc
      have hp : (normalMovedRounded fl M rand (fl (g.shark.x - g.world.offsetX))
          (fl (g.shark.y - g.world.offsetY)) f n).1
          = swimMovedRounded fl M (fleeBehaveRounded fl (fl (g.shark.x - g.world.offsetX))
              (fl (g.shark.y - g.world.offsetY))
              (distanceToSharkRounded fl M (fl (g.shark.x - g.world.offsetX))
                (fl (g.shark.y - g.world.offsetY)) f) f) := by
        unfold normalMovedRounded
        simp only []
        rw [if_pos hc]
      have hb := swimMovedRounded_speed u hu1 fl hfl M hsqrt
        (fleeBehaveRounded fl (fl (g.shark.x - g.world.offsetX))
          (fl (g.shark.y - g.world.offsetY))
          (distanceToSharkRounded fl M (fl (g.shark.x - g.world.offsetX))
            (fl (g.shark.y - g.world.offsetY)) f) f) true rfl hspeed
      rw [← hp] at hb
      simp only [if_true] at hb
      refine ⟨by rw [hp]; rfl, hb, ?_⟩
      rw [(clampYRounded_frame fl g.world _).1, (clampYRounded_frame fl g.world _).2.1]
      exact hb
    · intro hc
      have hp : (normalMovedRounded fl M rand (fl (g.shark.x - g.world.offsetX))
          (fl (g.shark.y - g.world.offsetY)) f n).1
          = swimMovedRounded fl M (wanderBehaveRounded fl M rand f n).1 := by
        unfold normalMovedRounded
        simp only []
        rw [if_neg hc]
      have hb := swimMovedRounded_speed u hu1 fl hfl M hsqrt
        (wanderBehaveRounded fl M rand f n).1 false rfl hspeed
      rw [← hp] at hb
      simp only [Bool.false_eq_true, if_false] at hb
      refine ⟨by rw [hp]; rfl, hb, ?_⟩
      rw [(clampYRounded_frame fl g.world _).1, (clampYRounded_frame fl g.world _).2.1]
      exact hb
  · intro h0
    have hid : fl = id := by
      funext x
      have h := hfl x
      rw [h0, zero_mul] at h
      exact sub_eq_zero.1 (abs_eq_zero.1 (le_antisymm h (abs_nonneg _)))
    rw [hid, updateFishRounded_id, h0]
    exact ⟨rfl, by norm_num⟩

/-- C12, as amended, for a normal fish of speed 1.25 with the velocity
`(0.5, 0.75)` that is 50 units below the shark, on an 800 by 600 canvas, in
double arithmetic with a correctly rounded `Math`, where every operation has a
relative error of at most `2 ^ (-53)`: the fish flees, and its velocity after
the tick is at most `0.8 * 1.25 * (1 + 2 ^ (-53)) ^ 4 / (1 - 2 ^ (-53)) ^ 2`
long. -/
theorem C12_witness :
    (2 : ℝ) ^ (-53 : ℤ) < 1 ∧
    (∀ x : ℝ, |roundDouble x - x| ≤ (2 : ℝ) ^ (-53 : ℤ) * |x|) ∧
    (∀ x : ℝ, 0 ≤ x →
      |roundDouble (Real.sqrt x) - Real.sqrt x| ≤ (2 : ℝ) ^ (-53 : ℤ) * Real.sqrt x) ∧
    (steeringState (0 : ℝ) 400 300 [hastyFish]).fishPieces[0]? = some hastyFish ∧
    (hastyFish : Fish ℝ).type = FishType.normal ∧
    (0 : ℝ) ≤ (hastyFish : Fish ℝ).speed ∧
    ∃ f2, (updateFishRounded roundDouble
        (JSMath.mk (fun x => roundDouble (Real.sqrt x)) (fun x => roundDouble (Real.cos x))
          (fun x => roundDouble (Real.sin x)) (fun y x => roundDouble (Complex.arg ⟨x, y⟩))
          (roundDouble Real.pi))
        (fun _ => 0) (steeringState (0 : ℝ) 400 300 [hastyFish])).fishPieces[0]? = some f2 ∧
      f2.isFleeing = some true ∧
      Real.sqrt (f2.vx ^ 2 + f2.vy ^ 2)
        ≤ 0.8 * 1.25 * ((1 + (2 : ℝ) ^ (-53 : ℤ)) ^ 4 / (1 - (2 : ℝ) ^ (-53 : ℤ)) ^ 2) := by
  have hu1 : (2 : ℝ) ^ (-53 : ℤ) < 1 := by norm_num
  have hs : ∀ x : ℝ, 0 ≤ x →
      |roundDouble (Real.sqrt x) - Real.sqrt x| ≤ (2 : ℝ) ^ (-53 : ℤ) * Real.sqrt x := by
    intro x _
    have h := roundDouble_err (Real.sqrt x)
    rwa [abs_of_nonneg (Real.sqrt_nonneg x)] at h
  have hsp : (0 : ℝ) ≤ (hastyFish : Fish ℝ).speed := by
    show (0 : ℝ) ≤ 1.25
    norm_num
  obtain ⟨n, p, -, h1, h2, -⟩ := (C12_speed_limits ((2 : ℝ) ^ (-53 : ℤ)) hu1 roundDouble
    roundDouble_err
    (JSMath.mk (fun x => roundDouble (Real.sqrt x)) (fun x => roundDouble (Real.cos x))
      (fun x => roundDouble (Real.sin x)) (fun y x => roundDouble (Complex.arg ⟨x, y⟩))
      (roundDouble Real.pi))
    hs (fun _ => 0) (steeringState (0 : ℝ) 400 300 [hastyFish]) 0 hastyFish rfl rfl hsp).1
  have r0 : roundDouble (0 : ℝ) = 0 := by
    have h := roundDouble_natCast (K := ℝ) 0 (by norm_num)
    exact_mod_cast h
  have r50 : roundDouble (50 : ℝ) = 50 := by
    have h := roundDouble_natCast (K := ℝ) 50 (by norm_num)
    exact_mod_cast h
  have r300 : roundDouble (300 : ℝ) = 300 := by
    have h := roundDouble_natCast (K := ℝ) 300 (by norm_num)
    exact_mod_cast h
  have r400 : roundDouble (400 : ℝ) = 400 := by
    have h := roundDouble_natCast (K := ℝ) 400 (by norm_num)
    exact_mod_cast h
  have r2500 : roundDouble (2500 : ℝ) = 2500 := by
    have h := roundDouble_natCast (K := ℝ) 2500 (by norm_num)
    exact_mod_cast h
  have hsq : Real.sqrt 2500 = 50 := by
    rw [show (2500 : ℝ) = 50 ^ 2 by norm_num]
    exact Real.sqrt_sq (by norm_num)
  have hd : distanceToSharkRounded roundDouble
      (JSMath.mk (fun x => roundDouble (Real.sqrt x)) (fun x => roundDouble (Real.cos x))
        (fun x => roundDouble (Real.sin x)) (fun y x => roundDouble (Complex.arg ⟨x, y⟩))
        (roundDouble Real.pi))
      (roundDouble ((steeringState (0 : ℝ) 400 300 [hastyFish]).shark.x
        - (steeringState (0 : ℝ) 400 300 [hastyFish]).world.offsetX))
      (roundDouble ((steeringState (0 : ℝ) 400 300 [hastyFish]).shark.y
        - (steeringState (0 : ℝ) 400 300 [hastyFish]).world.offsetY))
      hastyFish = 50 := by
    show roundDouble (Real.sqrt (roundDouble
      (roundDouble (roundDouble ((400 : ℝ) - roundDouble (400 - 0))
          * roundDouble ((400 : ℝ) - roundDouble (400 - 0)))
        + roundDouble (roundDouble ((350 : ℝ) - roundDouble (300 - 0))
          * roundDouble ((350 : ℝ) - roundDouble (300 - 0)))))) = 50
    rw [sub_zero, sub_zero, r400, r300, sub_self, r0, mul_zero, r0,
      show (350 : ℝ) - 300 = 50 by norm_num, r50, show (50 : ℝ) * 50 = 2500 by norm_num,
      r2500, zero_add, r2500, hsq, r50]
  have h3 := h2 (by
    rw [hd]
    exact ⟨by show (50 : ℝ) < 150; norm_num, by norm_num⟩)
  refine ⟨hu1, roundDouble_err, hs, rfl, rfl, hsp, _, h1, ?_, ?_⟩
  · rw [(clampYRounded_frame _ _ p).2.2.1]
    exact h3.1
  · have e : (hastyFish : Fish ℝ).speed = 1.25 := rfl
    rw [e] at h3
    exact h3.2.2

set_option maxRecDepth 1000000 in
/-- C12 fails as stated on the doubles of the program: a normal fish of speed
1.25 with the velocity `(0.5, 0.75)`, 50 units below the shark and so within its
`fleeDistance` of 150, flees; the speed limit scales its velocity to
`(0.419058177461747, 0.9079593845004518)`, the doubles
`1887270251863283 / 2 ^ 52` and `8178171091407559 / 2 ^ 53`, and the sum of
their squares exceeds the square of `0.8 * 1.25 = 1`, by about `2.7e-16`. -/
theorem C12_counterexample :
    (hastyFish : Fish ℚ).type = FishType.normal ∧
    (updateFishRounded roundDouble doubleMath (fun _ => 0)
      (steeringState (0 : ℚ) 400 300
        [hastyFish])).fishPieces.map
        (fun f => (f.isFleeing, f.speed, f.vx, f.vy))
      = [(some true, 5 / 4, 1887270251863283 / 2 ^ 52, 8178171091407559 / 2 ^ 53)] ∧
    (0.8 * (5 / 4 : ℚ)) ^ 2
      < (1887270251863283 / 2 ^ 52 : ℚ) ^ 2 + (8178171091407559 / 2 ^ 53 : ℚ) ^ 2 ∧
    ¬ Real.sqrt ((1887270251863283 / 2 ^ 52 : ℝ) ^ 2 + (8178171091407559 / 2 ^ 53 : ℝ) ^ 2)
      ≤ 0.8 * (5 / 4 : ℝ) := by
  refine ⟨rfl, by decide!, by norm_num, ?_⟩
  rw [not_le]
  apply Real.lt_sqrt_of_sq_lt
  norm_num

/-- C13: when `surfaceY + 80 ≤ bottomY - 80`, every fish of the list after an
`updateFish` tick has `y` in `[surfaceY + 80, bottomY - 80]`; the fish at every
index is the bounds test applied to the fish the tick moved, and when the moved
fish was above `surfaceY + 80` it ends at that bound with vertical velocity
`|vy|`, when it was below `bottomY - 80` it ends at that bound with `-|vy|`. -/
theorem C13_fish_stay_within_vertical_bounds (M : JSMath K) (rand : ℕ → K) (g : Game K)
    (hw : g.world.surfaceY + 80 ≤ g.world.bottomY - 80) :
    (∀ f2 ∈ (updateFish M rand g).fishPieces,
      g.world.surfaceY + 80 ≤ f2.y ∧ f2.y ≤ g.world.bottomY - 80) ∧
    (∀ (i : ℕ) (f : Fish K), g.fishPieces[i]? = some f →
      ∃ n, (updateFish M rand g).fishPieces[i]?
          = some (clampY g.world (beforeClamp M rand (g.shark.x - g.world.offsetX)
              (g.shark.y - g.world.offsetY) f n)) ∧
        ((beforeClamp M rand (g.shark.x - g.world.offsetX)
            (g.shark.y - g.world.offsetY) f n).y < g.world.surfaceY + 80 →
          (clampY g.world (beforeClamp M rand (g.shark.x - g.world.offsetX)
              (g.shark.y - g.world.offsetY) f n)).y = g.world.surfaceY + 80 ∧
          (clampY g.world (beforeClamp M rand (g.shark.x - g.world.offsetX)
              (g.shark.y - g.world.offsetY) f n)).vy
            = |(beforeClamp M rand (g.shark.x - g.world.offsetX)
                (g.shark.y - g.world.offsetY) f n).vy| ∧
          0 ≤ (clampY g.world (beforeClamp M rand (g.shark.x - g.world.offsetX)
              (g.shark.y - g.world.offsetY) f n)).vy) ∧
        ((beforeClamp M rand (g.shark.x - g.world.offsetX)
            (g.shark.y - g.world.offsetY) f n).y > g.world.bottomY - 80 →
          (clampY g.world (beforeClamp M rand (g.shark.x - g.world.offsetX)
              (g.shark.y - g.world.offsetY) f n)).y = g.world.bottomY - 80 ∧
          (clampY g.world (beforeClamp M rand (g.shark.x - g.world.offsetX)
              (g.shark.y - g.world.offsetY) f n)).vy
            = -|(beforeClamp M rand (g.shark.x - g.world.offsetX)
                (g.shark.y - g.world.offsetY) f n).vy| ∧
          (clampY g.world (beforeClamp M rand (g.shark.x - g.world.offsetX)
              (g.shark.y - g.world.offsetY) f n)).vy ≤ 0)) := by
  constructor
  · intro f2 h2
    obtain ⟨f, -, n, rfl⟩ := updateFish_mem M rand g f2 h2
    rw [updateOneFish_eq_clampY]
    exact ⟨(clampY_spec g.world _ hw).1, (clampY_spec g.world _ hw).2.1⟩
  · intro i f hf
    obtain ⟨n, hn⟩ := updateFish_getElem M rand g i f hf
    rw [updateOneFish_eq_clampY] at hn
    refine ⟨n, hn, ?_, ?_⟩
    · intro h
      obtain ⟨h1, h2⟩ := (clampY_spec g.world _ hw).2.2.1 h
      exact ⟨h1, h2, by rw [h2]; exact abs_nonneg _⟩
    · intro h
      obtain ⟨h1, h2⟩ := (clampY_spec g.world _ hw).2.2.2.1 h
      exact ⟨h1, h2, by rw [h2]; exact neg_nonpos.2 (abs_nonneg _)⟩


/-- C13 on an 800 by 600 canvas with one fish above the surface, at `y = 100`:
after the tick every fish is within `[230, 2070]`. -/
theorem C13_witness :
    ((steeringState (0 : ℚ) 400 300 [fishAt 100 100 10 "#FFD700"]).world.surfaceY + 80
      ≤ (steeringState (0 : ℚ) 400 300 [fishAt 100 100 10 "#FFD700"]).world.bottomY - 80) ∧
    ∀ f2 ∈ (updateFish ratMath (fun _ => 0)
        (steeringState (0 : ℚ) 400 300 [fishAt 100 100 10 "#FFD700"])).fishPieces,
      (230 : ℚ) ≤ f2.y ∧ f2.y ≤ 2070 :=
  ⟨by norm_num [steeringState],
    fun f2 h2 => by
      have h := (C13_fish_stay_within_vertical_bounds ratMath (fun _ => 0)
        (steeringState (0 : ℚ) 400 300 [fishAt 100 100 10 "#FFD700"])
        (by norm_num [steeringState])).1 f2 h2
      have hs : (steeringState (0 : ℚ) 400 300 [fishAt 100 100 10 "#FFD700"]).world.surfaceY
          = 150 := rfl
      have hb : (steeringState (0 : ℚ) 400 300 [fishAt 100 100 10 "#FFD700"]).world.bottomY
          = 2150 := rfl
      rw [hs, hb] at h
      constructor <;> linarith [h.1, h.2]⟩

set_option maxRecDepth 100000 in
/-- C14 fails on the code: for a fish of size 10 the burst of `createBloodEffect`
is `min (12 + floor (10/2)) 20 = 17` particles, and one call of `handleFishEaten`
appends 34 particles, because it calls `createBloodEffect` twice; every one of
them has `life = 1` and `maxSize = size`. -/
theorem C14_handleFishEaten_adds_two_bursts :
    min (12 + ⌊(10 : ℚ) / 2⌋) 20 = 17 ∧
    (createBloodEffect ratMath (fun _ => 0) 100 100 10
      { moduleState (800 : ℚ) 600 with
        fishPieces := [fishAt 100 100 10 "#FFD700"] }).bloodParticles.length = 17 ∧
    (handleFishEaten ratMath (fun _ => 0) (fishAt 100 100 10 "#FFD700") 0
      { moduleState (800 : ℚ) 600 with
        fishPieces := [fishAt 100 100 10 "#FFD700"] }).bloodParticles.length = 34 ∧
    ∀ p ∈ (handleFishEaten ratMath (fun _ => 0) (fishAt 100 100 10 "#FFD700") 0
      { moduleState (800 : ℚ) 600 with
        fishPieces := [fishAt 100 100 10 "#FFD700"] }).bloodParticles,
      p.life = 1 ∧ p.maxSize = p.size := by
  decide!

/-- C15, as amended: when every particle of the state has `life = 1` and
`maxLife > 0`, after `n` calls of `updateBloodParticles` in arithmetic rounded by
`fl` the particles are, in order, those of the start whose rounded life
`lifeAfter fl maxLife k` was positive at each tick `k = 1, ..., n`, at the life
`lifeAfter fl maxLife n`; so a particle that is alone in the set is still there
after `n` ticks exactly when the rounded countdown has not reached `≤ 0` by tick
`n`.  When `maxLife` is an integer `L` and every operation has a relative error
of at most `u`, with `3 * u * L * (L + 1) ≤ 1`, the particle is there after
every `n < L` ticks and gone after every `n > L` ticks: it is removed during
tick `L` or tick `L + 1`.  In exact arithmetic (`u = 0`) it is there exactly when
`n < L`.  The rounded update with `fl = id` is the exact one. -/
theorem C15_particle_lifetime (fl : K → K) (rand : ℕ → K) (g : Game K)
    (h : ∀ p ∈ g.bloodParticles, p.life = 1 ∧ 0 < p.maxLife) (n : ℕ) :
    ((updateBloodParticlesRounded fl rand)^[n] g).bloodParticles.map
        (fun q => (q.maxLife, q.life))
      = (g.bloodParticles.filter (fun p => survives fl p.maxLife n)).map
          (fun p => (p.maxLife, lifeAfter fl p.maxLife n)) ∧
    (∀ p, g.bloodParticles = [p] →
      (((updateBloodParticlesRounded fl rand)^[n] g).bloodParticles.length = 1 ↔
        ∀ k < n, 0 < lifeAfter fl p.maxLife (k + 1)) ∧
      (((updateBloodParticlesRounded fl rand)^[n] g).bloodParticles = [] ↔
        ∃ k < n, lifeAfter fl p.maxLife (k + 1) ≤ 0)) ∧
    (∀ (p : Particle K) (u : K) (L : ℕ), g.bloodParticles = [p] →
      (∀ x, |fl x - x| ≤ u * |x|) → p.maxLife = (L : K) → 3 * u * L * (L + 1) ≤ 1 →
      (n < L → ((updateBloodParticlesRounded fl rand)^[n] g).bloodParticles.length = 1) ∧
      (L < n → ((updateBloodParticlesRounded fl rand)^[n] g).bloodParticles = []) ∧
      (u = 0 →
        (((updateBloodParticlesRounded fl rand)^[n] g).bloodParticles.length = 1 ↔ n < L) ∧
        (((updateBloodParticlesRounded fl rand)^[n] g).bloodParticles = [] ↔ L ≤ n))) ∧
    updateBloodParticlesRounded id rand = updateBloodParticles rand := by
  have hmap : ((updateBloodParticlesRounded fl rand)^[n] g).bloodParticles.map
          (fun q => (q.maxLife, q.life))
        = (g.bloodParticles.filter (fun p => survives fl p.maxLife n)).map
            (fun p => (p.maxLife, lifeAfter fl p.maxLife n)) := by
    rw [iterate_updateBloodParticlesRounded_lives, iterate_agedLivesRounded _ _ _ n,
      List.filter_map, List.map_map]
    · rfl
    · intro p hp
      obtain ⟨q, hq, rfl⟩ := List.mem_map.1 hp
      exact (h q hq).1
  have hlen : ((updateBloodParticlesRounded fl rand)^[n] g).bloodParticles.length
        = (g.bloodParticles.filter (fun p => survives fl p.maxLife n)).length := by
    have := congrArg List.length hmap
    rwa [List.length_map, List.length_map] at this
  have hsurv : ∀ m : K,
      survives fl m n = true ↔ ∀ k < n, 0 < lifeAfter fl m (k + 1) := by
    intro m
    unfold survives
    simp only [List.all_eq_true, List.mem_range, decide_eq_true_eq, not_le]
  have hone : ∀ p : Particle K, g.bloodParticles = [p] →
      (((updateBloodParticlesRounded fl rand)^[n] g).bloodParticles.length = 1 ↔
        ∀ k < n, 0 < lifeAfter fl p.maxLife (k + 1)) ∧
      (((updateBloodParticlesRounded fl rand)^[n] g).bloodParticles = [] ↔
        ∃ k < n, lifeAfter fl p.maxLife (k + 1) ≤ 0) := by
    intro p hp
    rw [← List.length_eq_zero, hlen, hp, ← hsurv]
    have hex : (∃ k < n, lifeAfter fl p.maxLife (k + 1) ≤ 0) ↔ ¬ survives fl p.maxLife n = true := by
      rw [hsurv]
      push_neg
      exact Iff.rfl
    rw [hex]
    by_cases hc : survives fl p.maxLife n = true
    · simp [List.filter_cons, hc]
    · simp [List.filter_cons, hc]
  refine ⟨hmap, hone, fun p u L hp hfl hmax hu => ?_,
    funext (updateBloodParticlesRounded_id rand)⟩
  have hpos : 0 < p.maxLife := (h p (by rw [hp]; exact List.mem_singleton_self p)).2
  have hL : 1 ≤ L := by
    rw [hmax] at hpos
    exact Nat.one_le_iff_ne_zero.2 (fun h0 => by rw [h0] at hpos; simp at hpos)
  obtain ⟨a, b⟩ := hone p hp
  obtain ⟨s1, s2, s3⟩ := lifeAfter_sign u fl hfl L hL hu
  have hpres : n < L → ((updateBloodParticlesRounded fl rand)^[n] g).bloodParticles.length = 1 :=
    fun hn => a.2 (fun k hk => by rw [hmax]; exact s1 (k + 1) (by omega))
  have habs : L < n → ((updateBloodParticlesRounded fl rand)^[n] g).bloodParticles = [] :=
    fun hn => b.2 ⟨L, hn, by rw [hmax]; exact s2⟩
  refine ⟨hpres, habs, fun h0 => ?_⟩
  have hgone : L ≤ n → ((updateBloodParticlesRounded fl rand)^[n] g).bloodParticles = [] :=
    fun hn => b.2 ⟨L - 1, by omega, by
      rw [hmax, show L - 1 + 1 = L by omega, s3 h0]⟩
  constructor
  · refine ⟨fun h1 => ?_, hpres⟩
    by_contra hn
    rw [hgone (by omega)] at h1
    simp at h1
  · refine ⟨fun h1 => ?_, hgone⟩
    by_contra hn
    rw [h1] at hpres
    have := hpres (by omega)
    simp at this

/-- C15, as amended, for one particle with `maxLife = 120` in double arithmetic,
where every operation has a relative error of at most `2 ^ (-53)`: it is there
after 119 ticks and gone after 121. -/
theorem C15_witness :
    (∀ p ∈ ({ moduleState (800 : ℚ) 600 with
        bloodParticles := [particleAt 100 100 120] } : Game ℚ).bloodParticles,
      p.life = 1 ∧ 0 < p.maxLife) ∧
    (∀ x : ℚ, |roundDouble x - x| ≤ (2 : ℚ) ^ (-53 : ℤ) * |x|) ∧
    (particleAt (100 : ℚ) 100 120).maxLife = ((120 : ℕ) : ℚ) ∧
    3 * (2 : ℚ) ^ (-53 : ℤ) * ((120 : ℕ) : ℚ) * (((120 : ℕ) : ℚ) + 1) ≤ 1 ∧
    ((updateBloodParticlesRounded roundDouble (fun _ => 0))^[119]
        ({ moduleState (800 : ℚ) 600 with
          bloodParticles := [particleAt 100 100 120] } : Game ℚ)).bloodParticles.length = 1 ∧
    ((updateBloodParticlesRounded roundDouble (fun _ => 0))^[121]
        ({ moduleState (800 : ℚ) 600 with
          bloodParticles := [particleAt 100 100 120] } : Game ℚ)).bloodParticles = [] :=
  have hp : ∀ p ∈ ({ moduleState (800 : ℚ) 600 with
        bloodParticles := [particleAt 100 100 120] } : Game ℚ).bloodParticles,
      p.life = 1 ∧ 0 < p.maxLife := by
    intro p hp
    rw [List.mem_singleton.1 hp]
    norm_num [particleAt]
  have hm : (particleAt (100 : ℚ) 100 120).maxLife = ((120 : ℕ) : ℚ) := by
    norm_num [particleAt]
  have hu : 3 * (2 : ℚ) ^ (-53 : ℤ) * ((120 : ℕ) : ℚ) * (((120 : ℕ) : ℚ) + 1) ≤ 1 := by
    norm_num
  ⟨hp, roundDouble_err, hm, hu,
    ((C15_particle_lifetime roundDouble (fun _ => 0) _ hp 119).2.2.1
      (particleAt 100 100 120) ((2 : ℚ) ^ (-53 : ℤ)) 120 rfl roundDouble_err hm hu).1
      (by decide),
    ((C15_particle_lifetime roundDouble (fun _ => 0) _ hp 121).2.2.1
      (particleAt 100 100 120) ((2 : ℚ) ^ (-53 : ℤ)) 120 rfl roundDouble_err hm hu).2.1
      (by decide)⟩

set_option maxRecDepth 1000000 in
/-- C15 fails as stated on the doubles of the program: a particle with
`life = 1` and `maxLife = 120` has, after 120 ticks of `life -= 1.0 / maxLife` in
double arithmetic, the life `303 / 2 ^ 58`, about `1.05e-15`, which is positive.
So it is still in the active set after 120 ticks, although `120 < maxLife` is
false, and it is removed during tick 121. -/
theorem C15_counterexample :
    (particleAt (100 : ℚ) 100 120).life = 1 ∧ (particleAt (100 : ℚ) 100 120).maxLife = 120 ∧
    lifeAfter roundDouble (120 : ℚ) 120 = 303 / 2 ^ 58 ∧
    lifeAfter roundDouble (120 : ℚ) 121 ≤ 0 ∧
    ((updateBloodParticlesRounded roundDouble (fun _ => 0))^[120]
      ({ moduleState (800 : ℚ) 600 with
        bloodParticles := [particleAt 100 100 120] } : Game ℚ)).bloodParticles.length = 1 ∧
    ((updateBloodParticlesRounded roundDouble (fun _ => 0))^[121]
      ({ moduleState (800 : ℚ) 600 with
        bloodParticles := [particleAt 100 100 120] } : Game ℚ)).bloodParticles.length = 0 := by
  decide!

/-- C16: with the real `Math`, for every facing direction `θ` (in degrees, with
`a = θ * (π / 180)`) the mouth point of `updateFishEating` is
`centre + 0.4 * width * (cos a, sin a)`, where `centre` is the shark's centre in
world space, whichever branch computes it; it is the image of the local point
`(0.4 * width, 0)` under the transform of `drawShark`, moved from the screen to
the world by the offset; and its distance from the centre is `|0.4 * width|`,
which is `0.4 * width` for a width `≥ 0`. -/
theorem C16_mouth_point (M : JSMath ℝ) (hM : M.IsReal) (g : Game ℝ) :
    mouthPoint M g
      = ((g.shark.x + g.shark.width / 2 - g.world.offsetX)
            + 0.4 * g.shark.width * Real.cos (g.shark.direction * (Real.pi / 180)),
         (g.shark.y + g.shark.height / 2 - g.world.offsetY)
            + 0.4 * g.shark.width * Real.sin (g.shark.direction * (Real.pi / 180))) ∧
    mouthPoint M g
      = ((drawSharkTransform M g (0.4 * g.shark.width, 0)).1 - g.world.offsetX,
         (drawSharkTransform M g (0.4 * g.shark.width, 0)).2 - g.world.offsetY) ∧
    Real.sqrt (((mouthPoint M g).1 - (g.shark.x + g.shark.width / 2 - g.world.offsetX)) ^ 2
        + ((mouthPoint M g).2 - (g.shark.y + g.shark.height / 2 - g.world.offsetY)) ^ 2)
      = |0.4 * g.shark.width| ∧
    (0 ≤ g.shark.width →
      Real.sqrt (((mouthPoint M g).1 - (g.shark.x + g.shark.width / 2 - g.world.offsetX)) ^ 2
          + ((mouthPoint M g).2 - (g.shark.y + g.shark.height / 2 - g.world.offsetY)) ^ 2)
        = 0.4 * g.shark.width) := by
  obtain ⟨h1, h2, h3, h4, -⟩ := hM
  have hm : mouthPoint M g
      = ((g.shark.x + g.shark.width / 2 - g.world.offsetX)
            + 0.4 * g.shark.width * Real.cos (g.shark.direction * (Real.pi / 180)),
         (g.shark.y + g.shark.height / 2 - g.world.offsetY)
            + 0.4 * g.shark.width * Real.sin (g.shark.direction * (Real.pi / 180))) := by
    unfold mouthPoint
    simp only [h2, h3, h4]
    split_ifs
    · rw [Real.cos_pi_sub, Real.sin_pi_sub]
      refine Prod.ext ?_ ?_ <;> simp only [] <;> ring
    · refine Prod.ext ?_ ?_ <;> simp only [] <;> ring
  have hlen : Real.sqrt (((mouthPoint M g).1
        - (g.shark.x + g.shark.width / 2 - g.world.offsetX)) ^ 2
      + ((mouthPoint M g).2 - (g.shark.y + g.shark.height / 2 - g.world.offsetY)) ^ 2)
      = |0.4 * g.shark.width| := by
    rw [hm]
    simp only [add_sub_cancel_left]
    have he : (0.4 * g.shark.width * Real.cos (g.shark.direction * (Real.pi / 180))) ^ 2
        + (0.4 * g.shark.width * Real.sin (g.shark.direction * (Real.pi / 180))) ^ 2
        = (0.4 * g.shark.width) ^ 2 := by
      rw [mul_pow _ (Real.cos _), mul_pow _ (Real.sin _), ← mul_add,
        Real.cos_sq_add_sin_sq, mul_one]
    rw [he, Real.sqrt_sq_eq_abs]
  refine ⟨hm, ?_, hlen, fun hw => ?_⟩
  · rw [hm]
    unfold drawSharkTransform canvasTranslate canvasScale canvasRotate
    simp only [h2, h3, h4]
    split_ifs
    · rw [Real.cos_pi_sub, Real.sin_pi_sub]
      refine Prod.ext ?_ ?_ <;> simp only [] <;> ring
    · refine Prod.ext ?_ ?_ <;> simp only [] <;> ring
  · rw [hlen, abs_of_nonneg (by linarith)]

/-- C16 for the shark of an 800 by 600 canvas facing right (`direction = 0`):
the mouth is 32 units to the right of the centre `(440, 320)`. -/
theorem C16_witness :
    (JSMath.mk Real.sqrt Real.cos Real.sin (fun y x => Complex.arg ⟨x, y⟩) Real.pi).IsReal ∧
    mouthPoint (JSMath.mk Real.sqrt Real.cos Real.sin (fun y x => Complex.arg ⟨x, y⟩) Real.pi)
      (steeringState (0 : ℝ) 400 300 []) = (472, 320) := by
  refine ⟨⟨rfl, rfl, rfl, rfl, fun _ _ => rfl⟩, ?_⟩
  rw [(C16_mouth_point
    (JSMath.mk Real.sqrt Real.cos Real.sin (fun y x => Complex.arg ⟨x, y⟩) Real.pi)
    ⟨rfl, rfl, rfl, rfl, fun _ _ => rfl⟩ (steeringState (0 : ℝ) 400 300 [])).1]
  refine Prod.ext ?_ ?_ <;> norm_num [steeringState]

/-- C17, as amended: when `updateWorld` moves the world (pointer active, target
more than 50 from the shark) and `surfaceY + 20 ≤ bottomY - 20`, the shark's
world `y` afterwards lies in `[surfaceY + 20, bottomY - 20]`; it is
`surfaceY + 20` when the unclamped move would have put it above that bound,
`bottomY - 20` when below, and the unclamped value otherwise, so when the two
bounds differ it equals a bound exactly when the unclamped value is at or beyond
it; `offsetX` is the unclamped `offsetX - moveX`. -/
theorem C17_vertical_clamp (M : JSMath K) (rand : ℕ → K) (g : Game K)
    (hm : g.mouse.isOnScreen = true) (hd : targetDistance M g > 50)
    (hw : g.world.surfaceY + 20 ≤ g.world.bottomY - 20) :
    g.world.surfaceY + 20
      ≤ (updateWorld M rand g).shark.y - (updateWorld M rand g).world.offsetY ∧
    (updateWorld M rand g).shark.y - (updateWorld M rand g).world.offsetY
      ≤ g.world.bottomY - 20 ∧
    (g.shark.y - (g.world.offsetY - moveY M g) < g.world.surfaceY + 20 →
      (updateWorld M rand g).shark.y - (updateWorld M rand g).world.offsetY
        = g.world.surfaceY + 20) ∧
    (g.shark.y - (g.world.offsetY - moveY M g) > g.world.bottomY - 20 →
      (updateWorld M rand g).shark.y - (updateWorld M rand g).world.offsetY
        = g.world.bottomY - 20) ∧
    (g.world.surfaceY + 20 ≤ g.shark.y - (g.world.offsetY - moveY M g) →
      g.shark.y - (g.world.offsetY - moveY M g) ≤ g.world.bottomY - 20 →
      (updateWorld M rand g).shark.y - (updateWorld M rand g).world.offsetY
        = g.shark.y - (g.world.offsetY - moveY M g)) ∧
    (g.world.surfaceY + 20 < g.world.bottomY - 20 →
      ((updateWorld M rand g).shark.y - (updateWorld M rand g).world.offsetY
          = g.world.surfaceY + 20 ↔
        g.shark.y - (g.world.offsetY - moveY M g) ≤ g.world.surfaceY + 20) ∧
      ((updateWorld M rand g).shark.y - (updateWorld M rand g).world.offsetY
          = g.world.bottomY - 20 ↔
        g.world.bottomY - 20 ≤ g.shark.y - (g.world.offsetY - moveY M g))) ∧
    (updateWorld M rand g).world.offsetX = g.world.offsetX - moveX M g ∧
    (updateWorld M rand g).world.surfaceY = g.world.surfaceY ∧
    (updateWorld M rand g).world.bottomY = g.world.bottomY := by
  obtain ⟨a1, a2, a3⟩ := updateWorld_worldY M rand g hm hd hw
  obtain ⟨b1, -, b3, b4, -⟩ := (updateWorld_spec M rand g).2 hm hd
  generalize (updateWorld M rand g).shark.y - (updateWorld M rand g).world.offsetY = y2
    at a1 a2 a3 ⊢
  generalize g.shark.y - (g.world.offsetY - moveY M g) = u at a1 a2 a3 ⊢
  refine ⟨?_, ?_, a1, a2, a3, fun hlt => ⟨⟨fun h => ?_, fun h => ?_⟩, ⟨fun h => ?_, fun h => ?_⟩⟩,
    b1, b3, b4⟩
  · rcases lt_or_le u (g.world.surfaceY + 20) with h | h
    · rw [a1 h]
    · rcases lt_or_le (g.world.bottomY - 20) u with h2 | h2
      · rw [a2 h2]; exact hw
      · rw [a3 h h2]; exact h
  · rcases lt_or_le u (g.world.surfaceY + 20) with h | h
    · rw [a1 h]; exact hw
    · rcases lt_or_le (g.world.bottomY - 20) u with h2 | h2
      · rw [a2 h2]
      · rw [a3 h h2]; exact h2
  · rcases lt_or_le u (g.world.surfaceY + 20) with h1 | h1
    · exact le_of_lt h1
    · rcases lt_or_le (g.world.bottomY - 20) u with h2 | h2
      · rw [a2 h2] at h
        exact absurd h (ne_of_gt hlt)
      · rw [a3 h1 h2] at h
        exact le_of_eq h
  · rcases lt_or_eq_of_le h with h1 | h1
    · exact a1 h1
    · rw [a3 (le_of_eq h1.symm) (by rw [h1]; exact hw), h1]
  · rcases lt_or_le (g.world.bottomY - 20) u with h2 | h2
    · exact le_of_lt h2
    · rcases lt_or_le u (g.world.surfaceY + 20) with h1 | h1
      · rw [a1 h1] at h
        exact absurd h (ne_of_lt hlt)
      · rw [a3 h1 h2] at h
        exact le_of_eq h.symm
  · rcases lt_or_eq_of_le h with h1 | h1
    · exact a2 h1
    · rw [a3 (by rw [← h1]; exact hw) (le_of_eq h1.symm), h1]

/-- C17, as amended, on an 800 by 600 canvas with the pointer 100 above the
shark and the world offset `(0, 0)`: the unclamped move puts the shark at world
`y = 302`, inside the bounds, and there it stays. -/
theorem C17_witness :
    (steeringState (0 : ℝ) 400 200 []).mouse.isOnScreen = true ∧
    targetDistance (JSMath.mk Real.sqrt Real.cos Real.sin (fun y x => Complex.arg ⟨x, y⟩) Real.pi)
      (steeringState (0 : ℝ) 400 200 []) > 50 ∧
    (updateWorld (JSMath.mk Real.sqrt Real.cos Real.sin (fun y x => Complex.arg ⟨x, y⟩) Real.pi)
        (fun _ => 0) (steeringState (0 : ℝ) 400 200 [])).world.offsetX
      = (steeringState (0 : ℝ) 400 200 []).world.offsetX
        - moveX (JSMath.mk Real.sqrt Real.cos Real.sin (fun y x => Complex.arg ⟨x, y⟩) Real.pi)
            (steeringState (0 : ℝ) 400 200 []) :=
  have hd : targetDistance
      (JSMath.mk Real.sqrt Real.cos Real.sin (fun y x => Complex.arg ⟨x, y⟩) Real.pi)
      (steeringState (0 : ℝ) 400 200 []) > 50 := by
    rw [steeringState_vertical _ ⟨rfl, rfl, rfl, rfl, fun _ _ => rfl⟩]
    norm_num [abs_of_neg]
  ⟨rfl, hd,
    (C17_vertical_clamp
      (JSMath.mk Real.sqrt Real.cos Real.sin (fun y x => Complex.arg ⟨x, y⟩) Real.pi)
      (fun _ => 0) (steeringState (0 : ℝ) 400 200 []) rfl hd
      (by norm_num [steeringState])).2.2.2.2.2.2.1⟩

/-- C17 fails as stated when the unclamped move lands exactly on a bound: on an
800 by 600 canvas with world offset `(0, 128)` and the pointer 100 above the
shark, the move is `(0, -2)` and the unclamped world `y` is `170 = surfaceY + 20`.
The shark ends at `surfaceY + 20`, yet the unclamped move did not put it above
that bound. -/
theorem C17_counterexample :
    (steeringState (128 : ℝ) 400 200 []).mouse.isOnScreen = true ∧
    targetDistance (JSMath.mk Real.sqrt Real.cos Real.sin (fun y x => Complex.arg ⟨x, y⟩) Real.pi)
      (steeringState (128 : ℝ) 400 200 []) = 100 ∧
    moveY (JSMath.mk Real.sqrt Real.cos Real.sin (fun y x => Complex.arg ⟨x, y⟩) Real.pi)
      (steeringState (128 : ℝ) 400 200 []) = -2 ∧
    (steeringState (128 : ℝ) 400 200 []).world.surfaceY + 20 = 170 ∧
    (updateWorld (JSMath.mk Real.sqrt Real.cos Real.sin (fun y x => Complex.arg ⟨x, y⟩) Real.pi)
        (fun _ => 0) (steeringState (128 : ℝ) 400 200 [])).shark.y
      - (updateWorld (JSMath.mk Real.sqrt Real.cos Real.sin (fun y x => Complex.arg ⟨x, y⟩) Real.pi)
        (fun _ => 0) (steeringState (128 : ℝ) 400 200 [])).world.offsetY
      = (steeringState (128 : ℝ) 400 200 []).world.surfaceY + 20 ∧
    ¬ ((steeringState (128 : ℝ) 400 200 []).shark.y
        - ((steeringState (128 : ℝ) 400 200 []).world.offsetY
          - moveY (JSMath.mk Real.sqrt Real.cos Real.sin (fun y x => Complex.arg ⟨x, y⟩) Real.pi)
              (steeringState (128 : ℝ) 400 200 []))
      < (steeringState (128 : ℝ) 400 200 []).world.surfaceY + 20) := by
  have hd : targetDistance
      (JSMath.mk Real.sqrt Real.cos Real.sin (fun y x => Complex.arg ⟨x, y⟩) Real.pi)
      (steeringState (128 : ℝ) 400 200 []) = 100 := by
    rw [steeringState_vertical _ ⟨rfl, rfl, rfl, rfl, fun _ _ => rfl⟩]
    norm_num [abs_of_neg]
  have hm : moveY
      (JSMath.mk Real.sqrt Real.cos Real.sin (fun y x => Complex.arg ⟨x, y⟩) Real.pi)
      (steeringState (128 : ℝ) 400 200 []) = -2 := by
    unfold moveY
    rw [hd]
    norm_num [steeringState]
  have hs : (steeringState (128 : ℝ) 400 200 []).world.surfaceY + 20 = 170 := by
    norm_num [steeringState]
  have hu : (steeringState (128 : ℝ) 400 200 []).shark.y
        - ((steeringState (128 : ℝ) 400 200 []).world.offsetY
          - moveY (JSMath.mk Real.sqrt Real.cos Real.sin (fun y x => Complex.arg ⟨x, y⟩) Real.pi)
              (steeringState (128 : ℝ) 400 200 [])) = 170 := by
    rw [hm]
    norm_num [steeringState]
  refine ⟨rfl, hd, hm, hs, ?_, ?_⟩
  · rw [(updateWorld_worldY _ (fun _ => 0) (steeringState (128 : ℝ) 400 200 []) rfl
      (by rw [hd]; norm_num) (by norm_num [steeringState])).2.2
        (by rw [hu, hs]) (by rw [hu]; norm_num [steeringState]), hu, hs]
  · rw [hu, hs]
    exact lt_irrefl _

/-- C18: with the real `Math`, write `d` for the distance
`sqrt (deltaX ^ 2 + deltaY ^ 2)` of the target from the shark's screen position.
When the pointer is inactive or `d ≤ 50`, `updateWorld` returns the state
unchanged.  Otherwise `offsetX` decreases by `deltaX / d * speed`, `offsetY` is
the vertical clamp applied to `offsetY - deltaY / d * speed`, the unclamped
displacement has Euclidean length `|speed|`, which is `speed` for the shark's
speed `≥ 0`, and `direction` becomes `atan2 (deltaY, deltaX) * (180 / π)`. -/
theorem C18_updateWorld_effect (M : JSMath ℝ) (hM : M.IsReal) (rand : ℕ → ℝ) (g : Game ℝ) :
    ((g.mouse.isOnScreen = false ∨
        Real.sqrt ((g.shark.targetX - g.shark.x) ^ 2 + (g.shark.targetY - g.shark.y) ^ 2) ≤ 50) →
      updateWorld M rand g = g) ∧
    (g.mouse.isOnScreen = true →
      Real.sqrt ((g.shark.targetX - g.shark.x) ^ 2 + (g.shark.targetY - g.shark.y) ^ 2) > 50 →
      (updateWorld M rand g).world.offsetX
        = g.world.offsetX - (g.shark.targetX - g.shark.x)
            / Real.sqrt ((g.shark.targetX - g.shark.x) ^ 2 + (g.shark.targetY - g.shark.y) ^ 2)
            * g.shark.speed ∧
      moveX M g = (g.shark.targetX - g.shark.x)
            / Real.sqrt ((g.shark.targetX - g.shark.x) ^ 2 + (g.shark.targetY - g.shark.y) ^ 2)
            * g.shark.speed ∧
      moveY M g = (g.shark.targetY - g.shark.y)
            / Real.sqrt ((g.shark.targetX - g.shark.x) ^ 2 + (g.shark.targetY - g.shark.y) ^ 2)
            * g.shark.speed ∧
      (updateWorld M rand g).world.offsetY
        = (if g.shark.y - (g.world.offsetY - moveY M g) > g.world.bottomY - 20 then
            -(g.world.bottomY - 20 - g.shark.y)
          else if g.shark.y - (g.world.offsetY - moveY M g) < g.world.surfaceY + 20 then
            -(g.world.surfaceY + 20 - g.shark.y)
          else g.world.offsetY - moveY M g) ∧
      Real.sqrt (moveX M g ^ 2 + moveY M g ^ 2) = |g.shark.speed| ∧
      (0 ≤ g.shark.speed → Real.sqrt (moveX M g ^ 2 + moveY M g ^ 2) = g.shark.speed) ∧
      (updateWorld M rand g).shark.direction
        = Complex.arg ⟨g.shark.targetX - g.shark.x, g.shark.targetY - g.shark.y⟩
            * (180 / Real.pi)) := by
  have hd := targetDistance_real M hM g
  obtain ⟨s1, s2⟩ := updateWorld_spec M rand g
  refine ⟨fun h => s1 ?_, fun hm hgt => ?_⟩
  · rcases h with h | h
    · exact Or.inl h
    · exact Or.inr (by rw [hd]; exact not_lt.2 h)
  · obtain ⟨b1, b2, -, -, -, -, b7⟩ := s2 hm (by rw [hd]; exact hgt)
    have hx : moveX M g = (g.shark.targetX - g.shark.x)
        / Real.sqrt ((g.shark.targetX - g.shark.x) ^ 2 + (g.shark.targetY - g.shark.y) ^ 2)
        * g.shark.speed := by
      unfold moveX
      rw [hd]
    have hy : moveY M g = (g.shark.targetY - g.shark.y)
        / Real.sqrt ((g.shark.targetX - g.shark.x) ^ 2 + (g.shark.targetY - g.shark.y) ^ 2)
        * g.shark.speed := by
      unfold moveY
      rw [hd]
    have hpos : 0 < Real.sqrt ((g.shark.targetX - g.shark.x) * (g.shark.targetX - g.shark.x)
        + (g.shark.targetY - g.shark.y) * (g.shark.targetY - g.shark.y)) := by
      rw [← sq, ← sq]
      linarith
    have hlen : Real.sqrt (moveX M g ^ 2 + moveY M g ^ 2) = |g.shark.speed| := by
      rw [hx, hy, sq (g.shark.targetX - g.shark.x), sq (g.shark.targetY - g.shark.y)]
      exact sqrt_scaled_abs _ _ _ hpos
    refine ⟨by rw [b1, hx], hx, hy, b2, hlen, fun h0 => by rw [hlen, abs_of_nonneg h0], ?_⟩
    rw [b7, hM.2.2.2.2, hM.2.2.2.1]

/-- C18 on an 800 by 600 canvas with the pointer 100 above the shark: the world
moves by `(0, -2)`, a displacement of length 2, the shark's speed. -/
theorem C18_witness :
    (JSMath.mk Real.sqrt Real.cos Real.sin (fun y x => Complex.arg ⟨x, y⟩) Real.pi).IsReal ∧
    (updateWorld (JSMath.mk Real.sqrt Real.cos Real.sin (fun y x => Complex.arg ⟨x, y⟩) Real.pi)
      (fun _ => 0) (steeringState (0 : ℝ) 400 200 [])).world.offsetX = 0 ∧
    (updateWorld (JSMath.mk Real.sqrt Real.cos Real.sin (fun y x => Complex.arg ⟨x, y⟩) Real.pi)
      (fun _ => 0) (steeringState (0 : ℝ) 400 200 [])).world.offsetY = 2 ∧
    Real.sqrt
      (moveX (JSMath.mk Real.sqrt Real.cos Real.sin (fun y x => Complex.arg ⟨x, y⟩) Real.pi)
          (steeringState (0 : ℝ) 400 200 []) ^ 2
        + moveY (JSMath.mk Real.sqrt Real.cos Real.sin (fun y x => Complex.arg ⟨x, y⟩) Real.pi)
          (steeringState (0 : ℝ) 400 200 []) ^ 2) = 2 := by
  have hs : Real.sqrt (((steeringState (0 : ℝ) 400 200 []).shark.targetX
        - (steeringState (0 : ℝ) 400 200 []).shark.x) ^ 2
      + ((steeringState (0 : ℝ) 400 200 []).shark.targetY
        - (steeringState (0 : ℝ) 400 200 []).shark.y) ^ 2) = 100 := by
    have h : ((400 : ℝ) - 400) ^ 2 + ((200 : ℝ) - 300) ^ 2 = 100 ^ 2 := by norm_num
    show Real.sqrt (((400 : ℝ) - 400) ^ 2 + ((200 : ℝ) - 300) ^ 2) = 100
    rw [h, Real.sqrt_sq (by norm_num)]
  obtain ⟨h1, h2, h3, h4, -, h6, -⟩ :=
    (C18_updateWorld_effect
      (JSMath.mk Real.sqrt Real.cos Real.sin (fun y x => Complex.arg ⟨x, y⟩) Real.pi)
      ⟨rfl, rfl, rfl, rfl, fun _ _ => rfl⟩ (fun _ => 0) (steeringState (0 : ℝ) 400 200 [])).2
      rfl (by rw [hs]; norm_num)
  rw [hs] at h1 h3
  refine ⟨⟨rfl, rfl, rfl, rfl, fun _ _ => rfl⟩, ?_, ?_, ?_⟩
  · rw [h1]
    norm_num [steeringState]
  · rw [h4, h3]
    norm_num [steeringState]
  · rw [h6 (by norm_num [steeringState])]
    rfl

/-- C19: for draws in `[0, 1)`, every fish that `generateFishChunk` appends is
normal and is the fish of an accepted attempt: when its class draw is below 0.6
it is gold with speed in `[1.2, 1.8)` and size in `[10, 18)`, slower than the
shark's speed 2; otherwise it is red with speed in `[2.2, 3.0)` and size in
`[6, 12)`, faster than the shark. -/
theorem C19_generated_fish_classes (rand : ℕ → K) (cx cy : ℤ) (size : K) (g : Game K)
    (canvasWidth canvasHeight : K) (hrand : ∀ n, 0 ≤ rand n ∧ rand n < 1) :
    (moduleState canvasWidth canvasHeight).shark.speed = 2 ∧
    ∀ f ∈ (generateFishChunk rand cx cy size g).fishPieces.drop g.fishPieces.length,
      f.type = FishType.normal ∧
      ∃ n, f = spawnFish rand cx cy size n ∧
        ((rand (n + 2) < 0.6 ∧ f.color = "#FFD700" ∧ 1.2 ≤ f.speed ∧ f.speed < 1.8 ∧
            10 ≤ f.size ∧ f.size < 18 ∧
            f.speed < (moduleState canvasWidth canvasHeight).shark.speed) ∨
         (¬ rand (n + 2) < 0.6 ∧ f.color = "#FF6347" ∧ 2.2 ≤ f.speed ∧ f.speed < 3.0 ∧
            6 ≤ f.size ∧ f.size < 12 ∧
            (moduleState canvasWidth canvasHeight).shark.speed < f.speed)) := by
  refine ⟨rfl, ?_⟩
  obtain ⟨ef, h1, -, -, h3, -⟩ := generateFishChunk_new rand cx cy size g
  rw [h1, List.drop_left]
  intro f hf
  obtain ⟨n, -, rfl⟩ := h3 f hf
  refine ⟨rfl, n, rfl, ?_⟩
  have r3 := hrand (n + 3)
  have r4 := hrand (n + 4)
  have hs : (moduleState canvasWidth canvasHeight).shark.speed = 2 := rfl
  rw [hs]
  by_cases hc : rand (n + 2) < 0.6
  · left
    simp only [spawnFish, if_pos hc]
    refine ⟨hc, trivial, ?_, ?_, ?_, ?_, ?_⟩ <;> norm_num <;> nlinarith [r3.1, r3.2, r4.1, r4.2]
  · right
    simp only [spawnFish, if_neg hc]
    refine ⟨hc, trivial, ?_, ?_, ?_, ?_, ?_⟩ <;> norm_num <;> nlinarith [r3.1, r3.2, r4.1, r4.2]

set_option maxRecDepth 100000 in
/-- C19 for chunk `(0, 1)` of an 800 by 600 canvas with no chunk generated yet,
under the draws `boundaryDraws`: three fish are appended, each normal and of one
of the two classes. -/
theorem C19_witness :
    (∀ n, (0 : ℚ) ≤ boundaryDraws n ∧ boundaryDraws n < 1) ∧
    ((generateFishChunk boundaryDraws 0 1 chunkSize
        (steeringState (0 : ℚ) 400 300 [])).fishPieces.drop
      (steeringState (0 : ℚ) 400 300 []).fishPieces.length).length = 3 ∧
    ∀ f ∈ (generateFishChunk boundaryDraws 0 1 chunkSize
        (steeringState (0 : ℚ) 400 300 [])).fishPieces.drop
        (steeringState (0 : ℚ) 400 300 []).fishPieces.length,
      f.type = FishType.normal ∧
      ∃ n, f = spawnFish boundaryDraws 0 1 chunkSize n ∧
        ((boundaryDraws (n + 2) < 0.6 ∧ f.color = "#FFD700" ∧ 1.2 ≤ f.speed ∧ f.speed < 1.8 ∧
            10 ≤ f.size ∧ f.size < 18 ∧
            f.speed < (moduleState (800 : ℚ) 600).shark.speed) ∨
         (¬ boundaryDraws (n + 2) < 0.6 ∧ f.color = "#FF6347" ∧ 2.2 ≤ f.speed ∧
            f.speed < 3.0 ∧ 6 ≤ f.size ∧ f.size < 12 ∧
            (moduleState (800 : ℚ) 600).shark.speed < f.speed)) :=
  ⟨fun n => by unfold boundaryDraws; split_ifs <;> norm_num,
    by decide!,
    (C19_generated_fish_classes boundaryDraws 0 1 chunkSize
      (steeringState (0 : ℚ) 400 300 []) 800 600
      (fun n => by unfold boundaryDraws; split_ifs <;> norm_num)).2⟩

/-- C20, as amended: a green fish in state `hiding` whose home is 10 units below
a stalk with `y` in `[surfaceY + 100, bottomY - 50]` has, after an `updateFish`
tick, zero velocity and `x = homeX`; its `y` is `homeY` when `homeY ≤ bottomY - 80`
and is `bottomY - 80`, the bound of the vertical test, when `homeY` is below it. -/
theorem C20_hiding_fish_sits_at_clamped_home (M : JSMath K) (rand : ℕ → K) (g : Game K)
    (i : ℕ) (f : Fish K) (hf : g.fishPieces[i]? = some f) (hgreen : f.type = FishType.green)
    (hhide : f.state = FishState.hiding)
    (hlow : g.world.surfaceY + 100 ≤ f.homeY - 10)
    (hhigh : f.homeY - 10 ≤ g.world.bottomY - 50) :
    ∃ f2, (updateFish M rand g).fishPieces[i]? = some f2 ∧
      f2.vx = 0 ∧ f2.vy = 0 ∧ f2.x = f.homeX ∧
      (f.homeY ≤ g.world.bottomY - 80 → f2.y = f.homeY) ∧
      (f.homeY > g.world.bottomY - 80 → f2.y = g.world.bottomY - 80) := by
  obtain ⟨n, hn⟩ := updateFish_getElem M rand g i f hf
  rw [updateOneFish_green M rand g.world _ _ f n hgreen] at hn
  obtain ⟨p1, p2, p3, p4⟩ := greenMoved_hiding M (g.shark.x - g.world.offsetX)
    (g.shark.y - g.world.offsetY) f hhide
  refine ⟨_, hn, ?_⟩
  generalize greenMoved M (g.shark.x - g.world.offsetX) (g.shark.y - g.world.offsetY) f = p
    at p1 p2 p3 p4
  unfold clampY
  simp only []
  have h1 : ¬ p.y < g.world.surfaceY + 80 := by rw [p2]; linarith
  rw [if_neg h1]
  by_cases h2 : p.y > g.world.bottomY - 80
  · rw [if_pos h2]
    refine ⟨p3, by simp [p4], p1, fun h => ?_, fun _ => rfl⟩
    rw [p2] at h2
    exact absurd h2 (not_lt.2 h)
  · rw [if_neg h2]
    refine ⟨p3, p4, p1, fun _ => p2, fun h => ?_⟩
    rw [p2] at h2
    exact absurd h h2

/-- C20, as amended, for a hiding green fish at its home `(100, 1010)`. -/
theorem C20_witness :
    ({ moduleState (800 : ℚ) 600 with
        world := { (moduleState (800 : ℚ) 600).world with surfaceY := 150, bottomY := 2150 },
        fishPieces := [lurkerAt 100 1010 100 1010 FishState.hiding 0] }.fishPieces[0]?
      = some (lurkerAt 100 1010 100 1010 FishState.hiding 0)) ∧
    (lurkerAt (100 : ℚ) 1010 100 1010 FishState.hiding 0).type = FishType.green ∧
    (lurkerAt (100 : ℚ) 1010 100 1010 FishState.hiding 0).state = FishState.hiding ∧
    ((150 : ℚ) + 100 ≤ (lurkerAt (100 : ℚ) 1010 100 1010 FishState.hiding 0).homeY - 10) ∧
    ((lurkerAt (100 : ℚ) 1010 100 1010 FishState.hiding 0).homeY - 10 ≤ (2150 : ℚ) - 50) ∧
    ∃ f2, (updateFish ratMath (fun _ => 0)
      { moduleState (800 : ℚ) 600 with
        world := { (moduleState (800 : ℚ) 600).world with surfaceY := 150, bottomY := 2150 },
        fishPieces := [lurkerAt 100 1010 100 1010 FishState.hiding 0] }).fishPieces[0]?
        = some f2 ∧ f2.vx = 0 ∧ f2.vy = 0 ∧ f2.x = 100 :=
  ⟨rfl, rfl, rfl, by norm_num [lurkerAt], by norm_num [lurkerAt],
    (C20_hiding_fish_sits_at_clamped_home ratMath (fun _ => 0)
      { moduleState (800 : ℚ) 600 with
        world := { (moduleState (800 : ℚ) 600).world with surfaceY := 150, bottomY := 2150 },
        fishPieces := [lurkerAt 100 1010 100 1010 FishState.hiding 0] } 0
      (lurkerAt 100 1010 100 1010 FishState.hiding 0) rfl rfl rfl
      (by norm_num [lurkerAt]) (by norm_num [lurkerAt])).imp
      (fun _ h => ⟨h.1, h.2.1, h.2.2.1, h.2.2.2.1⟩)⟩

set_option maxRecDepth 100000 in
/-- C20 fails as stated: from `initializeGame` on an 800 by 600 canvas, with draws
in `[0, 1)`, a call of `manageSeaweedChunks` at offset `(0, -800)` generates chunk
`(-2, 2)` with a stalk at `y = 2100 = bottomY - 50` and its green fish, fish
number 15, at home `(-1400, 2110)`.  After one `updateFish` tick that fish is
still `hiding` with zero velocity, but at `y = 2070 = bottomY - 80`, not at its
home. -/
theorem C20_counterexample :
    (∃ f ∈ (manageAt ratMath deepDraws (initializeGame ratMath deepDraws (moduleState 800 600))
        (0, -800)).fishPieces[15]?,
      f.type = FishType.green ∧ f.state = FishState.hiding ∧ f.x = (-1400 : ℚ) ∧ f.y = 2110 ∧
        f.homeX = (-1400 : ℚ) ∧ f.homeY = 2110) ∧
    (∃ f2 ∈ (updateFish ratMath deepDraws
        (manageAt ratMath deepDraws (initializeGame ratMath deepDraws (moduleState 800 600))
          (0, -800))).fishPieces[15]?,
      f2.type = FishType.green ∧ f2.state = FishState.hiding ∧ f2.vx = 0 ∧ f2.vy = 0 ∧
        f2.x = (-1400 : ℚ) ∧ f2.y = 2070 ∧ f2.homeY = 2110 ∧ f2.y ≠ f2.homeY) := by
  decide!

/-- C21, as amended: with the real `Math`, let `d` be the distance of a normal
fish from the shark's world position `(sx, sy)`.  When `0 < d < fleeDistance` the
tick treats the fish as fleeing: the velocity first gains the unit vector away
from the shark times `speed * max 0.5 ((fleeDistance - d) / fleeDistance) * 0.4`,
is then multiplied by 0.92, has components shorter than 0.05 set to 0, and is
capped at `0.8 * speed`.  In every other case, `d = 0` included, the fish
wanders: the velocity that `wanderBehave` leaves is multiplied by 0.96, pushed
when shorter than 0.1, and capped at `0.3 * speed`.  The fish then moves by its
velocity and goes through the vertical bounds test. -/
theorem C21_flee_or_wander (M : JSMath ℝ) (hM : M.IsReal) (rand : ℕ → ℝ) (g : Game ℝ)
    (i : ℕ) (f : Fish ℝ) (hf : g.fishPieces[i]? = some f) (hnormal : f.type = FishType.normal)
    (sx sy d : ℝ) (hsx : sx = g.shark.x - g.world.offsetX) (hsy : sy = g.shark.y - g.world.offsetY)
    (hd : d = Real.sqrt ((f.x - sx) ^ 2 + (f.y - sy) ^ 2)) :
    (0 < d ∧ d < f.fleeDistance →
      ∃ a p : Fish ℝ,
        (updateFish M rand g).fishPieces[i]? = some (clampY g.world p) ∧
        ((f.x - sx) / d) ^ 2 + ((f.y - sy) / d) ^ 2 = 1 ∧
        a.vx = f.vx + (f.x - sx) / d * f.speed
                * max 0.5 ((f.fleeDistance - d) / f.fleeDistance) * 0.4 ∧
        a.vy = f.vy + (f.y - sy) / d * f.speed
                * max 0.5 ((f.fleeDistance - d) / f.fleeDistance) * 0.4 ∧
        ∃ ux uy c : ℝ,
          ux = (if |a.vx * 0.92| < 0.05 then 0 else a.vx * 0.92) ∧
          uy = (if |a.vy * 0.92| < 0.05 then 0 else a.vy * 0.92) ∧
          c = Real.sqrt (ux * ux + uy * uy) ∧
          p.vx = (if c > f.speed * 0.8 then ux / c * (f.speed * 0.8) else ux) ∧
          p.vy = (if c > f.speed * 0.8 then uy / c * (f.speed * 0.8) else uy) ∧
          p.x = f.x + p.vx ∧ p.y = f.y + p.vy ∧ p.isFleeing = some true) ∧
    (¬ (0 < d ∧ d < f.fleeDistance) →
      ∃ (n : ℕ) (a p : Fish ℝ),
        (updateFish M rand g).fishPieces[i]? = some (clampY g.world p) ∧
        a = (wanderBehave M rand f n).1 ∧
        ∃ slow ux uy c : ℝ,
          slow = Real.sqrt (a.vx * 0.96 * (a.vx * 0.96) + a.vy * 0.96 * (a.vy * 0.96)) ∧
          ux = (if slow < 0.1 then a.vx * 0.96 + Real.cos (a.swimDirection.getD 0) * 0.1 * 0.3
                else a.vx * 0.96) ∧
          uy = (if slow < 0.1 then a.vy * 0.96 + Real.sin (a.swimDirection.getD 0) * 0.1 * 0.1
                else a.vy * 0.96) ∧
          c = Real.sqrt (ux * ux + uy * uy) ∧
          p.vx = (if c > f.speed * 0.3 then ux / c * (f.speed * 0.3) else ux) ∧
          p.vy = (if c > f.speed * 0.3 then uy / c * (f.speed * 0.3) else uy) ∧
          p.x = f.x + p.vx ∧ p.y = f.y + p.vy ∧ p.isFleeing = some false) := by
  obtain ⟨n, hn⟩ := updateFish_getElem M rand g i f hf
  rw [updateOneFish_eq_clampY, ← hsx, ← hsy] at hn
  obtain ⟨b1, b2⟩ := beforeClamp_normal M rand sx sy f n hnormal
  have hdM : M.sqrt ((f.x - sx) * (f.x - sx) + (f.y - sy) * (f.y - sy)) = d := by
    rw [hM.1, hd, sq, sq]
  rw [hdM] at b1 b2
  constructor
  · intro hc
    rw [b1 ⟨hc.2, hc.1⟩] at hn
    obtain ⟨ux, uy, c, e1, e2, e3, e4, e5, e6, e7, e8⟩ :=
      swimMoved_fleeing M (fleeBehave sx sy d f) rfl
    rw [hM.1] at e3
    refine ⟨fleeBehave sx sy d f, _, hn, ?_, rfl, rfl, ux, uy, c, e1, e2, e3, e4, e5, e6, e7, e8⟩
    rw [hd]
    exact unit_vector _ _ (by rw [← hd]; exact hc.1)
  · intro hc
    rw [b2 (fun h => hc ⟨h.2, h.1⟩)] at hn
    obtain ⟨slow, ux, uy, c, e0, e1, e2, e3, e4, e5, e6, e7, e8⟩ :=
      swimMoved_wandering M (wanderBehave M rand f n).1 rfl
    rw [hM.1] at e0 e3
    rw [hM.2.1] at e1
    rw [hM.2.2.1] at e2
    exact ⟨n, _, _, hn, rfl, slow, ux, uy, c, e0, e1, e2, e3, e4, e5, e6, e7, e8⟩

/-- C21, as amended, for a gold fish 100 units below the shark, inside its flee
distance 150, on an 800 by 600 canvas: the tick treats it as fleeing. -/
theorem C21_witness :
    (JSMath.mk Real.sqrt Real.cos Real.sin (fun y x => Complex.arg ⟨x, y⟩) Real.pi).IsReal ∧
    (steeringState (0 : ℝ) 400 300 [fishAt 400 400 10 "#FFD700"]).fishPieces[0]?
      = some (fishAt 400 400 10 "#FFD700") ∧
    (fishAt (400 : ℝ) 400 10 "#FFD700").type = FishType.normal ∧
    (400 : ℝ) = (steeringState (0 : ℝ) 400 300 [fishAt 400 400 10 "#FFD700"]).shark.x
      - (steeringState (0 : ℝ) 400 300 [fishAt 400 400 10 "#FFD700"]).world.offsetX ∧
    (300 : ℝ) = (steeringState (0 : ℝ) 400 300 [fishAt 400 400 10 "#FFD700"]).shark.y
      - (steeringState (0 : ℝ) 400 300 [fishAt 400 400 10 "#FFD700"]).world.offsetY ∧
    (100 : ℝ) = Real.sqrt (((fishAt (400 : ℝ) 400 10 "#FFD700").x - 400) ^ 2
      + ((fishAt (400 : ℝ) 400 10 "#FFD700").y - 300) ^ 2) ∧
    ∃ p : Fish ℝ, (updateFish
        (JSMath.mk Real.sqrt Real.cos Real.sin (fun y x => Complex.arg ⟨x, y⟩) Real.pi)
        (fun _ => 0) (steeringState (0 : ℝ) 400 300 [fishAt 400 400 10 "#FFD700"])).fishPieces[0]?
        = some (clampY (steeringState (0 : ℝ) 400 300 [fishAt 400 400 10 "#FFD700"]).world p) ∧
      p.isFleeing = some true := by
  have hsx : (400 : ℝ) = (steeringState (0 : ℝ) 400 300 [fishAt 400 400 10 "#FFD700"]).shark.x
      - (steeringState (0 : ℝ) 400 300 [fishAt 400 400 10 "#FFD700"]).world.offsetX := by
    norm_num [steeringState]
  have hsy : (300 : ℝ) = (steeringState (0 : ℝ) 400 300 [fishAt 400 400 10 "#FFD700"]).shark.y
      - (steeringState (0 : ℝ) 400 300 [fishAt 400 400 10 "#FFD700"]).world.offsetY := by
    norm_num [steeringState]
  have hd : (100 : ℝ) = Real.sqrt (((fishAt (400 : ℝ) 400 10 "#FFD700").x - 400) ^ 2
      + ((fishAt (400 : ℝ) 400 10 "#FFD700").y - 300) ^ 2) := by
    show (100 : ℝ) = Real.sqrt (((400 : ℝ) - 400) ^ 2 + ((400 : ℝ) - 300) ^ 2)
    rw [sqrt_vertical]
    norm_num
  obtain ⟨a, p, h1, -, -, -, ux, uy, c, -, -, -, -, -, -, -, h8⟩ :=
    (C21_flee_or_wander
      (JSMath.mk Real.sqrt Real.cos Real.sin (fun y x => Complex.arg ⟨x, y⟩) Real.pi)
      ⟨rfl, rfl, rfl, rfl, fun _ _ => rfl⟩ (fun _ => 0)
      (steeringState (0 : ℝ) 400 300 [fishAt 400 400 10 "#FFD700"]) 0
      (fishAt 400 400 10 "#FFD700") rfl rfl 400 300 100 hsx hsy hd).1
      ⟨by norm_num, by norm_num [fishAt]⟩
  exact ⟨⟨rfl, rfl, rfl, rfl, fun _ _ => rfl⟩, rfl, rfl, hsx, hsy, hd, p, h1, h8⟩

/-- C21 fails as stated for a fish at distance 0: on an 800 by 600 canvas, a gold
fish exactly at the shark's world position `(400, 300)` has `d = 0`, below its
flee distance 150, yet the tick does not treat it as fleeing: `isFleeing` is
`false` afterwards. -/
theorem C21_counterexample :
    Real.sqrt (((fishAt (400 : ℝ) 300 10 "#FFD700").x
          - ((steeringState (0 : ℝ) 400 300 [fishAt 400 300 10 "#FFD700"]).shark.x
            - (steeringState (0 : ℝ) 400 300 [fishAt 400 300 10 "#FFD700"]).world.offsetX)) ^ 2
        + ((fishAt (400 : ℝ) 300 10 "#FFD700").y
          - ((steeringState (0 : ℝ) 400 300 [fishAt 400 300 10 "#FFD700"]).shark.y
            - (steeringState (0 : ℝ) 400 300 [fishAt 400 300 10 "#FFD700"]).world.offsetY)) ^ 2)
      = 0 ∧
    (0 : ℝ) < (fishAt (400 : ℝ) 300 10 "#FFD700").fleeDistance ∧
    (fishAt (400 : ℝ) 300 10 "#FFD700").type = FishType.normal ∧
    ∃ f2, (updateFish
        (JSMath.mk Real.sqrt Real.cos Real.sin (fun y x => Complex.arg ⟨x, y⟩) Real.pi)
        (fun _ => 0) (steeringState (0 : ℝ) 400 300 [fishAt 400 300 10 "#FFD700"])).fishPieces[0]?
        = some f2 ∧
      f2.isFleeing = some false := by
  have hd : Real.sqrt (((400 : ℝ) - (400 - 0)) ^ 2 + ((300 : ℝ) - (300 - 0)) ^ 2) = 0 := by
    rw [sub_zero, sub_zero, sqrt_vertical]
    norm_num
  obtain ⟨n, hn⟩ := updateFish_getElem
    (JSMath.mk Real.sqrt Real.cos Real.sin (fun y x => Complex.arg ⟨x, y⟩) Real.pi)
    (fun _ => 0) (steeringState (0 : ℝ) 400 300 [fishAt 400 300 10 "#FFD700"]) 0
    (fishAt 400 300 10 "#FFD700") rfl
  rw [updateOneFish_eq_clampY] at hn
  have hw := (beforeClamp_normal
    (JSMath.mk Real.sqrt Real.cos Real.sin (fun y x => Complex.arg ⟨x, y⟩) Real.pi)
    (fun _ => 0)
    ((steeringState (0 : ℝ) 400 300 [fishAt 400 300 10 "#FFD700"]).shark.x
      - (steeringState (0 : ℝ) 400 300 [fishAt 400 300 10 "#FFD700"]).world.offsetX)
    ((steeringState (0 : ℝ) 400 300 [fishAt 400 300 10 "#FFD700"]).shark.y
      - (steeringState (0 : ℝ) 400 300 [fishAt 400 300 10 "#FFD700"]).world.offsetY)
    (fishAt 400 300 10 "#FFD700") n rfl).2
    (by
      show ¬ (Real.sqrt (((400 : ℝ) - (400 - 0)) * ((400 : ℝ) - (400 - 0))
          + ((300 : ℝ) - (300 - 0)) * ((300 : ℝ) - (300 - 0))) < 150 ∧
        Real.sqrt (((400 : ℝ) - (400 - 0)) * ((400 : ℝ) - (400 - 0))
          + ((300 : ℝ) - (300 - 0)) * ((300 : ℝ) - (300 - 0))) > 0)
      rw [← sq, ← sq, hd]
      exact fun h => lt_irrefl _ h.2)
  rw [hw] at hn
  refine ⟨hd, by norm_num [fishAt], rfl, _, hn, ?_⟩
  rw [(clampY_frame _ _).2.2.2.2.2.2]
  rfl

/-- C22, as amended: for a chunk of size 800 the number of attempts is
`floor (800 * 800 / 10000 * density * 100)`, which is 16 for seaweed and 3 for
fish.  For a key that is not yet marked, `generateSeaweedChunk` marks it and
runs `seaweedAttempt` 16 times, `generateFishChunk` marks it and runs
`fishAttempt` 3 times; an attempt pushes its stalk, respectively its fish,
exactly when its `y` passes the margin test, and pushes nothing otherwise. -/
theorem C22_attempt_counts (M : JSMath K) (rand : ℕ → K) (cx cy : ℤ) (g : Game K)
    (hS : (cx, cy) ∉ g.generatedChunks) (hF : (cx, cy) ∉ g.fishGeneratedChunks) :
    seaweedCount (chunkSize : K) = 16 ∧ fishCount (chunkSize : K) = 3 ∧
    generateSeaweedChunk M rand cx cy chunkSize g
      = forLoop (fun _ s => seaweedAttempt M rand cx cy chunkSize s) 16 0
          { g with generatedChunks := g.generatedChunks.add (cx, cy) } ∧
    generateFishChunk rand cx cy chunkSize g
      = forLoop (fun _ s => fishAttempt rand cx cy chunkSize s) 3 0
          { g with fishGeneratedChunks := g.fishGeneratedChunks.add (cx, cy) } ∧
    (∀ s : Game K,
      (s.world.surfaceY + 100 ≤ (cy : K) * chunkSize + rand (s.randomCalls + 1) * chunkSize ∧
          (cy : K) * chunkSize + rand (s.randomCalls + 1) * chunkSize ≤ s.world.bottomY - 50 →
        (seaweedAttempt M rand cx cy chunkSize s).seaweedPieces
          = s.seaweedPieces ++ [spawnSeaweed M rand cx cy chunkSize s.randomCalls]) ∧
      (¬ (s.world.surfaceY + 100 ≤ (cy : K) * chunkSize + rand (s.randomCalls + 1) * chunkSize ∧
          (cy : K) * chunkSize + rand (s.randomCalls + 1) * chunkSize ≤ s.world.bottomY - 50) →
        (seaweedAttempt M rand cx cy chunkSize s).seaweedPieces = s.seaweedPieces ∧
        (seaweedAttempt M rand cx cy chunkSize s).fishPieces = s.fishPieces)) ∧
    (∀ s : Game K,
      (s.world.surfaceY + 80 ≤ (cy : K) * chunkSize + rand (s.randomCalls + 1) * chunkSize ∧
          (cy : K) * chunkSize + rand (s.randomCalls + 1) * chunkSize ≤ s.world.bottomY - 80 →
        (fishAttempt rand cx cy chunkSize s).fishPieces
          = s.fishPieces ++ [spawnFish rand cx cy chunkSize s.randomCalls]) ∧
      (¬ (s.world.surfaceY + 80 ≤ (cy : K) * chunkSize + rand (s.randomCalls + 1) * chunkSize ∧
          (cy : K) * chunkSize + rand (s.randomCalls + 1) * chunkSize ≤ s.world.bottomY - 80) →
        (fishAttempt rand cx cy chunkSize s).fishPieces = s.fishPieces)) := by
  refine ⟨seaweedCount_eq, fishCount_eq, ?_, ?_, fun s => seaweedAttempt_spec M rand cx cy _ s,
    fun s => fishAttempt_spec rand cx cy _ s⟩
  · unfold generateSeaweedChunk
    simp only []
    rw [if_neg (by rw [Registry.has_iff]; exact hS), seaweedCount_chunkSize]
  · unfold generateFishChunk
    simp only []
    rw [if_neg (by rw [Registry.has_iff]; exact hF), fishCount_chunkSize]

set_option maxRecDepth 100000 in
/-- C22, as amended, for chunk `(0, 1)` of an 800 by 600 canvas with no chunk
generated yet: the 16 attempts, all accepted under draws `1/4`, leave 16 stalks. -/
theorem C22_witness :
    ((0, 1) : ChunkKey) ∉ (steeringState (0 : ℚ) 400 300 []).generatedChunks ∧
    ((0, 1) : ChunkKey) ∉ (steeringState (0 : ℚ) 400 300 []).fishGeneratedChunks ∧
    generateSeaweedChunk ratMath (fun _ => 1 / 4) 0 1 chunkSize (steeringState (0 : ℚ) 400 300 [])
      = forLoop (fun _ s => seaweedAttempt ratMath (fun _ => 1 / 4) 0 1 chunkSize s) 16 0
          { steeringState (0 : ℚ) 400 300 [] with
            generatedChunks := (steeringState (0 : ℚ) 400 300 []).generatedChunks.add (0, 1) } :=
  ⟨by decide, by decide,
    (C22_attempt_counts ratMath (fun _ => 1 / 4) 0 1 (steeringState (0 : ℚ) 400 300 [])
      (by decide) (by decide)).2.2.1⟩

set_option maxRecDepth 100000 in
/-- C22 fails as stated: `800² × 0.0025` is 1600 and `800² × 0.0005` is 320, but
the counts of the code are 16 and 3.  Under draws `1/4` every attempt for chunk
`(0, 1)` is accepted: `generateSeaweedChunk` makes 96 draws, 6 for each of its
16 attempts, and leaves 16 stalks; `generateFishChunk` makes 24 draws, 8 for
each of its 3 attempts, and leaves 3 fish. -/
theorem C22_counterexample :
    (chunkSize : ℚ) * chunkSize * seaweedDensity = 1600 ∧
    (chunkSize : ℚ) * chunkSize * fishDensity = 320 ∧
    seaweedCount (chunkSize : ℚ) = 16 ∧ fishCount (chunkSize : ℚ) = 3 ∧
    (generateSeaweedChunk ratMath (fun _ => 1 / 4) 0 1 chunkSize
      (steeringState (0 : ℚ) 400 300 [])).seaweedPieces.length = 16 ∧
    (generateSeaweedChunk ratMath (fun _ => 1 / 4) 0 1 chunkSize
      (steeringState (0 : ℚ) 400 300 [])).randomCalls = 96 ∧
    (generateFishChunk (fun _ => 1 / 4) 0 1 chunkSize
      (steeringState (0 : ℚ) 400 300 [])).fishPieces.length = 3 ∧
    (generateFishChunk (fun _ => 1 / 4) 0 1 chunkSize
      (steeringState (0 : ℚ) 400 300 [])).randomCalls = 24 := by
  decide!

/-- C23 fails on the code: `initializeGame` puts the corner `(shark.x, shark.y)`
of the sprite at the viewport centre, and no tick moves it, while `drawShark`
and `updateFishEating` take `(shark.x + width / 2, shark.y + height / 2)` for
the centre.  After `initializeGame` and any number of ticks the visual centre is
the viewport centre plus `(baseWidth, baseHeight) * growthFactor / 2`, which is
where `drawShark` puts the local origin of the sprite; on an 800 by 600 canvas
it is `(440, 320)` after `initializeGame`, not `(400, 300)`. -/
theorem C23_visual_centre_is_offset (M : JSMath K) (rand : ℕ → K) (g : Game K) (n : ℕ) :
    ((gameTick M rand)^[n] (initializeGame M rand g)).canvasWidth = g.canvasWidth ∧
    ((gameTick M rand)^[n] (initializeGame M rand g)).canvasHeight = g.canvasHeight ∧
    ((gameTick M rand)^[n] (initializeGame M rand g)).shark.x
        + ((gameTick M rand)^[n] (initializeGame M rand g)).shark.width / 2
      = g.canvasWidth / 2
        + g.shark.baseWidth
          * ((gameTick M rand)^[n] (initializeGame M rand g)).shark.growthFactor / 2 ∧
    ((gameTick M rand)^[n] (initializeGame M rand g)).shark.y
        + ((gameTick M rand)^[n] (initializeGame M rand g)).shark.height / 2
      = g.canvasHeight / 2
        + g.shark.baseHeight
          * ((gameTick M rand)^[n] (initializeGame M rand g)).shark.growthFactor / 2 ∧
    drawSharkTransform M ((gameTick M rand)^[n] (initializeGame M rand g)) (0, 0)
      = (g.canvasWidth / 2
          + g.shark.baseWidth
            * ((gameTick M rand)^[n] (initializeGame M rand g)).shark.growthFactor / 2,
         g.canvasHeight / 2
          + g.shark.baseHeight
            * ((gameTick M rand)^[n] (initializeGame M rand g)).shark.growthFactor / 2) ∧
    (initializeGame M rand g).shark.x + (initializeGame M rand g).shark.width / 2
      = g.canvasWidth / 2 + g.shark.baseWidth / 2 ∧
    (initializeGame M rand g).shark.y + (initializeGame M rand g).shark.height / 2
      = g.canvasHeight / 2 + g.shark.baseHeight / 2 ∧
    (initializeGame M rand (moduleState 800 600)).shark.x
        + (initializeGame M rand (moduleState 800 600)).shark.width / 2 = 440 ∧
    (initializeGame M rand (moduleState 800 600)).shark.y
        + (initializeGame M rand (moduleState 800 600)).shark.height / 2 = 320 ∧
    (moduleState (800 : K) 600).canvasWidth / 2 = 400 ∧
    (moduleState (800 : K) 600).canvasHeight / 2 = 300 := by
  obtain ⟨h1, h2, h3, h4, -, -, h7, h8⟩ := iterate_gameTick_anchored M rand _ _ _ _ _
    (initializeGame_anchored M rand g) n
  have hx : ((gameTick M rand)^[n] (initializeGame M rand g)).shark.x
        + ((gameTick M rand)^[n] (initializeGame M rand g)).shark.width / 2
      = g.canvasWidth / 2
        + g.shark.baseWidth
          * ((gameTick M rand)^[n] (initializeGame M rand g)).shark.growthFactor / 2 := by
    rw [h3, h7]
  have hy : ((gameTick M rand)^[n] (initializeGame M rand g)).shark.y
        + ((gameTick M rand)^[n] (initializeGame M rand g)).shark.height / 2
      = g.canvasHeight / 2
        + g.shark.baseHeight
          * ((gameTick M rand)^[n] (initializeGame M rand g)).shark.growthFactor / 2 := by
    rw [h4, h8]
  have hi : ∀ s : Game K,
      (initializeGame M rand s).shark.x + (initializeGame M rand s).shark.width / 2
        = s.canvasWidth / 2 + s.shark.baseWidth / 2 ∧
      (initializeGame M rand s).shark.y + (initializeGame M rand s).shark.height / 2
        = s.canvasHeight / 2 + s.shark.baseHeight / 2 := by
    intro s
    obtain ⟨-, -, i3, i4, -, -, i7, i8⟩ := initializeGame_anchored M rand s
    rw [i3, i4, i7, i8, (initializeGame_shark M rand s).1, mul_one, mul_one]
    exact ⟨rfl, rfl⟩
  refine ⟨h1, h2, hx, hy, ?_, (hi g).1, (hi g).2, ?_, ?_, ?_, ?_⟩
  · rw [← hx, ← hy]
    unfold drawSharkTransform canvasTranslate canvasScale canvasRotate
    simp only []
    split_ifs <;> simp
  · rw [(hi _).1]
    norm_num [moduleState]
  · rw [(hi _).2]
    norm_num [moduleState]
  · norm_num [moduleState]
  · norm_num [moduleState]

/-- C24: for draws in `[0, 1)`, every stalk and every fish, normal or green, that
the generation loops of a call of `manageSeaweedChunks` append lies within
`3 * chunkSize` of the view centre on both axes.  So the lists when the call
returns are the earlier entities that are in view followed by all the appended
ones, and a key is unmarked by the call only on account of an earlier entity
that carries it and is out of view. -/
theorem C24_fresh_entities_survive (M : JSMath K) (rand : ℕ → K) (g : Game K)
    (hrand : ∀ n, 0 ≤ rand n ∧ rand n < 1) :
    ∃ e ef,
      (generateAround M rand (getChunkCoords (viewCenterX g) (viewCenterY g)).1
        (getChunkCoords (viewCenterX g) (viewCenterY g)).2 chunkSize g).seaweedPieces
        = g.seaweedPieces ++ e ∧
      (generateAround M rand (getChunkCoords (viewCenterX g) (viewCenterY g)).1
        (getChunkCoords (viewCenterX g) (viewCenterY g)).2 chunkSize g).fishPieces
        = g.fishPieces ++ ef ∧
      (∀ a ∈ e, |a.x - viewCenterX g| ≤ chunkSize * 3 ∧ |a.y - viewCenterY g| ≤ chunkSize * 3) ∧
      (∀ f ∈ ef, |f.x - viewCenterX g| ≤ chunkSize * 3 ∧ |f.y - viewCenterY g| ≤ chunkSize * 3) ∧
      (manageSeaweedChunks M rand g).seaweedPieces
        = g.seaweedPieces.filter
            (fun a => inView (viewCenterX g) (viewCenterY g) (chunkSize * 3) a.x a.y) ++ e ∧
      (manageSeaweedChunks M rand g).fishPieces
        = g.fishPieces.filter
            (fun f => inView (viewCenterX g) (viewCenterY g) (chunkSize * 3) f.x f.y) ++ ef ∧
      (∀ k, k ∈ (manageSeaweedChunks M rand g).generatedChunks ↔
        k ∈ (generateAround M rand (getChunkCoords (viewCenterX g) (viewCenterY g)).1
            (getChunkCoords (viewCenterX g) (viewCenterY g)).2 chunkSize g).generatedChunks ∧
        ∀ a ∈ g.seaweedPieces,
          inView (viewCenterX g) (viewCenterY g) (chunkSize * 3) a.x a.y = false →
            a.chunkKey ≠ k) ∧
      (∀ k, k ∈ (manageSeaweedChunks M rand g).fishGeneratedChunks ↔
        k ∈ (generateAround M rand (getChunkCoords (viewCenterX g) (viewCenterY g)).1
            (getChunkCoords (viewCenterX g) (viewCenterY g)).2 chunkSize g).fishGeneratedChunks ∧
        ∀ f ∈ g.fishPieces,
          inView (viewCenterX g) (viewCenterY g) (chunkSize * 3) f.x f.y = false →
            f.chunkKey ≠ k) := by
  have h3 : (chunkSize : K) * 3 = 2400 := by unfold chunkSize; norm_num
  obtain ⟨e, ef, h1, h2, he, hef⟩ := generateAround_positions M rand
    (getChunkCoords (viewCenterX g) (viewCenterY g)).1
    (getChunkCoords (viewCenterX g) (viewCenterY g)).2 chunkSize g
    (fun x y => |x - viewCenterX g| ≤ chunkSize * 3 ∧ |y - viewCenterY g| ≤ chunkSize * 3)
    (by
      intro dx dy dx1 dx2 dy1 dy2 n
      have hy1 : dy ≤ 2 := by omega
      have hy2 : -2 ≤ dy := by omega
      have x0 := near_chunk (viewCenterX g) dx (rand n) 0 dx1 dx2 (hrand n).1 (hrand n).2
        le_rfl (by norm_num) (fun _ => rfl)
      have y0 := near_chunk (viewCenterY g) dy (rand (n + 1)) 0 hy2 hy1 (hrand (n + 1)).1
        (hrand (n + 1)).2 le_rfl (by norm_num) (fun _ => rfl)
      have y10 := near_chunk (viewCenterY g) dy (rand (n + 1)) 10 hy2 hy1 (hrand (n + 1)).1
        (hrand (n + 1)).2 (by norm_num) le_rfl (fun h => by omega)
      rw [add_zero] at x0 y0
      rw [h3]
      exact ⟨⟨x0, y0⟩, ⟨x0, y10⟩, ⟨x0, y0⟩⟩)
  have hin : ∀ x y : K, |x - viewCenterX g| ≤ chunkSize * 3 ∧ |y - viewCenterY g| ≤ chunkSize * 3 →
      inView (viewCenterX g) (viewCenterY g) (chunkSize * 3) x y = true := by
    intro x y h
    rw [inView_iff, decide_eq_true_iff, ← h3]
    exact h
  obtain ⟨m1, m2, -⟩ := manageSeaweedChunks_spec M rand g
  obtain ⟨r1, r2⟩ := manageSeaweedChunks_registries M rand g
  refine ⟨e, ef, h1, h2, he, hef, ?_, ?_, ?_, ?_⟩
  · have hk : e.filter
        (fun a => inView (viewCenterX g) (viewCenterY g) (chunkSize * 3) a.x a.y) = e :=
      List.filter_eq_self.2 (fun a ha => hin _ _ (he a ha))
    rw [m1, h1, List.filter_append, hk]
  · have hk : ef.filter
        (fun f => inView (viewCenterX g) (viewCenterY g) (chunkSize * 3) f.x f.y) = ef :=
      List.filter_eq_self.2 (fun f hf => hin _ _ (hef f hf))
    rw [m2, h2, List.filter_append, hk]
  · intro k
    rw [r1 k, h1]
    constructor
    · rintro ⟨k1, k2⟩
      exact ⟨k1, fun a ha => k2 a (List.mem_append_left _ ha)⟩
    · rintro ⟨k1, k2⟩
      refine ⟨k1, fun a ha hv => ?_⟩
      rcases List.mem_append.1 ha with ha | ha
      · exact k2 a ha hv
      · rw [hin _ _ (he a ha)] at hv
        exact absurd hv (by simp)
  · intro k
    rw [r2 k, h2]
    constructor
    · rintro ⟨k1, k2⟩
      exact ⟨k1, fun f hf => k2 f (List.mem_append_left _ hf)⟩
    · rintro ⟨k1, k2⟩
      refine ⟨k1, fun f hf hv => ?_⟩
      rcases List.mem_append.1 hf with hf | hf
      · exact k2 f hf hv
      · rw [hin _ _ (hef f hf)] at hv
        exact absurd hv (by simp)

set_option maxRecDepth 100000 in
/-- C24 on an 800 by 600 canvas with nothing generated yet, under draws `1/4`:
the call appends 80 stalks and 15 fish, and all of them are there when it
returns. -/
theorem C24_witness :
    (∀ n : ℕ, (0 : ℚ) ≤ (fun _ => 1 / 4 : ℕ → ℚ) n ∧ (fun _ => 1 / 4 : ℕ → ℚ) n < 1) ∧
    (manageSeaweedChunks ratMath (fun _ => 1 / 4)
      (steeringState (0 : ℚ) 400 300 [])).seaweedPieces.length = 80 ∧
    (manageSeaweedChunks ratMath (fun _ => 1 / 4)
      (steeringState (0 : ℚ) 400 300 [])).fishPieces.length = 15 ∧
    ∃ e ef,
      (manageSeaweedChunks ratMath (fun _ => 1 / 4)
        (steeringState (0 : ℚ) 400 300 [])).seaweedPieces
        = (steeringState (0 : ℚ) 400 300 []).seaweedPieces.filter
            (fun a => inView (viewCenterX (steeringState (0 : ℚ) 400 300 []))
              (viewCenterY (steeringState (0 : ℚ) 400 300 [])) (chunkSize * 3) a.x a.y) ++ e ∧
      (manageSeaweedChunks ratMath (fun _ => 1 / 4)
        (steeringState (0 : ℚ) 400 300 [])).fishPieces
        = (steeringState (0 : ℚ) 400 300 []).fishPieces.filter
            (fun f => inView (viewCenterX (steeringState (0 : ℚ) 400 300 []))
              (viewCenterY (steeringState (0 : ℚ) 400 300 [])) (chunkSize * 3) f.x f.y) ++ ef :=
  ⟨fun _ => by norm_num, by decide!, by decide!,
    (C24_fresh_entities_survive ratMath (fun _ => 1 / 4) (steeringState (0 : ℚ) 400 300 [])
      (fun _ => by norm_num)).imp
      (fun _ h => h.imp (fun _ h2 => ⟨h2.2.2.2.2.1, h2.2.2.2.2.2.1⟩))⟩

/-- C25: when `Math.PI` is not zero, every fish of the state has `speed ≥ 0` and
every particle has `maxLife > 0`, the embeddings of `updateWorld`, `updateFish`
and `updateBloodParticles` with checked divisions never take the error branch:
each returns the result of the total embedding.  The divisors are the target
distance behind `distance > 50`, `Math.PI`, the distances behind `dist > 2` and
`0 < distance < fleeDistance`, `fleeDistance`, `Math.PI * 2`, the speed behind
`currentSpeed > maxSpeed`, `maxLife` and `0.7`; the call of `manageSeaweedChunks`
in `updateWorld` divides by the literals 800, 10000 and 2. -/
theorem C25_no_division_by_zero (M : JSMath K) (rand : ℕ → K) (g : Game K) (hPI : M.PI ≠ 0)
    (hspeed : ∀ f ∈ g.fishPieces, 0 ≤ f.speed)
    (hlife : ∀ p ∈ g.bloodParticles, 0 < p.maxLife) :
    updateWorldChecked M rand g = some (updateWorld M rand g) ∧
    updateFishChecked M rand g = some (updateFish M rand g) ∧
    updateBloodParticlesChecked rand g = some (updateBloodParticles rand g) ∧
    (chunkSize : K) ≠ 0 ∧ (10000 : K) ≠ 0 ∧ (2 : K) ≠ 0 :=
  ⟨updateWorldChecked_eq M rand g hPI, updateFishChecked_eq M rand g hPI hspeed,
    updateBloodParticlesChecked_eq rand g hlife, by unfold chunkSize; norm_num, by norm_num,
    by norm_num⟩

set_option maxRecDepth 100000 in
/-- C25 with the real `Math` on an 800 by 600 canvas with one fish and one
particle; and the error branch is there: a particle with `maxLife = 0` makes the
checked `updateBloodParticles` fail. -/
theorem C25_witness :
    (JSMath.mk Real.sqrt Real.cos Real.sin (fun y x => Complex.arg ⟨x, y⟩) Real.pi).PI ≠ 0 ∧
    (∀ f ∈ ({ steeringState (0 : ℝ) 400 200 [fishAt 400 400 10 "#FFD700"] with
        bloodParticles := [particleAt 100 100 120] } : Game ℝ).fishPieces, 0 ≤ f.speed) ∧
    (∀ p ∈ ({ steeringState (0 : ℝ) 400 200 [fishAt 400 400 10 "#FFD700"] with
        bloodParticles := [particleAt 100 100 120] } : Game ℝ).bloodParticles, 0 < p.maxLife) ∧
    updateWorldChecked
        (JSMath.mk Real.sqrt Real.cos Real.sin (fun y x => Complex.arg ⟨x, y⟩) Real.pi)
        (fun _ => 0)
        ({ steeringState (0 : ℝ) 400 200 [fishAt 400 400 10 "#FFD700"] with
          bloodParticles := [particleAt 100 100 120] } : Game ℝ)
      = some (updateWorld
        (JSMath.mk Real.sqrt Real.cos Real.sin (fun y x => Complex.arg ⟨x, y⟩) Real.pi)
        (fun _ => 0)
        ({ steeringState (0 : ℝ) 400 200 [fishAt 400 400 10 "#FFD700"] with
          bloodParticles := [particleAt 100 100 120] } : Game ℝ)) ∧
    updateFishChecked
        (JSMath.mk Real.sqrt Real.cos Real.sin (fun y x => Complex.arg ⟨x, y⟩) Real.pi)
        (fun _ => 0)
        ({ steeringState (0 : ℝ) 400 200 [fishAt 400 400 10 "#FFD700"] with
          bloodParticles := [particleAt 100 100 120] } : Game ℝ)
      = some (updateFish
        (JSMath.mk Real.sqrt Real.cos Real.sin (fun y x => Complex.arg ⟨x, y⟩) Real.pi)
        (fun _ => 0)
        ({ steeringState (0 : ℝ) 400 200 [fishAt 400 400 10 "#FFD700"] with
          bloodParticles := [particleAt 100 100 120] } : Game ℝ)) ∧
    updateBloodParticlesChecked (fun _ => 0)
        ({ steeringState (0 : ℝ) 400 200 [fishAt 400 400 10 "#FFD700"] with
          bloodParticles := [particleAt 100 100 120] } : Game ℝ)
      = some (updateBloodParticles (fun _ => 0)
        ({ steeringState (0 : ℝ) 400 200 [fishAt 400 400 10 "#FFD700"] with
          bloodParticles := [particleAt 100 100 120] } : Game ℝ)) ∧
    (updateBloodParticlesChecked (fun _ => 0)
        ({ moduleState (800 : ℚ) 600 with
          bloodParticles := [particleAt 100 100 0] } : Game ℚ)).isNone = true :=
  have hPI : (JSMath.mk Real.sqrt Real.cos Real.sin (fun y x => Complex.arg ⟨x, y⟩)
      Real.pi).PI ≠ 0 := Real.pi_ne_zero
  have hspeed : ∀ f ∈ ({ steeringState (0 : ℝ) 400 200 [fishAt 400 400 10 "#FFD700"] with
      bloodParticles := [particleAt 100 100 120] } : Game ℝ).fishPieces, 0 ≤ f.speed := by
    intro f hf
    rw [List.mem_singleton.1 hf]
    norm_num [fishAt]
  have hlife : ∀ p ∈ ({ steeringState (0 : ℝ) 400 200 [fishAt 400 400 10 "#FFD700"] with
      bloodParticles := [particleAt 100 100 120] } : Game ℝ).bloodParticles, 0 < p.maxLife := by
    intro p hp
    rw [List.mem_singleton.1 hp]
    norm_num [particleAt]
  have h := C25_no_division_by_zero
    (JSMath.mk Real.sqrt Real.cos Real.sin (fun y x => Complex.arg ⟨x, y⟩) Real.pi)
    (fun _ => 0) _ hPI hspeed hlife
  ⟨hPI, hspeed, hlife, h.1, h.2.1, h.2.2.1, by decide!⟩

end FishEater
